import Mathlib

/-!
League Overseer: match officiating plugin

A shallow embedding of `leagueOverSeer.cpp`.

* The plugin object (`class LeagueOverseer`) is the record `LeagueOverseer`; every handler
  takes the plugin state and a `Host` (what the game server answers when it is queried
  during that handler) and gives back the new plugin state together with the list of host
  actions it invoked, in order.
* `double` clock readings and durations are whole seconds (`Int`). An `int` holds a value
  between `INT_MIN` and `INT_MAX` (32 bits): what `atoi` returns and what `++` leaves in a
  score counter is reduced into that range by `wrapInt`, as the platform does.
* A `std::string` is a `String`, one `Char` per C++ `char`.
* `std::map<std::string, std::string>` is an association list read through `mottoOf`:
  `operator[]` on a missing key yields the empty string.
* `bz_debugMessage` / `bz_debugMessagef` write to the server log only and are left out.
* The source does not compile as it stands: where it names an undeclared identifier
  (`teamOne`, `teamTwo`, `match`, `bzid`, `mottoData` inside the tick case) the declared
  one it stands for is used (`TEAM_ONE`, `TEAM_TWO`, `officialMatch`, `bzID`, `playerRecord`).
-/

namespace Overseer

/-! ## Host types -/

/-- Modelled from the spec: the host's colour enumeration `bz_eTeamType` (declared in
`bzfsAPI.h`, which is not among the sources), in its fixed enumeration order. -/
inductive bz_eTeamType
  | eAutomaticTeam
  | eNoTeam
  | eRogueTeam
  | eRedTeam
  | eGreenTeam
  | eBlueTeam
  | ePurpleTeam
  | eRabbitTeam
  | eHunterTeam
  | eObservers
  | eAdministrators
  deriving DecidableEq, Repr

open bz_eTeamType

/-- Modelled from the spec: the host's calendar time record `bz_Time` as filled in by
`bz_getUTCtime` (declared in `bzfsAPI.h`). -/
structure bz_Time where
  year : Int
  month : Int
  day : Int
  hour : Int
  minute : Int
  second : Int
  deriving DecidableEq, Repr

/-- Modelled from the spec: the fields of the host's `bz_BasePlayerRecord` that the plugin
reads (declared in `bzfsAPI.h`). -/
structure bz_BasePlayerRecord where
  playerID : Int
  callsign : String
  bzID : String
  ipAddress : String
  team : bz_eTeamType
  verified : Bool
  admin : Bool
  deriving DecidableEq, Repr

/-- What the host answers when queried during one handler call. `players` is
`bz_getPlayerIndexList` with `bz_getPlayerByIndex` applied, in enumeration order. -/
structure Host where
  players : List bz_BasePlayerRecord
  teamCount : bz_eTeamType → Int
  teamPlayerLimit : bz_eTeamType → Int
  hasPerm : Int → String → Bool
  countDownActive : Bool
  countDownInProgress : Bool
  countDownPaused : Bool
  currentTime : Int
  timeLimit : Int
  utcTime : bz_Time
  publicAddr : String
  publicPort : String
  startRecBuf : Bool
  urlEncode : String → String

/-- Receiver of a text message: one player slot, `BZ_ALLUSERS`, or a team. -/
inductive MessageTarget
  | player (playerID : Int)
  | allUsers
  | team (t : bz_eTeamType)
  deriving DecidableEq, Repr

/-- The host primitives a handler invokes. -/
inductive HostAction
  | sendTextMessage (target : MessageTarget) (message : String)
  | startCountdown (delay : Int) (limit : Int) (byWho : String)
  | pauseCountdown (byWho : String)
  | resumeCountdown (byWho : String)
  | gameOver (playerID : Int) (team : bz_eTeamType)
  | addURLJob (url : String) (postData : String)
  | startRecBuf
  | saveRecBuf (fileName : String) (seconds : Int)
  | stopRecBuf
  | grantPerm (playerID : Int) (perm : String)
  | setMotto (motto : String)
  deriving DecidableEq, Repr

/-! ## Plugin data -/

/-- The source's `struct MatchParticipant`. -/
structure MatchParticipant where
  bzID : String
  callsign : String
  ipAddress : String
  teamName : String
  teamColor : bz_eTeamType
  deriving DecidableEq, Repr

/-- The source's `struct OfficialMatch`. -/
structure OfficialMatch where
  playersRecorded : Bool
  canceled : Bool
  cancelationReason : String
  teamOneName : String
  teamTwoName : String
  startTime : Int
  duration : Int
  teamOnePoints : Int
  teamTwoPoints : Int
  matchParticipants : List MatchParticipant
  deriving DecidableEq, Repr

/-- The default constructor `OfficialMatch ()`. -/
def OfficialMatch.new : OfficialMatch where
  playersRecorded := false
  canceled := false
  cancelationReason := ""
  teamOneName := "Team-A"
  teamTwoName := "Team-B"
  startTime := -1
  duration := -1
  teamOnePoints := 0
  teamTwoPoints := 0
  matchParticipants := []

/-- The member variables of `class LeagueOverseer`; `officialMatch = none` is the null
pointer (no official match). -/
structure LeagueOverseer where
  ROTATION_LEAGUE : Bool
  RECORDING : Bool
  DEBUG_LEVEL : Int
  MATCH_ROLLCALL : Int
  LEAGUE_URL : String
  MAP_NAME : String
  MAPCHANGE_PATH : String
  TEAM_ONE : bz_eTeamType
  TEAM_TWO : bz_eTeamType
  officialMatch : Option OfficialMatch
  teamMottos : List (String × String)
  deriving DecidableEq, Repr

/-- The value of `teamMottos[bzID]`. -/
def mottoOf (teamMottos : List (String × String)) (bzID : String) : String :=
  match teamMottos.find? (fun kv => kv.1 = bzID) with
  | some kv => kv.2
  | none => ""

/-- State and emitted host actions at the point where a handler stops. -/
structure Step where
  state : LeagueOverseer
  actions : List HostAction
  deriving DecidableEq, Repr

/-- How a handler call ends: it returns, or a C++ exception leaves it (with the state and
the actions reached at the throw). -/
inductive EventResult
  | returned (r : Step)
  | raised (r : Step)
  deriving DecidableEq, Repr

/-! ## Helpers of the source -/

/-- The source's `intToString`. -/
def intToString (number : Int) : String := toString number

/-- The conversion `double -> int` of `duration/60` (truncation toward zero). -/
def minutesOf (duration : Int) : Int := Int.tdiv duration 60

/-- The `printf` conversion `%02d`. -/
def pad2 (v : Int) : String :=
  let s := toString v
  if s.length < 2 then "0" ++ s else s

/-- The `sprintf` call that fills `matchDate`. -/
def formatMatchDate (t : bz_Time) : String :=
  pad2 t.year ++ "-" ++ pad2 t.month ++ "-" ++ pad2 t.day ++ " " ++
    pad2 t.hour ++ ":" ++ pad2 t.minute ++ ":" ++ pad2 t.second

/-- Number of values of `size_t` (64-bit). -/
def SIZE_RANGE : Nat := 2 ^ 64

/-- The call `std::string::erase(index)`: `std::out_of_range` (here `none`) when
`index > size()`, otherwise everything from `index` on is removed. -/
def stringErase (s : String) (index : Nat) : Option String :=
  if index > s.length then none else some ⟨s.data.take index⟩

/-- The loop of `buildBZIDString`, started with `teamString` as accumulated so far. -/
def buildBZIDLoop (urlEncode : String → String) (team : bz_eTeamType) :
    List MatchParticipant → String → String
  | [], teamString => teamString
  | p :: rest, teamString =>
    if p.teamColor = team then
      buildBZIDLoop urlEncode team rest (teamString ++ (urlEncode p.bzID ++ ","))
    else
      buildBZIDLoop urlEncode team rest teamString

/-- The source's `buildBZIDString`; `none` when `erase` throws. The index
`teamString.size() - 1` is computed in `size_t`: subtracting 1 is adding `SIZE_RANGE - 1`
modulo `SIZE_RANGE`. -/
def buildBZIDString (h : Host) (m : OfficialMatch) (team : bz_eTeamType) : Option String :=
  let teamString := buildBZIDLoop h.urlEncode team m.matchParticipants ""
  stringErase teamString ((SIZE_RANGE - 1 + teamString.length) % SIZE_RANGE)

/-- The C library's `isspace` in the default locale. -/
def isspace (c : Char) : Bool :=
  c = ' ' || c = '\t' || c = '\n' || c = '\r' || c.toNat = 11 || c.toNat = 12

/-- The largest value of an `int` (32 bits). -/
def INT_MAX : Int := 2147483647

/-- The smallest value of an `int`. -/
def INT_MIN : Int := -2147483648

/-- The largest value of a `long` (64 bits). -/
def LONG_MAX : Int := 9223372036854775807

/-- The smallest value of a `long`. -/
def LONG_MIN : Int := -9223372036854775808

/-- The value an `int` holds when `x` is stored in it: `x` itself between `INT_MIN` and
`INT_MAX`, and `x` reduced modulo `2 ^ 32` into that range otherwise (two's complement; this
is what the conversion from `long` gives and what `++` leaves at `INT_MAX`). -/
def wrapInt (x : Int) : Int := (2147483648 + x) % 4294967296 - 2147483648

/-- The digit loop of `strtol`, with the value read so far. -/
def atoiDigits : List Char → Int → Int
  | [], acc => acc
  | c :: rest, acc =>
    if c.isDigit then atoiDigits rest (acc * 10 + ((c.toNat : Int) - 48)) else acc

/-- The number a string begins with: leading white space, an optional sign, then decimal
digits; 0 when there is no digit. -/
def decimalValue (str : String) : Int :=
  match str.data.dropWhile isspace with
  | '-' :: rest => - atoiDigits rest 0
  | '+' :: rest => atoiDigits rest 0
  | rest => atoiDigits rest 0

/-- The C library's `strtol (str, NULL, 10)`: the number the string begins with, held at
`LONG_MIN` or `LONG_MAX` when it does not fit a `long`. -/
def strtol (str : String) : Int :=
  if decimalValue str < LONG_MIN then LONG_MIN
  else if LONG_MAX < decimalValue str then LONG_MAX
  else decimalValue str

/-- The C library's `atoi`, that is `(int) strtol (str, NULL, 10)`: the number the string
begins with when it fits an `int`, and the low 32 bits of what `strtol` returns otherwise. -/
def atoi (str : String) : Int := wrapInt (strtol str)

/-- The C library's `isdigit` on an `int`. -/
def isdigit (c : Int) : Bool := decide (48 ≤ c) && decide (c ≤ 57)

/-- The test `strncmp (lit, command, n) == 0` with `n` the length of `lit`. -/
def startsWith (command lit : String) : Bool :=
  decide (command.data.take lit.length = lit.data)

/-- The host's `bz_getPlayerByIndex`, `none` for the null pointer. -/
def bz_getPlayerByIndex (h : Host) (playerID : Int) : Option bz_BasePlayerRecord :=
  h.players.find? (fun p => p.playerID = playerID)

/-- The source's `bz_getPlayerByCallsign`. -/
def bz_getPlayerByCallsign (h : Host) (callsign : String) : Option bz_BasePlayerRecord :=
  h.players.find? (fun p => p.callsign = callsign)

/-- The source's `isValidPlayerID`. -/
def isValidPlayerID (h : Host) (playerID : Int) : Bool :=
  (bz_getPlayerByIndex h playerID).isSome

/-! ## Roll call -/

/-- The source's `validateTeamName`; the three reference parameters `invalidate`,
`teamError` and `teamName` are returned, in that order. -/
def validateTeamName (invalidate teamError : Bool) (currentPlayer : MatchParticipant)
    (teamName : String) (team : bz_eTeamType) : Bool × Bool × String :=
  if currentPlayer.teamColor = team then
    if teamName = "" then
      (invalidate, teamError, currentPlayer.teamName)
    else if teamName ≠ currentPlayer.teamName then
      (true, true, teamName)
    else
      (invalidate, teamError, teamName)
  else
    (invalidate, teamError, teamName)

/-- The source's `requestTeamName (callsign, bzID)`: one job to `LEAGUE_URL`. -/
def requestTeamName (s : LeagueOverseer) (_callsign bzID : String) : List HostAction :=
  [HostAction.addURLJob s.LEAGUE_URL ("query=teamNameQuery" ++ ("&teamPlayers=" ++ bzID))]

/-- The source's `requestTeamName (team)`: one request per connected member of `team`. -/
def requestTeamNameOfTeam (s : LeagueOverseer) (h : Host) (team : bz_eTeamType) :
    List HostAction :=
  (h.players.filter (fun playerRecord => playerRecord.team = team)).flatMap
    (fun playerRecord => requestTeamName s playerRecord.callsign playerRecord.bzID)

/-- The local variables of the roll call in the tick case, with the sampled participants. -/
structure RollCall where
  invalidateRollcall : Bool
  teamOneError : Bool
  teamTwoError : Bool
  teamOneMotto : String
  teamTwoMotto : String
  matchParticipants : List MatchParticipant
  deriving DecidableEq, Repr

/-- The locals as initialised before the loop, over the participants recorded so far. -/
def RollCall.start (recorded : List MatchParticipant) : RollCall where
  invalidateRollcall := false
  teamOneError := false
  teamTwoError := false
  teamOneMotto := ""
  teamTwoMotto := ""
  matchParticipants := recorded

/-- One iteration of the roll-call loop (lines 577-596). -/
def rollCallStep (s : LeagueOverseer) (r : RollCall) (playerRecord : bz_BasePlayerRecord) :
    RollCall :=
  if playerRecord.team ≠ eObservers then
    let currentPlayer : MatchParticipant :=
      { bzID := playerRecord.bzID
        callsign := playerRecord.callsign
        ipAddress := playerRecord.ipAddress
        teamName := mottoOf s.teamMottos playerRecord.bzID
        teamColor := playerRecord.team }
    let v1 := validateTeamName r.invalidateRollcall r.teamOneError currentPlayer
      r.teamOneMotto s.TEAM_ONE
    let v2 := validateTeamName v1.1 r.teamTwoError currentPlayer r.teamTwoMotto s.TEAM_TWO
    { invalidateRollcall := if currentPlayer.bzID = "" then true else v2.1
      teamOneError := v1.2.1
      teamTwoError := v2.2.1
      teamOneMotto := v1.2.2
      teamTwoMotto := v2.2.2
      matchParticipants := r.matchParticipants ++ [currentPlayer] }
  else r

/-- The roll-call loop over the player list. -/
def rollCallLoop (s : LeagueOverseer) (players : List bz_BasePlayerRecord) (r : RollCall) :
    RollCall :=
  players.foldl (rollCallStep s) r

/-! ## Event handlers -/

/-- Case `bz_eCaptureEvent` of `Event`; the counters are `int`s and `++` stores the
incremented value in one. -/
def Event_bz_eCaptureEvent (s : LeagueOverseer) (teamCapping : bz_eTeamType) : Step :=
  match s.officialMatch with
  | some m =>
    if teamCapping = s.TEAM_ONE then
      ⟨{ s with officialMatch := some { m with
          teamOnePoints := wrapInt (m.teamOnePoints + 1) } }, []⟩
    else
      ⟨{ s with officialMatch := some { m with
          teamTwoPoints := wrapInt (m.teamTwoPoints + 1) } }, []⟩
  | none => ⟨s, []⟩

/-- The POST data `matchToSend` built in the last arm of the game-end case (lines 381-415);
`none` when `buildBZIDString` throws. -/
def matchToSend (s : LeagueOverseer) (h : Host) (m : OfficialMatch) : Option String :=
  let matchDate := formatMatchDate h.utcTime
  let teamOnePointsFinal := intToString m.teamOnePoints
  let teamTwoPointsFinal := intToString m.teamTwoPoints
  let matchDuration := intToString (minutesOf m.duration)
  let d0 := "query=reportMatch"
  let d1 := d0 ++ ("&teamOneWins=" ++ h.urlEncode teamOnePointsFinal)
  let d2 := d1 ++ ("&teamTwoWins=" ++ h.urlEncode teamTwoPointsFinal)
  let d3 := d2 ++ ("&duration=" ++ h.urlEncode matchDuration)
  let d4 := d3 ++ ("&matchTime=" ++ h.urlEncode matchDate)
  let d5 := d4 ++ ("&server=" ++ h.urlEncode h.publicAddr)
  let d6 := d5 ++ ("&port=" ++ h.urlEncode h.publicPort)
  let d7 := if s.ROTATION_LEAGUE then d6 ++ ("&mapPlayed=" ++ h.urlEncode s.MAP_NAME) else d6
  match buildBZIDString h m s.TEAM_ONE with
  | none => none
  | some one =>
    let d8 := d7 ++ ("&teamOnePlayers=" ++ one)
    match buildBZIDString h m s.TEAM_TWO with
    | none => none
    | some two => some (d8 ++ ("&teamTwoPlayers=" ++ two))

/-- The if / else-if chain that opens the game-end case (lines 357-425): the host actions
of the arm taken, `none` when the reporting arm is left by an exception. -/
def gameEndReport (s : LeagueOverseer) (h : Host) : Option (List HostAction) :=
  match s.officialMatch with
  | none => some []
  | some m =>
    if m.canceled then
      some [HostAction.sendTextMessage MessageTarget.allUsers m.cancelationReason]
    else if m.matchParticipants.isEmpty then
      some [HostAction.sendTextMessage MessageTarget.allUsers
        "Official match could not be reported due to not having a list of valid match participants."]
    else
      match matchToSend s h m with
      | none => none
      | some postData =>
        some [HostAction.sendTextMessage MessageTarget.allUsers "Reporting match...",
              HostAction.addURLJob s.LEAGUE_URL postData]

/-- The two `sprintf` calls that fill `tempRecordingFileName`. -/
def recordingFileName (s : LeagueOverseer) (t : bz_Time) : String :=
  match s.officialMatch with
  | some m =>
    let matchCanceled := if m.canceled then "-Canceled" else ""
    "Official-" ++ toString t.year ++ pad2 t.month ++ pad2 t.day ++ "-" ++ m.teamOneName ++
      "-vs-" ++ m.teamTwoName ++ "-" ++ pad2 t.hour ++ pad2 t.minute ++ matchCanceled ++ ".rec"
  | none =>
    "Fun_Match-" ++ toString t.year ++ pad2 t.month ++ pad2 t.day ++ "-" ++
      pad2 t.hour ++ pad2 t.minute ++ ".rec"

/-- Case `bz_eGameEndEvent` of `Event`. -/
def Event_bz_eGameEndEvent (s : LeagueOverseer) (h : Host) : EventResult :=
  match gameEndReport s h with
  | none => EventResult.raised ⟨s, []⟩
  | some reported =>
    if s.RECORDING then
      let fileName := recordingFileName s h.utcTime
      EventResult.returned
        ⟨{ s with RECORDING := false, officialMatch := none },
         reported ++ [HostAction.saveRecBuf fileName 0, HostAction.stopRecBuf,
           HostAction.sendTextMessage MessageTarget.allUsers ("Match saved as: " ++ fileName)]⟩
    else
      EventResult.returned ⟨{ s with officialMatch := none }, reported⟩

/-- Case `bz_eGameStartEvent` of `Event`. -/
def Event_bz_eGameStartEvent (s : LeagueOverseer) (h : Host) : Step :=
  let s1 := { s with RECORDING := h.startRecBuf }
  match s1.officialMatch with
  | some m =>
    ⟨{ s1 with officialMatch := some { m with teamOnePoints := 0, teamTwoPoints := 0,
                                              startTime := h.currentTime,
                                              duration := h.timeLimit } },
     [HostAction.startRecBuf]⟩
  | none => ⟨s1, [HostAction.startRecBuf]⟩

/-- The first half of the tick case (lines 541-559): clean up when nobody is playing. -/
def tickCleanup (s : LeagueOverseer) (h : Host) : Step :=
  let totaltanks := h.teamCount eRedTeam + h.teamCount eGreenTeam + h.teamCount eBlueTeam +
    h.teamCount ePurpleTeam
  if totaltanks = 0 then
    let s1 : LeagueOverseer :=
      match s.officialMatch with
      | some m =>
        { s with officialMatch := some { m with
            canceled := true
            cancelationReason :=
              "Official match automatically canceled due to all players leaving the match." } }
      | none => s
    ⟨s1, if h.countDownActive then [HostAction.gameOver 253 eObservers] else []⟩
  else ⟨s, []⟩

/-- The gate of the roll call (lines 567-569). -/
def rollCallDue (s : LeagueOverseer) (h : Host) (m : OfficialMatch) : Bool :=
  decide (m.startTime ≥ 0) && decide (m.startTime + s.MATCH_ROLLCALL < h.currentTime) &&
    m.matchParticipants.isEmpty

/-- The second half of the tick case (lines 561-617): the roll call. -/
def tickRollCall (s : LeagueOverseer) (h : Host) : Step :=
  match s.officialMatch with
  | some m =>
    if rollCallDue s h m then
      let r := rollCallLoop s h.players (RollCall.start m.matchParticipants)
      if r.invalidateRollcall ∧ s.MATCH_ROLLCALL + 30 < m.duration then
        ⟨{ s with MATCH_ROLLCALL := s.MATCH_ROLLCALL + 60
                  officialMatch := some { m with matchParticipants := [] } },
         (if r.teamOneError then requestTeamNameOfTeam s h s.TEAM_ONE else []) ++
         (if r.teamTwoError then requestTeamNameOfTeam s h s.TEAM_TWO else [])⟩
      else
        ⟨{ s with officialMatch := some { m with matchParticipants := r.matchParticipants } }, []⟩
    else ⟨s, []⟩
  | none => ⟨s, []⟩

/-- Case `bz_eTickEvent` of `Event`. -/
def Event_bz_eTickEvent (s : LeagueOverseer) (h : Host) : Step :=
  let c := tickCleanup s h
  let r := tickRollCall c.state h
  ⟨r.state, c.actions ++ r.actions⟩

/-- Case `bz_eGetPlayerMotto` of `Event`. -/
def Event_bz_eGetPlayerMotto (s : LeagueOverseer) (record : bz_BasePlayerRecord) : Step :=
  ⟨s, [HostAction.setMotto (mottoOf s.teamMottos record.bzID)]⟩

/-- Case `bz_ePlayerJoinEvent` of `Event`. -/
def Event_bz_ePlayerJoinEvent (s : LeagueOverseer) (h : Host) (playerID : Int)
    (record : bz_BasePlayerRecord) : Step :=
  let notice :=
    if (h.countDownActive || h.countDownInProgress) && isValidPlayerID h playerID &&
        decide (record.team = eObservers) then
      [HostAction.sendTextMessage (MessageTarget.player playerID)
        ("*** There is currently " ++
          (if s.officialMatch.isSome then "an official" else "a fun") ++
          " match in progress, please be respectful. ***")]
    else []
  ⟨s, notice ++ (if record.verified then requestTeamName s record.callsign record.bzID else [])⟩

/-- Case `bz_eSlashCommandEvent` of `Event`. -/
def Event_bz_eSlashCommandEvent (s : LeagueOverseer) (playerID : Int) (command : String) :
    Step :=
  if startsWith command "/gameover" then
    ⟨s, [HostAction.sendTextMessage (MessageTarget.player playerID)
      "** '/gameover' is disabled, please use /finish or /cancel instead **"]⟩
  else if startsWith command "/countdown pause" then
    ⟨s, [HostAction.sendTextMessage (MessageTarget.player playerID)
      "** '/countdown pause' is disabled, please use /pause instead **"]⟩
  else if startsWith command "/countdown resume" then
    ⟨s, [HostAction.sendTextMessage (MessageTarget.player playerID)
      "** '/countdown resume' is disabled, please use /resume instead **"]⟩
  else if isdigit (wrapInt (atoi command + 12)) then
    ⟨s, [HostAction.sendTextMessage (MessageTarget.player playerID)
      "** '/countdown TIME' is disabled, please use /official or /fm instead **"]⟩
  else ⟨s, []⟩

/-- The event records the host delivers, with the fields the plugin reads. -/
inductive bz_EventData
  | bz_eCaptureEvent (teamCapping : bz_eTeamType)
  | bz_eGameEndEvent
  | bz_eGameStartEvent
  | bz_eGetPlayerMotto (record : bz_BasePlayerRecord)
  | bz_ePlayerJoinEvent (playerID : Int) (record : bz_BasePlayerRecord)
  | bz_eSlashCommandEvent (sender : Int) (message : String)
  | bz_eTickEvent
  deriving DecidableEq, Repr

/-- The source's `LeagueOverseer::Event`. -/
def Event (s : LeagueOverseer) (h : Host) : bz_EventData → EventResult
  | bz_EventData.bz_eCaptureEvent teamCapping =>
    EventResult.returned (Event_bz_eCaptureEvent s teamCapping)
  | bz_EventData.bz_eGameEndEvent => Event_bz_eGameEndEvent s h
  | bz_EventData.bz_eGameStartEvent => EventResult.returned (Event_bz_eGameStartEvent s h)
  | bz_EventData.bz_eGetPlayerMotto record =>
    EventResult.returned (Event_bz_eGetPlayerMotto s record)
  | bz_EventData.bz_ePlayerJoinEvent playerID record =>
    EventResult.returned (Event_bz_ePlayerJoinEvent s h playerID record)
  | bz_EventData.bz_eSlashCommandEvent sender message =>
    EventResult.returned (Event_bz_eSlashCommandEvent s sender message)
  | bz_EventData.bz_eTickEvent => EventResult.returned (Event_bz_eTickEvent s h)

/-! ## Slash commands -/

/-- The countdown both `/fm` and `/official` start (lines 726-735 and 761-770). -/
def startCountdownFor (h : Host) (params : List String) : HostAction :=
  let timeToStart : Int :=
    match params with
    | [p] => atoi p
    | _ => 10
  if timeToStart ≤ 120 ∧ timeToStart ≥ 5 then
    HostAction.startCountdown timeToStart h.timeLimit "Server"
  else
    HostAction.startCountdown 10 h.timeLimit "Server"

/-- Branch `cancel` of `SlashCommand`. -/
def SlashCommand_cancel (s : LeagueOverseer) (h : Host) (playerData : bz_BasePlayerRecord) :
    Step :=
  let playerID := MessageTarget.player playerData.playerID
  if playerData.team = eObservers then
    ⟨s, [HostAction.sendTextMessage playerID "Observers are not allowed to cancel matches."]⟩
  else if h.countDownInProgress then
    ⟨s, [HostAction.sendTextMessage playerID
      "You may only cancel a match after it has started."]⟩
  else if h.countDownActive then
    match s.officialMatch with
    | some m =>
      ⟨{ s with officialMatch := some { m with
          canceled := true
          cancelationReason :=
            "Official match cancellation requested by " ++ playerData.callsign } },
       [HostAction.gameOver 253 eObservers]⟩
    | none =>
      ⟨s, [HostAction.sendTextMessage MessageTarget.allUsers
             ("Fun match ended by " ++ playerData.callsign),
           HostAction.gameOver 253 eObservers]⟩
  else
    ⟨s, [HostAction.sendTextMessage playerID "There is no match in progress to cancel."]⟩

/-- Branch `finish` of `SlashCommand`. The test `startTime + duration/2 < now` divides a
`double`; it is stated with both sides doubled. -/
def SlashCommand_finish (s : LeagueOverseer) (h : Host) (playerData : bz_BasePlayerRecord) :
    Step :=
  let playerID := MessageTarget.player playerData.playerID
  if playerData.team = eObservers then
    ⟨s, [HostAction.sendTextMessage playerID "Observers are not allowed to cancel matches."]⟩
  else if h.countDownInProgress then
    ⟨s, [HostAction.sendTextMessage playerID
      "You may only cancel a match after it has started."]⟩
  else if h.countDownActive then
    match s.officialMatch with
    | some m =>
      if m.startTime ≥ 0 ∧ 2 * m.startTime + m.duration < 2 * h.currentTime then
        ⟨s, [HostAction.sendTextMessage MessageTarget.allUsers
               ("Official match ended early by " ++ playerData.callsign),
             HostAction.gameOver 253 eObservers]⟩
      else
        ⟨s, [HostAction.sendTextMessage playerID
               "Sorry, I cannot automatically report a match less than half way through.",
             HostAction.sendTextMessage playerID
               "Please use the /cancel command and message a referee for review of this match."]⟩
    | none =>
      ⟨s, [HostAction.sendTextMessage playerID
        "You cannot /finish a fun match. Use /cancel instead."]⟩
  else
    ⟨s, [HostAction.sendTextMessage playerID "There is no match in progress to end."]⟩

/-- Branch `fm` of `SlashCommand`. -/
def SlashCommand_fm (s : LeagueOverseer) (h : Host) (playerData : bz_BasePlayerRecord)
    (params : List String) : Step :=
  let playerID := MessageTarget.player playerData.playerID
  if playerData.team = eObservers then
    ⟨s, [HostAction.sendTextMessage playerID "Observers are not allowed to start matches."]⟩
  else if s.officialMatch.isSome || h.countDownActive || h.countDownInProgress then
    ⟨s, [HostAction.sendTextMessage playerID
      "There is already a game in progress; you cannot start another."]⟩
  else
    ⟨{ s with officialMatch := none },
     [HostAction.sendTextMessage MessageTarget.allUsers
        ("Fun match started by " ++ playerData.callsign ++ "."),
      startCountdownFor h params]⟩

/-- Branch `official` of `SlashCommand`. -/
def SlashCommand_official (s : LeagueOverseer) (h : Host) (playerData : bz_BasePlayerRecord)
    (params : List String) : Step :=
  let playerID := MessageTarget.player playerData.playerID
  if playerData.team = eObservers then
    ⟨s, [HostAction.sendTextMessage playerID "Observers are not allowed to start matches."]⟩
  else if h.teamCount s.TEAM_ONE < 2 ∨ h.teamCount s.TEAM_TWO < 2 then
    ⟨s, [HostAction.sendTextMessage playerID
      "You may not have an official match with less than 2 players per team."]⟩
  else if s.officialMatch.isSome || h.countDownActive || h.countDownInProgress then
    ⟨s, [HostAction.sendTextMessage playerID
      "There is already a game in progress; you cannot start another."]⟩
  else
    ⟨{ s with officialMatch := some OfficialMatch.new },
     [HostAction.sendTextMessage MessageTarget.allUsers
        ("Official match started by " ++ playerData.callsign ++ "."),
      startCountdownFor h params]⟩

/-- Branch `pause` of `SlashCommand`. -/
def SlashCommand_pause (s : LeagueOverseer) (h : Host) (playerData : bz_BasePlayerRecord) :
    Step :=
  let playerID := MessageTarget.player playerData.playerID
  if h.countDownPaused then
    ⟨s, [HostAction.sendTextMessage playerID "The match is already paused!"]⟩
  else if h.countDownActive then
    ⟨s, [HostAction.pauseCountdown playerData.callsign]⟩
  else
    ⟨s, [HostAction.sendTextMessage playerID "There is no active match to pause right now."]⟩

/-- Branch `resume` of `SlashCommand`. -/
def SlashCommand_resume (s : LeagueOverseer) (h : Host) (playerData : bz_BasePlayerRecord) :
    Step :=
  let playerID := MessageTarget.player playerData.playerID
  if !h.countDownPaused then
    ⟨s, [HostAction.sendTextMessage playerID "The match is not paused!"]⟩
  else if h.countDownActive then
    ⟨s, [HostAction.resumeCountdown playerData.callsign]⟩
  else
    ⟨s, [HostAction.sendTextMessage playerID "There is no active match to resume right now."]⟩

/-- Branch `spawn` of `SlashCommand`. -/
def SlashCommand_spawn (s : LeagueOverseer) (h : Host) (playerData : bz_BasePlayerRecord)
    (params : List String) : Step :=
  let playerID := MessageTarget.player playerData.playerID
  if h.hasPerm playerData.playerID "ban" then
    match params with
    | first :: _ =>
      let callsignToLookup := " ".intercalate params
      let granted (victim : bz_BasePlayerRecord) : List HostAction :=
        [HostAction.grantPerm victim.playerID "spawn",
         HostAction.sendTextMessage (MessageTarget.team eAdministrators)
           (playerData.callsign ++ " granted " ++ victim.callsign ++ " the ability to spawn.")]
      let byID : Option bz_BasePlayerRecord :=
        if first.data.contains '#' then
          bz_getPlayerByIndex h (atoi ⟨first.data.drop 1⟩)
        else none
      match byID with
      | some victim => ⟨s, granted victim⟩
      | none =>
        match bz_getPlayerByCallsign h callsignToLookup with
        | some victim => ⟨s, granted victim⟩
        | none =>
          ⟨s, [HostAction.sendTextMessage playerID ("player " ++ first ++ " not found")]⟩
    | [] => ⟨s, [HostAction.sendTextMessage playerID "/spawn <player id or callsign>"]⟩
  else if !playerData.admin then
    ⟨s, [HostAction.sendTextMessage playerID
      "You do not have permission to use the /spawn command."]⟩
  else ⟨s, []⟩

/-- The source's `LeagueOverseer::SlashCommand` for the caller whose record is `playerData`;
the value is the state, the host actions and the returned `bool`. `none`: control reaches
the end of the function without a `return` (a command the plugin did not register). -/
def SlashCommand (s : LeagueOverseer) (h : Host) (playerData : bz_BasePlayerRecord)
    (command : String) (params : List String) : Option (Step × Bool) :=
  if !playerData.verified || !h.hasPerm playerData.playerID "spawn" then
    some (⟨s, [HostAction.sendTextMessage (MessageTarget.player playerData.playerID)
      ("You do not have permission to run the /" ++ command ++ " command.")]⟩, true)
  else if command = "cancel" then some (SlashCommand_cancel s h playerData, true)
  else if command = "finish" then some (SlashCommand_finish s h playerData, true)
  else if command = "fm" then some (SlashCommand_fm s h playerData params, true)
  else if command = "official" then some (SlashCommand_official s h playerData params, true)
  else if command = "pause" then some (SlashCommand_pause s h playerData, true)
  else if command = "resume" then some (SlashCommand_resume s h playerData, true)
  else if command = "spawn" then some (SlashCommand_spawn s h playerData params, true)
  else none

/-! ## The outcome of a game end -/

/-- The four outcomes of a game end. -/
inductive MatchOutcome
  | FunMatchCompleted
  | OfficialCanceled (reason : String)
  | OfficialMissingParticipants
  | OfficialCompleted (snapshot : OfficialMatch)
  deriving DecidableEq, Repr

/-- Which arm of the if / else-if chain of the game-end case is entered: the conditions of
lines 357, 363, 370 and the final `else`. -/
def gameEndOutcome (s : LeagueOverseer) : MatchOutcome :=
  match s.officialMatch with
  | none => MatchOutcome.FunMatchCompleted
  | some m =>
    if m.canceled then MatchOutcome.OfficialCanceled m.cancelationReason
    else if m.matchParticipants.isEmpty then MatchOutcome.OfficialMissingParticipants
    else MatchOutcome.OfficialCompleted m

/-- The host actions each outcome stands for: nothing, the broadcast of the reason, the
broadcast of the fixed notice, or the announcement and the report job (`none` when the
report cannot be built). -/
def outcomeActions (s : LeagueOverseer) (h : Host) : MatchOutcome → Option (List HostAction)
  | MatchOutcome.FunMatchCompleted => some []
  | MatchOutcome.OfficialCanceled reason =>
    some [HostAction.sendTextMessage MessageTarget.allUsers reason]
  | MatchOutcome.OfficialMissingParticipants =>
    some [HostAction.sendTextMessage MessageTarget.allUsers
      "Official match could not be reported due to not having a list of valid match participants."]
  | MatchOutcome.OfficialCompleted snapshot =>
    (matchToSend s h snapshot).map (fun postData =>
      [HostAction.sendTextMessage MessageTarget.allUsers "Reporting match...",
       HostAction.addURLJob s.LEAGUE_URL postData])

/-- The report jobs among a list of host actions. -/
def reportJobs (s : LeagueOverseer) (actions : List HostAction) : List HostAction :=
  actions.filter (fun a =>
    match a with
    | HostAction.addURLJob url _ => decide (url = s.LEAGUE_URL)
    | _ => false)

/-- The countdowns started among a list of host actions. -/
def countdownsStarted (actions : List HostAction) : List HostAction :=
  actions.filter (fun a =>
    match a with
    | HostAction.startCountdown _ _ _ => true
    | _ => false)

/-- What the recording block of the game-end case (lines 428-462) adds to the actions. -/
def recordingActions (s : LeagueOverseer) (h : Host) : List HostAction :=
  if s.RECORDING then
    [HostAction.saveRecBuf (recordingFileName s h.utcTime) 0, HostAction.stopRecBuf,
     HostAction.sendTextMessage MessageTarget.allUsers
       ("Match saved as: " ++ recordingFileName s h.utcTime)]
  else []

/-! ## Identity lists, in the words of the specification -/

/-- The strings of a list joined by single commas. -/
def commaJoin : List String → String
  | [] => ""
  | [a] => a
  | a :: b :: rest => a ++ ("," ++ commaJoin (b :: rest))

/-- The url-escaped identities of the participants of `team`, in roll-call order. -/
def teamIdentities (h : Host) (m : OfficialMatch) (team : bz_eTeamType) : List String :=
  (m.matchParticipants.filter (fun p => decide (p.teamColor = team))).map
    (fun p => h.urlEncode p.bzID)

/-- The characters `buildBZIDLoop` appends: every identity followed by a comma. -/
def withCommas (ids : List String) : List Char :=
  (ids.map (fun i => i.data ++ [','])).flatten

/-- The participant record the roll call makes of a player. -/
def participantOf (s : LeagueOverseer) (playerRecord : bz_BasePlayerRecord) : MatchParticipant :=
  { bzID := playerRecord.bzID
    callsign := playerRecord.callsign
    ipAddress := playerRecord.ipAddress
    teamName := mottoOf s.teamMottos playerRecord.bzID
    teamColor := playerRecord.team }

/-- All connected non-observer players, in enumeration order, as participants. -/
def connectedParticipants (s : LeagueOverseer) (h : Host) : List MatchParticipant :=
  (h.players.filter (fun p => decide (p.team ≠ eObservers))).map (participantOf s)

/-- The identity-refresh requests among a list of host actions. -/
def refreshRequests (actions : List HostAction) : List HostAction :=
  actions.filter (fun a =>
    match a with
    | HostAction.addURLJob _ _ => true
    | _ => false)

/-! ## Job completions -/

/-- The source's `URLDone`. The first condition of the source is a comment standing where a
test for proper JSON is still to be written; its value is the argument `properJSON`. -/
def URLDone (s : LeagueOverseer) (siteData : String) (properJSON : Bool) : Step :=
  if properJSON then ⟨s, []⟩
  else if ¬ ("<html>".data <:+: siteData.data) then
    ⟨s, [HostAction.sendTextMessage MessageTarget.allUsers siteData]⟩
  else ⟨s, []⟩

/-- The source's `URLTimeout`: a log line only. -/
def URLTimeout (s : LeagueOverseer) (_errorCode : Int) : Step := ⟨s, []⟩

/-- The source's `URLError`: two log lines only. -/
def URLError (s : LeagueOverseer) (_errorCode : Int) (_errorString : String) : Step := ⟨s, []⟩

/-! ## The roll call, step by step -/

/-- The participants a roll call samples from a player list: the non-observers, in order. -/
def sampled (s : LeagueOverseer) (players : List bz_BasePlayerRecord) :
    List MatchParticipant :=
  (players.filter (fun p => decide (p.team ≠ eObservers))).map (participantOf s)

/-- Whether `validateTeamName` flags the player: the player is on the team, a canonical
name has been adopted and the player's label differs from it. -/
def labelFlag (team : bz_eTeamType) (teamName : String) (p : MatchParticipant) : Bool :=
  decide (p.teamColor = team) && (decide (teamName ≠ "") && decide (teamName ≠ p.teamName))

/-- The canonical name after `validateTeamName`: the player's label when the player is on
the team and no name has been adopted, the name as it was otherwise. -/
def labelNext (team : bz_eTeamType) (teamName : String) (p : MatchParticipant) : String :=
  if p.teamColor = team ∧ teamName = "" then p.teamName else teamName

/-- The canonical name and the error flag of one colour, scanned over sampled participants. -/
def scanTeam (team : bz_eTeamType) : List MatchParticipant → String × Bool → String × Bool
  | [], acc => acc
  | p :: rest, acc =>
    scanTeam team rest (labelNext team acc.1 p, acc.2 || labelFlag team acc.1 p)

/-- The block a due roll call executes (lines 571-615): sample, then retry or commit. -/
def rollCallRun (s : LeagueOverseer) (h : Host) (m : OfficialMatch) : Step :=
  let r := rollCallLoop s h.players (RollCall.start m.matchParticipants)
  if r.invalidateRollcall ∧ s.MATCH_ROLLCALL + 30 < m.duration then
    ⟨{ s with MATCH_ROLLCALL := s.MATCH_ROLLCALL + 60
              officialMatch := some { m with matchParticipants := [] } },
     (if r.teamOneError then requestTeamNameOfTeam s h s.TEAM_ONE else []) ++
     (if r.teamTwoError then requestTeamNameOfTeam s h s.TEAM_TWO else [])⟩
  else
    ⟨{ s with officialMatch := some { m with matchParticipants := r.matchParticipants } }, []⟩

/-! ## Start-up -/

/-- The four items `loadConfig` asks the `PluginConfig` of the host's plug-in library for
(section `leagueOverSeer`), as the strings the configuration file holds. -/
structure PluginConfig where
  ROTATIONAL_LEAGUE : String
  MAPCHANGE_PATH : String
  LEAGUE_OVER_SEER_URL : String
  DEBUG_LEVEL : String
  deriving DecidableEq, Repr

/-- The source's `toBool`: the string in lower case read with `std::boolalpha` (leading
white space skipped, then the name `true`; anything else gives `false`). -/
def toBool (str : String) : Bool :=
  decide (((str.data.map Char.toLower).dropWhile isspace).take 4 = "true".data)

/-- The colours the loop of `Init` visits, in order: `eRedTeam` up to `ePurpleTeam`. -/
def scannedColors : List bz_eTeamType := [eRedTeam, eGreenTeam, eBlueTeam, ePurpleTeam]

/-- The loop of `Init` (lines 298-316) over the colours still to visit, with `TEAM_ONE` and
`TEAM_TWO` as assigned so far; the `break` ends the loop. -/
def scanTeamColors (limit : bz_eTeamType → Int) :
    List bz_eTeamType → bz_eTeamType × bz_eTeamType → bz_eTeamType × bz_eTeamType
  | [], teams => teams
  | t :: rest, teams =>
    if limit t > 0 then
      if teams.1 = eNoTeam then scanTeamColors limit rest (t, teams.2)
      else if teams.2 = eNoTeam then (teams.1, t)
      else scanTeamColors limit rest teams
    else scanTeamColors limit rest teams

/-- The call `MAP_NAME.substr (0, MAP_NAME.length () - 5)`, the length computed in
`size_t`. -/
def dropConfSuffix (mapName : String) : String :=
  ⟨mapName.data.take ((SIZE_RANGE - 5 + mapName.length) % SIZE_RANGE)⟩

/-- The source's `Init` with `loadConfig`: the members of the plugin once it is loaded.
`mapchangeLine` is the first line of the file at `MAPCHANGE_PATH`; the member `RECORDING`
is not assigned and keeps the value it happens to have. The registrations with the host and
the `bz_shutdown` calls on a bad configuration are not part of the model. The undeclared
`mapchangePath` of `loadConfig` is read as `MAPCHANGE_PATH`. -/
def Init (h : Host) (config : PluginConfig) (mapchangeLine : String) (RECORDING : Bool) :
    LeagueOverseer :=
  let ROTATION_LEAGUE := toBool config.ROTATIONAL_LEAGUE
  let teams := scanTeamColors h.teamPlayerLimit scannedColors (eNoTeam, eNoTeam)
  { ROTATION_LEAGUE := ROTATION_LEAGUE
    RECORDING := RECORDING
    DEBUG_LEVEL := atoi config.DEBUG_LEVEL
    MATCH_ROLLCALL := 90
    LEAGUE_URL := config.LEAGUE_OVER_SEER_URL
    MAP_NAME :=
      if config.MAPCHANGE_PATH ≠ "" ∧ ROTATION_LEAGUE = true then dropConfSuffix mapchangeLine
      else ""
    MAPCHANGE_PATH := config.MAPCHANGE_PATH
    TEAM_ONE := teams.1
    TEAM_TWO := teams.2
    officialMatch := none
    teamMottos := [] }

/-- The plugin states that occur: the state `Init` leaves, and every state in which a
handler stops (an event that returns or is left by an exception, a slash command, a job
completion, timeout or error) when started in a state that occurs. -/
inductive Reachable : LeagueOverseer → Prop
  | init (h : Host) (config : PluginConfig) (mapchangeLine : String) (RECORDING : Bool) :
      Reachable (Init h config mapchangeLine RECORDING)
  | event (s : LeagueOverseer) (h : Host) (e : bz_EventData) (r : Step) :
      Reachable s → Event s h e = EventResult.returned r → Reachable r.state
  | eventRaised (s : LeagueOverseer) (h : Host) (e : bz_EventData) (r : Step) :
      Reachable s → Event s h e = EventResult.raised r → Reachable r.state
  | command (s : LeagueOverseer) (h : Host) (playerData : bz_BasePlayerRecord)
      (command : String) (params : List String) (r : Step) (handled : Bool) :
      Reachable s → SlashCommand s h playerData command params = some (r, handled) →
      Reachable r.state
  | urlDone (s : LeagueOverseer) (siteData : String) (properJSON : Bool) :
      Reachable s → Reachable (URLDone s siteData properJSON).state
  | urlTimeout (s : LeagueOverseer) (errorCode : Int) :
      Reachable s → Reachable (URLTimeout s errorCode).state
  | urlError (s : LeagueOverseer) (errorCode : Int) (errorString : String) :
      Reachable s → Reachable (URLError s errorCode errorString).state

/-! ## Countdown length and designated colours, in the words of the specification -/

/-- The countdown length: the single argument read as an integer when it lies between 5
and 120, and 10 in every other case. -/
def countdownLength (params : List String) : Int :=
  match params with
  | [p] => if 5 ≤ atoi p ∧ atoi p ≤ 120 then atoi p else 10
  | _ => 10

/-- The colours with a player-slot limit greater than 0, in the order red, green, blue,
purple. -/
def supportedColors (limit : bz_eTeamType → Int) : List bz_eTeamType :=
  scannedColors.filter (fun t => decide (limit t > 0))

/-- Position of a colour in the host's enumeration. -/
def colorIndex : bz_eTeamType → Nat
  | eAutomaticTeam => 0
  | eNoTeam => 1
  | eRogueTeam => 2
  | eRedTeam => 3
  | eGreenTeam => 4
  | eBlueTeam => 5
  | ePurpleTeam => 6
  | eRabbitTeam => 7
  | eHunterTeam => 8
  | eObservers => 9
  | eAdministrators => 10

/-! ## Canonical names, in the words of the specification -/

/-- The first non-empty label among the participants of `team`, in order; empty when none
of them has one. -/
def firstLabel (team : bz_eTeamType) (ps : List MatchParticipant) : String :=
  match ps.filter (fun p => decide (p.teamColor = team) && decide (p.teamName ≠ "")) with
  | [] => ""
  | p :: _ => p.teamName

/-- The fold of `validateTeamName` over participants for one colour, from the initial
values of the roll call (`false`, `false`, empty name). -/
def validateFold (team : bz_eTeamType) (ps : List MatchParticipant) : Bool × Bool × String :=
  ps.foldl (fun acc p => validateTeamName acc.1 acc.2.1 p acc.2.2 team) (false, false, "")

/-- Some participant of `team` carries a label that differs from the first non-empty label
of those enumerated before it. -/
def flaggedBy (team : bz_eTeamType) (ps : List MatchParticipant) : Prop :=
  ∃ pre q post, ps = pre ++ q :: post ∧ q.teamColor = team ∧
    firstLabel team pre ≠ "" ∧ q.teamName ≠ firstLabel team pre

/-- The capability grants among a list of host actions. -/
def grants (actions : List HostAction) : List HostAction :=
  actions.filter (fun a =>
    match a with
    | HostAction.grantPerm _ _ => true
    | _ => false)

/-- The members no handler assigns are the same in two plugin states. -/
def sameSettings (a b : LeagueOverseer) : Prop :=
  a.TEAM_ONE = b.TEAM_ONE ∧ a.TEAM_TWO = b.TEAM_TWO ∧ a.teamMottos = b.teamMottos ∧
  a.LEAGUE_URL = b.LEAGUE_URL ∧ a.ROTATION_LEAGUE = b.ROTATION_LEAGUE ∧
  a.MAP_NAME = b.MAP_NAME ∧ a.MAPCHANGE_PATH = b.MAPCHANGE_PATH ∧
  a.DEBUG_LEVEL = b.DEBUG_LEVEL

/-! ## Runs of handler calls -/

/-- One call of the host into the plugin, with the host's answers during the call. -/
inductive HostCall
  | event (h : Host) (e : bz_EventData)
  | slashCommand (h : Host) (playerData : bz_BasePlayerRecord) (command : String)
      (params : List String)
  | urlDone (siteData : String) (properJSON : Bool)
  | urlTimeout (errorCode : Int)
  | urlError (errorCode : Int) (errorString : String)

/-- The plugin state in which the handler of a call stops. -/
def afterCall (s : LeagueOverseer) : HostCall → LeagueOverseer
  | HostCall.event h e =>
    match Event s h e with
    | EventResult.returned r => r.state
    | EventResult.raised r => r.state
  | HostCall.slashCommand h playerData command params =>
    match SlashCommand s h playerData command params with
    | some (r, _) => r.state
    | none => s
  | HostCall.urlDone siteData properJSON => (URLDone s siteData properJSON).state
  | HostCall.urlTimeout errorCode => (URLTimeout s errorCode).state
  | HostCall.urlError errorCode errorString => (URLError s errorCode errorString).state

/-- The plugin state after a sequence of calls. -/
def afterCalls (s : LeagueOverseer) (calls : List HostCall) : LeagueOverseer :=
  calls.foldl afterCall s

/-- Whether a tick in state `s` invalidates its roll call and retries: after the clean-up,
the gate of lines 567-569 holds, the loop ends with `invalidateRollcall` set and the test of
line 599 for another attempt holds. -/
def rollCallRetried (s : LeagueOverseer) (h : Host) : Bool :=
  let c := (tickCleanup s h).state
  match c.officialMatch with
  | some m =>
    rollCallDue c h m &&
      ((rollCallLoop c h.players (RollCall.start m.matchParticipants)).invalidateRollcall &&
        decide (c.MATCH_ROLLCALL + 30 < m.duration))
  | none => false

/-- Whether a call is a tick that invalidates its roll call and retries. -/
def callRetried (s : LeagueOverseer) : HostCall → Bool
  | HostCall.event h bz_EventData.bz_eTickEvent => rollCallRetried s h
  | _ => false

/-- The number of invalidated and retried roll calls in a sequence of calls. -/
def retries (s : LeagueOverseer) : List HostCall → Nat
  | [] => 0
  | c :: rest => (if callRetried s c then 1 else 0) + retries (afterCall s c) rest

/-- Whether a call is the game-start or the game-end event. -/
def startsOrEndsGame : HostCall → Bool
  | HostCall.event _ bz_EventData.bz_eGameStartEvent => true
  | HostCall.event _ bz_EventData.bz_eGameEndEvent => true
  | _ => false

/-- Whether a call is the game-end event. -/
def endsGame : HostCall → Bool
  | HostCall.event _ bz_EventData.bz_eGameEndEvent => true
  | _ => false

/-- The bound on retries for planned duration `D` and delay `R`, in whole seconds: the
ceiling of `(D - 30 - R) / 60` when that is positive, else 0. -/
def retryBound (D R : Int) : Nat := ((D - 30 - R + 59) / 60).toNat

/-! ## Identity-refresh requests, in the words of the specification -/

/-- The identity-refresh request for one player. -/
def refreshJob (s : LeagueOverseer) (p : bz_BasePlayerRecord) : HostAction :=
  HostAction.addURLJob s.LEAGUE_URL ("query=teamNameQuery&teamPlayers=" ++ p.bzID)

/-- One request per connected player of `team`, in enumeration order. -/
def refreshJobsFor (s : LeagueOverseer) (h : Host) (team : bz_eTeamType) : List HostAction :=
  (h.players.filter (fun p => decide (p.team = team))).map (refreshJob s)

/-- The connected players whose colour is a flagged designated colour, in enumeration
order; `teamOneError` and `teamTwoError` say which colours are flagged. -/
def flaggedPlayers (s : LeagueOverseer) (h : Host) (teamOneError teamTwoError : Bool) :
    List bz_BasePlayerRecord :=
  h.players.filter (fun p =>
    (teamOneError && decide (p.team = s.TEAM_ONE)) ||
      (teamTwoError && decide (p.team = s.TEAM_TWO)))

/-! ## Sample data -/

/-- A host with two red and two green players and player 1 allowed to spawn. -/
def sampleHost : Host where
  players :=
    [⟨1, "ann", "101", "10.0.0.1", eRedTeam, true, false⟩,
     ⟨2, "bob", "102", "10.0.0.2", eRedTeam, true, false⟩,
     ⟨3, "cy", "103", "10.0.0.3", eGreenTeam, true, false⟩,
     ⟨4, "dee", "104", "10.0.0.4", eGreenTeam, true, false⟩]
  teamCount := fun t => if t = eRedTeam then 2 else if t = eGreenTeam then 2 else 0
  teamPlayerLimit := fun t => if t = eRedTeam then 5 else if t = eGreenTeam then 5 else 0
  hasPerm := fun playerID perm => decide (playerID = 1) && decide (perm = "spawn")
  countDownActive := false
  countDownInProgress := false
  countDownPaused := false
  currentTime := 1000
  timeLimit := 1800
  utcTime := ⟨2014, 3, 9, 17, 5, 42⟩
  publicAddr := "example.org"
  publicPort := "5154"
  startRecBuf := true
  urlEncode := fun str => str

/-- The caller of the sample commands: player 1 of `sampleHost`. -/
def sampleCaller : bz_BasePlayerRecord :=
  ⟨1, "ann", "101", "10.0.0.1", eRedTeam, true, false⟩

/-- The plugin with red and green as designated colours and no match. -/
def sampleIdle : LeagueOverseer where
  ROTATION_LEAGUE := false
  RECORDING := false
  DEBUG_LEVEL := 1
  MATCH_ROLLCALL := 90
  LEAGUE_URL := "http://league.example/report"
  MAP_NAME := ""
  MAPCHANGE_PATH := ""
  TEAM_ONE := eRedTeam
  TEAM_TWO := eGreenTeam
  officialMatch := none
  teamMottos := []

/-- An official match under way since second 100, at 3 : 2, being recorded. -/
def sampleMatch : OfficialMatch :=
  { OfficialMatch.new with startTime := 100, duration := 1800, teamOnePoints := 3,
                           teamTwoPoints := 2 }

/-- The plugin while `sampleMatch` is played and recorded. -/
def samplePlaying : LeagueOverseer :=
  { sampleIdle with RECORDING := true, officialMatch := some sampleMatch }

/-- Two red and two green participants as a roll call records them. -/
def sampleRoster : List MatchParticipant :=
  [⟨"101", "ann", "10.0.0.1", "", eRedTeam⟩, ⟨"102", "bob", "10.0.0.2", "", eRedTeam⟩,
   ⟨"103", "cy", "10.0.0.3", "", eGreenTeam⟩, ⟨"104", "dee", "10.0.0.4", "", eGreenTeam⟩]

/-- The plugin at the end of a match whose roll call found red players only (the green
team had left before the roll call). -/
def sampleRedOnly : LeagueOverseer :=
  { sampleIdle with
    RECORDING := true
    officialMatch := some { sampleMatch with
      matchParticipants := [⟨"101", "ann", "10.0.0.1", "", eRedTeam⟩,
                            ⟨"102", "bob", "10.0.0.2", "", eRedTeam⟩] } }

/-- A canceled official match with a recorded roster. -/
def sampleCanceledMatch : OfficialMatch :=
  { sampleMatch with canceled := true, cancelationReason := "stop",
                     matchParticipants := sampleRoster }

/-- The plugin while `sampleCanceledMatch` is played. -/
def sampleCanceled : LeagueOverseer :=
  { sampleIdle with officialMatch := some sampleCanceledMatch }

/-- A match whose roster holds a registered red player and a red player without a stable
identity. -/
def sampleAnonymous : OfficialMatch :=
  { sampleMatch with
    matchParticipants := [⟨"101", "ann", "10.0.0.1", "", eRedTeam⟩,
                          ⟨"", "guest", "10.0.0.9", "", eRedTeam⟩] }

/-- The sample match with the full roster recorded. -/
def sampleRecorded : OfficialMatch :=
  { sampleMatch with matchParticipants := sampleRoster }

/-- The plugin during the sample match with the four players' labels cached. -/
def sampleLabelled : LeagueOverseer :=
  { samplePlaying with
    teamMottos := [("101", "Reds"), ("102", "Reds"), ("103", "Greens"), ("104", "Greens")] }

/-- The sample host once the game clock is running. -/
def sampleRunningHost : Host := { sampleHost with countDownActive := true }

/-- The plugin during the sample match with a Red and a Blue label cached for the two red
players. -/
def sampleConflict : LeagueOverseer :=
  { samplePlaying with
    teamMottos := [("101", "Reds"), ("102", "Blues"), ("103", "Greens"), ("104", "Greens")] }

/-- The same, in a match planned for 100 seconds only. -/
def sampleConflictShort : LeagueOverseer :=
  { sampleConflict with officialMatch := some { sampleMatch with duration := 100 } }

/-- The plugin exactly 90 seconds into an official match (the sample host's clock reads
1000). -/
def sampleBoundary : LeagueOverseer :=
  { sampleIdle with officialMatch := some { sampleMatch with startTime := 910 } }

/-- An observer who is verified and may spawn. -/
def sampleObserver : bz_BasePlayerRecord :=
  ⟨1, "ann", "101", "10.0.0.1", eObservers, true, false⟩

/-- A player of the sample host who may not spawn. -/
def sampleGuest : bz_BasePlayerRecord :=
  ⟨2, "bob", "102", "10.0.0.2", eRedTeam, true, false⟩

/-- The plugin 950 seconds into the recorded sample match (started at second 50). -/
def sampleLate : LeagueOverseer :=
  { sampleIdle with officialMatch := some { sampleRecorded with startTime := 50 } }

/-- The sample host with the game clock running after every player has left. -/
def sampleDesertedHost : Host :=
  { sampleRunningHost with players := [], teamCount := fun _ => 0 }

/-- The sample host joined by an observer in slot 0, with player 1 also allowed to ban. -/
def sampleSpawnHost : Host :=
  { sampleHost with
    players := ⟨0, "zed", "100", "10.0.0.9", eObservers, true, false⟩ :: sampleHost.players
    hasPerm := fun playerID perm =>
      decide (playerID = 1) && (decide (perm = "spawn") || decide (perm = "ban")) }

/-- The configuration the sample plugin starts from. -/
def sampleConfig : PluginConfig :=
  ⟨"false", "", "http://league.example/report", "1"⟩

/-- The plugin during the sample match with labels cached for ann, cy and dee, none for
bob. -/
def sampleHalfLabelled : LeagueOverseer :=
  { samplePlaying with teamMottos := [("101", "Reds"), ("103", "Greens"), ("104", "Greens")] }

/-- The sample host joined by a red player who has no stable identity. -/
def sampleGuestHost : Host :=
  { sampleHost with
    players := sampleHost.players ++ [⟨5, "guest", "", "10.0.0.9", eRedTeam, false, false⟩] }

/-- The sample host on a map with slots for all four colours. -/
def sampleFourWayHost : Host :=
  { sampleHost with teamPlayerLimit := fun _ => 5 }

/-- The plugin 900 seconds into an official match planned for 200 seconds, no roll call
committed yet. -/
def sampleShort : LeagueOverseer :=
  { sampleIdle with officialMatch := some { sampleMatch with duration := 200 } }

/-- A tick while the guest without identity plays. -/
def sampleGuestTick : HostCall :=
  HostCall.event sampleGuestHost bz_EventData.bz_eTickEvent

/-- The host with the guest, 100 seconds later. -/
def sampleGuestLaterHost : Host := { sampleGuestHost with currentTime := 1100 }

/-- An official match from `/official` to the game end with one retried roll call, and
the `/official` for the next match. -/
def sampleSeason : List HostCall :=
  [HostCall.slashCommand sampleGuestHost sampleCaller "official" [],
   HostCall.event sampleGuestHost bz_EventData.bz_eGameStartEvent,
   HostCall.event sampleGuestLaterHost bz_EventData.bz_eTickEvent,
   HostCall.event sampleGuestLaterHost bz_EventData.bz_eGameEndEvent,
   HostCall.slashCommand sampleGuestHost sampleCaller "official" []]

/-- The sample host with the four players enumerated green, red, red, green. -/
def sampleMixedHost : Host :=
  { sampleHost with
    players :=
      [⟨1, "cy", "103", "10.0.0.3", eGreenTeam, true, false⟩,
       ⟨2, "ann", "101", "10.0.0.1", eRedTeam, true, false⟩,
       ⟨3, "bob", "102", "10.0.0.2", eRedTeam, true, false⟩,
       ⟨4, "dee", "104", "10.0.0.4", eGreenTeam, true, false⟩] }

/-- The plugin during the sample match with four different labels cached. -/
def sampleBothFlagged : LeagueOverseer :=
  { samplePlaying with
    teamMottos := [("101", "Reds"), ("102", "Blues"), ("103", "Greens"), ("104", "Apes")] }

/-- The sample host during the pre-game countdown, after every player has left. -/
def samplePregameHost : Host :=
  { sampleHost with players := [], teamCount := fun _ => 0, countDownInProgress := true }

/-- The plugin after `/official`, once a tick of the pre-game countdown has found nobody
playing. -/
def sampleAbandoned : LeagueOverseer :=
  afterCall { sampleIdle with officialMatch := some OfficialMatch.new }
    (HostCall.event samplePregameHost bz_EventData.bz_eTickEvent)

/-- The match of `sampleAbandoned`: new, and canceled by the tick. -/
def sampleAbandonedMatch : OfficialMatch :=
  { OfficialMatch.new with
    canceled := true
    cancelationReason :=
      "Official match automatically canceled due to all players leaving the match." }

/-- The players are back: the game starts, red captures, and a tick 900 seconds on runs
the roll call. -/
def sampleReplay : List HostCall :=
  [HostCall.event { sampleHost with currentTime := 100 } bz_EventData.bz_eGameStartEvent,
   HostCall.event sampleHost (bz_EventData.bz_eCaptureEvent eRedTeam),
   HostCall.event sampleHost bz_EventData.bz_eTickEvent]

/-! ## Starting an official match -/

/-- C1: for a verified caller who may spawn and is not an observer, `/official` is refused
with the state unchanged and nothing but a direct message when either designated colour has
fewer than two players; with two or more on both, no match object and no countdown active
or in progress it installs a fresh `OfficialMatch` and starts exactly one countdown, of
between 5 and 120 seconds. -/
theorem official_roster_gate (s : LeagueOverseer) (h : Host)
    (playerData : bz_BasePlayerRecord) (params : List String)
    (hv : playerData.verified = true) (hp : h.hasPerm playerData.playerID "spawn" = true)
    (ho : playerData.team ≠ eObservers) :
    ((h.teamCount s.TEAM_ONE < 2 ∨ h.teamCount s.TEAM_TWO < 2) →
      SlashCommand s h playerData "official" params =
        some (⟨s, [HostAction.sendTextMessage (MessageTarget.player playerData.playerID)
          "You may not have an official match with less than 2 players per team."]⟩, true)) ∧
    ((2 ≤ h.teamCount s.TEAM_ONE ∧ 2 ≤ h.teamCount s.TEAM_TWO ∧ s.officialMatch = none ∧
        h.countDownActive = false ∧ h.countDownInProgress = false) →
      ∃ n : Int, 5 ≤ n ∧ n ≤ 120 ∧
        SlashCommand s h playerData "official" params =
          some (⟨{ s with officialMatch := some OfficialMatch.new },
            [HostAction.sendTextMessage MessageTarget.allUsers
               ("Official match started by " ++ playerData.callsign ++ "."),
             HostAction.startCountdown n h.timeLimit "Server"]⟩, true)) := by
  have hcmd : ∀ c : String, c = "official" → SlashCommand s h playerData c params =
      some (SlashCommand_official s h playerData params, true) := by
    intro c hc
    subst hc
    simp [SlashCommand, hv, hp]
  refine ⟨fun hsmall => ?_, fun hbig => ?_⟩
  · rw [hcmd _ rfl]
    simp [SlashCommand_official, ho, hsmall]
  · obtain ⟨h1, h2, hnone, hact, hprog⟩ := hbig
    rw [hcmd _ rfl]
    have hge : ¬ (h.teamCount s.TEAM_ONE < 2 ∨ h.teamCount s.TEAM_TWO < 2) := by omega
    by_cases hr : (match params with
        | [p] => atoi p
        | _ => 10) ≤ 120 ∧ (match params with
        | [p] => atoi p
        | _ => 10) ≥ 5
    · refine ⟨_, hr.2, hr.1, ?_⟩
      simp [SlashCommand_official, ho, hge, hnone, hact, hprog, startCountdownFor, hr]
    · refine ⟨10, by decide, by decide, ?_⟩
      simp [SlashCommand_official, ho, hge, hnone, hact, hprog, startCountdownFor, hr]

/-- Witness for C1: on the sample host (2 v 2, no match, no countdown) the caller is
verified, may spawn and plays red, and `/official` creates the match and one countdown. -/
theorem official_roster_gate_witness :
    sampleCaller.verified = true ∧ sampleHost.hasPerm sampleCaller.playerID "spawn" = true ∧
    sampleCaller.team ≠ eObservers ∧
    ∃ n : Int, 5 ≤ n ∧ n ≤ 120 ∧
      SlashCommand sampleIdle sampleHost sampleCaller "official" [] =
        some (⟨{ sampleIdle with officialMatch := some OfficialMatch.new },
          [HostAction.sendTextMessage MessageTarget.allUsers
             ("Official match started by " ++ sampleCaller.callsign ++ "."),
           HostAction.startCountdown n sampleHost.timeLimit "Server"]⟩, true) :=
  ⟨by decide, by decide, by decide,
   (official_roster_gate sampleIdle sampleHost sampleCaller []
      (by decide) (by decide) (by decide)).2 ⟨by decide, by decide, rfl, rfl, rfl⟩⟩

/-! ## Score counters -/

/-- C2: whenever an official match exists, whatever its two counters hold, the game-start
event returns with both counters 0, `startTime` the current time and `duration` the host
time limit; the other fields of the match are untouched. -/
theorem gameStart_resets_scores (s : LeagueOverseer) (h : Host) (m : OfficialMatch)
    (hm : s.officialMatch = some m) :
    ∃ r : Step, Event s h bz_EventData.bz_eGameStartEvent = EventResult.returned r ∧
      r.state.officialMatch = some { m with teamOnePoints := 0, teamTwoPoints := 0,
                                            startTime := h.currentTime,
                                            duration := h.timeLimit } := by
  refine ⟨_, rfl, ?_⟩
  simp [Event_bz_eGameStartEvent, hm]

/-- Witness for C2: the sample match stands at 3 : 2 when the game-start event arrives. -/
theorem gameStart_resets_scores_witness :
    samplePlaying.officialMatch = some sampleMatch ∧ sampleMatch.teamOnePoints = 3 ∧
    ∃ r : Step,
      Event samplePlaying sampleHost bz_EventData.bz_eGameStartEvent = EventResult.returned r ∧
      r.state.officialMatch = some { sampleMatch with teamOnePoints := 0, teamTwoPoints := 0,
                                                      startTime := sampleHost.currentTime,
                                                      duration := sampleHost.timeLimit } :=
  ⟨rfl, rfl, gameStart_resets_scores samplePlaying sampleHost sampleMatch rfl⟩

/-- Storing a value that fits an `int` leaves it as it is. -/
theorem wrapInt_of_fits (x : Int) (h1 : INT_MIN ≤ x) (h2 : x ≤ INT_MAX) : wrapInt x = x := by
  unfold INT_MIN at h1
  unfold INT_MAX at h2
  unfold wrapInt
  omega

/-- C3: a capture by `TEAM_ONE` during a match adds exactly 1 to `teamOnePoints` and
leaves everything else; a capture by `TEAM_TWO` (the two designated colours being
different) adds exactly 1 to `teamTwoPoints` and leaves everything else; this for a counter
that holds an `int` below `INT_MAX` (2147483647), the largest value it can hold. Without a
match object the state is unchanged. No host action is invoked in any case. -/
theorem capture_counts_for_capping_team (s : LeagueOverseer) (h : Host)
    (teamCapping : bz_eTeamType) :
    (∀ m, s.officialMatch = some m → teamCapping = s.TEAM_ONE →
      INT_MIN ≤ m.teamOnePoints → m.teamOnePoints < INT_MAX →
      Event s h (bz_EventData.bz_eCaptureEvent teamCapping) = EventResult.returned
        ⟨{ s with officialMatch := some { m with teamOnePoints := m.teamOnePoints + 1 } },
         []⟩) ∧
    (∀ m, s.officialMatch = some m → teamCapping = s.TEAM_TWO → s.TEAM_ONE ≠ s.TEAM_TWO →
      INT_MIN ≤ m.teamTwoPoints → m.teamTwoPoints < INT_MAX →
      Event s h (bz_EventData.bz_eCaptureEvent teamCapping) = EventResult.returned
        ⟨{ s with officialMatch := some { m with teamTwoPoints := m.teamTwoPoints + 1 } },
         []⟩) ∧
    (s.officialMatch = none →
      Event s h (bz_EventData.bz_eCaptureEvent teamCapping) = EventResult.returned ⟨s, []⟩) := by
  refine ⟨fun m hm hc hlo hhi => ?_, fun m hm hc hne hlo hhi => ?_, fun hm => ?_⟩
  · have hw : wrapInt (m.teamOnePoints + 1) = m.teamOnePoints + 1 :=
      wrapInt_of_fits _ (by unfold INT_MIN at hlo ⊢; omega) (by unfold INT_MAX at hhi ⊢; omega)
    simp [Event, Event_bz_eCaptureEvent, hm, hc, hw]
  · have hc1 : ¬ teamCapping = s.TEAM_ONE := fun h1 => hne (h1 ▸ hc)
    have hw : wrapInt (m.teamTwoPoints + 1) = m.teamTwoPoints + 1 :=
      wrapInt_of_fits _ (by unfold INT_MIN at hlo ⊢; omega) (by unfold INT_MAX at hhi ⊢; omega)
    simp [Event, Event_bz_eCaptureEvent, hm, hc1, hw]
  · simp [Event, Event_bz_eCaptureEvent, hm]

/-- Witness for C3: a green capture in the sample match (red and green designated, 3 : 2)
makes it 3 : 3. -/
theorem capture_counts_for_capping_team_witness :
    samplePlaying.officialMatch = some sampleMatch ∧ eGreenTeam = samplePlaying.TEAM_TWO ∧
    samplePlaying.TEAM_ONE ≠ samplePlaying.TEAM_TWO ∧
    INT_MIN ≤ sampleMatch.teamTwoPoints ∧ sampleMatch.teamTwoPoints < INT_MAX ∧
    Event samplePlaying sampleHost (bz_EventData.bz_eCaptureEvent eGreenTeam) =
      EventResult.returned
        ⟨{ samplePlaying with
            officialMatch := some { sampleMatch with teamTwoPoints := 2 + 1 } }, []⟩ :=
  ⟨rfl, rfl, by decide, by decide, by decide,
   (capture_counts_for_capping_team samplePlaying sampleHost eGreenTeam).2.1
      sampleMatch rfl rfl (by decide) (by decide) (by decide)⟩

/-! ## The game-end event -/

/-- The game-end handler in one equation: it raises where its arm raises and otherwise
returns with the match object gone and the recording flag off. -/
theorem gameEnd_eq (s : LeagueOverseer) (h : Host) :
    Event s h bz_EventData.bz_eGameEndEvent =
      match gameEndReport s h with
      | none => EventResult.raised ⟨s, []⟩
      | some reported =>
        EventResult.returned ⟨{ s with RECORDING := false, officialMatch := none },
          reported ++ recordingActions s h⟩ := by
  cases hg : gameEndReport s h with
  | none => simp [Event, Event_bz_eGameEndEvent, hg]
  | some reported =>
    by_cases hr : s.RECORDING = true
    · simp [Event, Event_bz_eGameEndEvent, hg, hr, recordingActions]
    · have hr2 : s.RECORDING = false := by simpa using hr
      simp [Event, Event_bz_eGameEndEvent, hg, hr2, recordingActions]

/-- The arm of the game-end case, by the shape of the state. -/
theorem gameEndReport_eq (s : LeagueOverseer) (h : Host) :
    gameEndReport s h = outcomeActions s h (gameEndOutcome s) := by
  cases hm : s.officialMatch with
  | none => simp [gameEndReport, gameEndOutcome, outcomeActions, hm]
  | some m =>
    by_cases hc : m.canceled = true
    · simp [gameEndReport, gameEndOutcome, outcomeActions, hm, hc]
    · by_cases hp : m.matchParticipants.isEmpty = true
      · simp [gameEndReport, gameEndOutcome, outcomeActions, hm, hc, hp]
      · have hp2 : m.matchParticipants.isEmpty = false := by simpa using hp
        have hc2 : m.canceled = false := by simpa using hc
        rw [gameEndReport, gameEndOutcome, hm]
        simp only [hc2, hp2, outcomeActions, Bool.false_eq_true, if_false]
        cases hx : matchToSend s h m with
        | none => rfl
        | some d => rfl

/-- C4: the arm of the game-end case is a function of the state alone, chosen with the
precedence no match object, then `canceled`, then an empty participants list, then the
report; the outcome it gives is one of the four in every state, a canceled match carries
its stored reason also when participants are recorded, and the host actions of the arm are
those the outcome stands for. -/
theorem gameEnd_outcome_precedence (s : LeagueOverseer) (h : Host) :
    gameEndReport s h = outcomeActions s h (gameEndOutcome s) ∧
    (s.officialMatch = none → gameEndOutcome s = MatchOutcome.FunMatchCompleted) ∧
    (∀ m, s.officialMatch = some m → m.canceled = true →
      gameEndOutcome s = MatchOutcome.OfficialCanceled m.cancelationReason) ∧
    (∀ m, s.officialMatch = some m → m.canceled = false → m.matchParticipants = [] →
      gameEndOutcome s = MatchOutcome.OfficialMissingParticipants) ∧
    (∀ m, s.officialMatch = some m → m.canceled = false → m.matchParticipants ≠ [] →
      gameEndOutcome s = MatchOutcome.OfficialCompleted m) := by
  refine ⟨gameEndReport_eq s h, fun hm => ?_, fun m hm hc => ?_, fun m hm hc hp => ?_,
    fun m hm hc hp => ?_⟩
  · simp [gameEndOutcome, hm]
  · simp [gameEndOutcome, hm, hc]
  · simp [gameEndOutcome, hm, hc, hp]
  · have hp2 : m.matchParticipants.isEmpty = false := by
      cases hl : m.matchParticipants with
      | nil => exact absurd hl hp
      | cons a l => rfl
    simp [gameEndOutcome, hm, hc, hp2]

/-- Witness for C4: a canceled match with a recorded roster ends as `OfficialCanceled`
with the stored reason. -/
theorem gameEnd_outcome_precedence_witness :
    sampleCanceled.officialMatch = some sampleCanceledMatch ∧
    sampleCanceledMatch.canceled = true ∧ sampleCanceledMatch.matchParticipants ≠ [] ∧
    gameEndOutcome sampleCanceled = MatchOutcome.OfficialCanceled "stop" :=
  ⟨rfl, rfl, by decide,
   (gameEnd_outcome_precedence sampleCanceled sampleHost).2.2.1 sampleCanceledMatch rfl rfl⟩

/-- C5, at the failing input: the match is official, not canceled, recorded, and its
roster holds red players only. The game-end handler is left by the exception of
`buildBZIDString (TEAM_TWO)`: the match object is still there and `RECORDING` is still
true. -/
theorem gameEnd_redOnly_not_reset :
    ∃ r : Step,
      Event sampleRedOnly sampleHost bz_EventData.bz_eGameEndEvent = EventResult.raised r ∧
      r.state.officialMatch ≠ none ∧ r.state.RECORDING = true := by
  refine ⟨⟨sampleRedOnly, []⟩, ?_, by decide, by decide⟩
  decide

/-- C6, at the failing input: an official match that is not canceled and has a non-empty
participants list, yet the game-end handler dispatches no report job (it is left by the
exception before `bz_addURLJob`). -/
theorem gameEnd_redOnly_no_job :
    (∃ m, sampleRedOnly.officialMatch = some m ∧ m.canceled = false ∧
      m.matchParticipants ≠ []) ∧
    ∃ r : Step,
      Event sampleRedOnly sampleHost bz_EventData.bz_eGameEndEvent = EventResult.raised r ∧
      reportJobs sampleRedOnly r.actions = [] := by
  refine ⟨⟨_, rfl, by decide, by decide⟩, ⟨sampleRedOnly, []⟩, ?_, by decide⟩
  decide

/-- Whenever the game-end handler returns, the match object is gone, the recording flag is
off and no other member has changed. -/
theorem gameEnd_returned_resets (s : LeagueOverseer) (h : Host) (r : Step)
    (hr : Event s h bz_EventData.bz_eGameEndEvent = EventResult.returned r) :
    r.state = { s with RECORDING := false, officialMatch := none } := by
  rw [gameEnd_eq] at hr
  cases hg : gameEndReport s h with
  | none => simp [hg] at hr
  | some acts =>
    simp only [hg] at hr
    cases hr
    rfl

/-- Report jobs of two action lists in a row. -/
theorem reportJobs_append (s : LeagueOverseer) (a b : List HostAction) :
    reportJobs s (a ++ b) = reportJobs s a ++ reportJobs s b := by
  simp [reportJobs, List.filter_append]

/-- The recording block dispatches no job. -/
theorem reportJobs_recordingActions (s : LeagueOverseer) (h : Host) :
    reportJobs s (recordingActions s h) = [] := by
  by_cases hrec : s.RECORDING = true
  · simp only [recordingActions, hrec, if_true]
    rfl
  · simp only [recordingActions, hrec]
    rfl

/-- A broadcast is no job. -/
theorem reportJobs_broadcast (s : LeagueOverseer) (t : MessageTarget) (msg : String)
    (rest : List HostAction) :
    reportJobs s (HostAction.sendTextMessage t msg :: rest) = reportJobs s rest := by
  simp [reportJobs]

/-- A job to `LEAGUE_URL` is a report job. -/
theorem reportJobs_job (s : LeagueOverseer) (d : String) (rest : List HostAction) :
    reportJobs s (HostAction.addURLJob s.LEAGUE_URL d :: rest) =
      HostAction.addURLJob s.LEAGUE_URL d :: reportJobs s rest := by
  simp [reportJobs]

/-- Whenever the game-end handler returns, it has dispatched exactly one report job when
an official match exists, is not canceled and has participants, and none in every other
state. -/
theorem gameEnd_returned_jobs (s : LeagueOverseer) (h : Host) (r : Step)
    (hr : Event s h bz_EventData.bz_eGameEndEvent = EventResult.returned r) :
    (reportJobs s r.actions).length =
      if (∃ m, s.officialMatch = some m ∧ m.canceled = false ∧ m.matchParticipants ≠ [])
      then 1 else 0 := by
  rw [gameEnd_eq] at hr
  cases hg : gameEndReport s h with
  | none =>
    rw [hg] at hr
    exact EventResult.noConfusion hr
  | some acts =>
    rw [hg] at hr
    have hr2 := EventResult.returned.inj hr
    rw [← hr2]
    show (reportJobs s (acts ++ recordingActions s h)).length = _
    rw [reportJobs_append, reportJobs_recordingActions, List.append_nil]
    rw [gameEndReport_eq] at hg
    cases hm : s.officialMatch with
    | none =>
      rw [gameEndOutcome, hm] at hg
      simp only [outcomeActions, Option.some.injEq] at hg
      subst hg
      simp [reportJobs]
    | some m =>
      rw [gameEndOutcome, hm] at hg
      by_cases hc : m.canceled = true
      · simp only [hc, if_true, outcomeActions, Option.some.injEq] at hg
        subst hg
        simp [reportJobs_broadcast, reportJobs, hc]
      · have hc2 : m.canceled = false := by simpa using hc
        cases hl : m.matchParticipants with
        | nil =>
          simp only [hc2, hl, List.isEmpty_nil, Bool.false_eq_true, if_false, if_true,
            outcomeActions, Option.some.injEq] at hg
          subst hg
          simp [reportJobs_broadcast, reportJobs, hl]
        | cons a l =>
          simp only [hc2, hl, List.isEmpty_cons, Bool.false_eq_true, if_false,
            outcomeActions] at hg
          cases hsend : matchToSend s h m with
          | none =>
            rw [hsend] at hg
            exact Option.noConfusion hg
          | some d =>
            rw [hsend] at hg
            have hg2 := Option.some.inj hg
            rw [← hg2, reportJobs_broadcast, reportJobs_job]
            simp [reportJobs, hc2, hl]

/-! ## Identity lists -/

/-- The loop of `buildBZIDString` appends, for each participant of the team in order, the
escaped identity and a comma. -/
theorem buildBZIDLoop_data (enc : String → String) (team : bz_eTeamType)
    (ps : List MatchParticipant) (acc : String) :
    (buildBZIDLoop enc team ps acc).data =
      acc.data ++ withCommas ((ps.filter (fun p => decide (p.teamColor = team))).map
        (fun p => enc p.bzID)) := by
  induction ps generalizing acc with
  | nil => simp [buildBZIDLoop, withCommas]
  | cons p rest ih =>
    by_cases hp : p.teamColor = team
    · simp [buildBZIDLoop, hp, ih, withCommas, String.data_append]
    · simp [buildBZIDLoop, hp, ih, withCommas]

/-- A non-empty list with a comma after every entry is the comma-joined list and one more
comma. -/
theorem withCommas_eq (ids : List String) (hne : ids ≠ []) :
    withCommas ids = (commaJoin ids).data ++ [','] := by
  induction ids with
  | nil => exact absurd rfl hne
  | cons a rest ih =>
    cases rest with
    | nil => simp [withCommas, commaJoin]
    | cons b rest2 =>
      have := ih (by simp)
      simp only [withCommas, List.map_cons, List.flatten_cons] at this ⊢
      rw [this]
      simp [commaJoin, String.data_append]

/-- With a participant on the team, `buildBZIDString` returns the comma-joined list. -/
theorem buildBZIDString_eq (h : Host) (m : OfficialMatch) (team : bz_eTeamType)
    (hne : teamIdentities h m team ≠ [])
    (hfit : (buildBZIDLoop h.urlEncode team m.matchParticipants "").length < SIZE_RANGE) :
    buildBZIDString h m team = some (commaJoin (teamIdentities h m team)) := by
  have hd := buildBZIDLoop_data h.urlEncode team m.matchParticipants ""
  rw [show ((m.matchParticipants.filter (fun p => decide (p.teamColor = team))).map
        (fun p => h.urlEncode p.bzID)) = teamIdentities h m team from rfl,
      withCommas_eq _ hne] at hd
  rw [show ("" : String).data = [] from rfl, List.nil_append] at hd
  have hlen : (buildBZIDLoop h.urlEncode team m.matchParticipants "").length =
      (commaJoin (teamIdentities h m team)).data.length + 1 := by
    rw [String.length, hd]; simp
  unfold buildBZIDString stringErase
  simp only
  rw [hlen] at hfit ⊢
  have hidx : (SIZE_RANGE - 1 + ((commaJoin (teamIdentities h m team)).data.length + 1)) %
      SIZE_RANGE = (commaJoin (teamIdentities h m team)).data.length := by
    have hpos : 0 < SIZE_RANGE := by unfold SIZE_RANGE; positivity
    rw [show SIZE_RANGE - 1 + ((commaJoin (teamIdentities h m team)).data.length + 1) =
      (commaJoin (teamIdentities h m team)).data.length + SIZE_RANGE by omega]
    rw [Nat.add_mod_right]
    exact Nat.mod_eq_of_lt (by omega)
  rw [hidx, hd]
  simp

/-- Without a participant on the team, `buildBZIDString` raises. -/
theorem buildBZIDString_none (h : Host) (m : OfficialMatch) (team : bz_eTeamType)
    (hnil : teamIdentities h m team = []) :
    buildBZIDString h m team = none := by
  have hd := buildBZIDLoop_data h.urlEncode team m.matchParticipants ""
  rw [show ((m.matchParticipants.filter (fun p => decide (p.teamColor = team))).map
        (fun p => h.urlEncode p.bzID)) = teamIdentities h m team from rfl, hnil] at hd
  have hlen : (buildBZIDLoop h.urlEncode team m.matchParticipants "").length = 0 := by
    rw [String.length, hd]; rfl
  unfold buildBZIDString stringErase
  simp only
  rw [hlen]
  simp [SIZE_RANGE]

/-- A team with a participant has a non-empty identity list. -/
theorem teamIdentities_ne_nil (h : Host) (m : OfficialMatch) (team : bz_eTeamType)
    (hp : ∃ p ∈ m.matchParticipants, p.teamColor = team) : teamIdentities h m team ≠ [] := by
  obtain ⟨p, hmem, hcol⟩ := hp
  intro hnil
  have : h.urlEncode p.bzID ∈ teamIdentities h m team :=
    List.mem_map.mpr ⟨p, List.mem_filter.mpr ⟨hmem, by simp [hcol]⟩, rfl⟩
  rw [hnil] at this
  exact absurd this (List.not_mem_nil _)

/-- Comma-joining entries that hold no comma gives one comma less than entries. -/
theorem commaJoin_count (ids : List String) (hc : ∀ i ∈ ids, ',' ∉ i.data) :
    (commaJoin ids).data.count ',' = ids.length - 1 := by
  induction ids with
  | nil => rfl
  | cons a rest ih =>
    cases rest with
    | nil =>
      simpa [commaJoin] using List.count_eq_zero.mpr (hc a (List.mem_cons_self _ _))
    | cons b rest2 =>
      have h1 := ih (fun i hi => hc i (List.mem_cons_of_mem _ hi))
      have h2 : List.count ',' a.data = 0 :=
        List.count_eq_zero.mpr (hc a (List.mem_cons_self _ _))
      have h3 : (commaJoin (a :: b :: rest2)).data =
          a.data ++ (',' :: (commaJoin (b :: rest2)).data) := by
        simp [commaJoin, String.data_append]
      rw [h3, List.count_append, h2, List.count_cons_self, h1]
      simp

/-- A comma-joined list whose last entry is not empty ends as that entry ends. -/
theorem commaJoin_getLast (ids : List String) (lastId : String)
    (hl : ids.getLast? = some lastId) (hne : lastId ≠ "") :
    (commaJoin ids).data.getLast? = lastId.data.getLast? := by
  induction ids with
  | nil => simp at hl
  | cons a rest ih =>
    cases rest with
    | nil =>
      simp at hl
      simp [commaJoin, hl]
    | cons b rest2 =>
      have hl2 : (b :: rest2).getLast? = some lastId := by
        simpa [List.getLast?_cons_cons] using hl
      have h1 := ih hl2
      have hdata : lastId.data ≠ [] := by
        intro hd
        apply hne
        cases lastId
        simp_all
      have hsome : ∃ c, lastId.data.getLast? = some c := by
        cases hx : lastId.data.getLast? with
        | none => exact absurd (List.getLast?_eq_none_iff.mp hx) hdata
        | some c => exact ⟨c, rfl⟩
      obtain ⟨c, hc⟩ := hsome
      have hnonempty : (commaJoin (b :: rest2)).data ≠ [] := by
        intro hd
        rw [hd, hc] at h1
        simp at h1
      have h3 : (commaJoin (a :: b :: rest2)).data =
          (a.data ++ [',']) ++ (commaJoin (b :: rest2)).data := by
        simp [commaJoin, String.data_append]
      rw [h3, List.getLast?_append_of_ne_nil _ hnonempty, h1]


/-- C8 (amended): for every participants list and every colour with at least one
participant, `buildBZIDString` returns the url-escaped identities of exactly that colour's
participants, in roll-call order, joined by single commas; when no escaped identity holds a
comma, the number of commas is one less than the number of that colour's participants, and
the string does not end with a comma provided the last of those identities is not empty. -/
theorem buildBZIDString_comma_joined (h : Host) (m : OfficialMatch) (team : bz_eTeamType)
    (hp : ∃ p ∈ m.matchParticipants, p.teamColor = team)
    (hfit : (buildBZIDLoop h.urlEncode team m.matchParticipants "").length < SIZE_RANGE) :
    buildBZIDString h m team = some (commaJoin (teamIdentities h m team)) ∧
    ((∀ i ∈ teamIdentities h m team, ',' ∉ i.data) →
      (commaJoin (teamIdentities h m team)).data.count ',' =
        (m.matchParticipants.filter (fun p => decide (p.teamColor = team))).length - 1 ∧
      ∀ lastId, (teamIdentities h m team).getLast? = some lastId → lastId ≠ "" →
        (commaJoin (teamIdentities h m team)).data.getLast? ≠ some ',') := by
  refine ⟨buildBZIDString_eq h m team (teamIdentities_ne_nil h m team hp) hfit,
    fun hc => ⟨?_, ?_⟩⟩
  · rw [commaJoin_count _ hc]
    simp [teamIdentities]
  · intro lastId hl hne hlast
    rw [commaJoin_getLast _ lastId hl hne] at hlast
    have hmem : lastId ∈ teamIdentities h m team := List.mem_of_getLast?_eq_some hl
    exact hc lastId hmem (List.mem_of_getLast?_eq_some hlast)

/-- Witness for C8: the green identities of the sample roster. -/
theorem buildBZIDString_comma_joined_witness :
    (∃ p ∈ sampleRecorded.matchParticipants, p.teamColor = eGreenTeam) ∧
    (buildBZIDLoop sampleHost.urlEncode eGreenTeam sampleRecorded.matchParticipants "").length
      < SIZE_RANGE ∧
    buildBZIDString sampleHost sampleRecorded eGreenTeam = some "103,104" ∧
    "103,104".data.count ',' = 2 - 1 :=
  ⟨by decide, by decide,
   (buildBZIDString_comma_joined sampleHost sampleRecorded eGreenTeam
      (by decide) (by decide)).1,
   ((buildBZIDString_comma_joined sampleHost sampleRecorded eGreenTeam
      (by decide) (by decide)).2 (by decide)).1⟩

/-- C8, counterexample: a red roster of a registered player followed by a player without a
stable identity; no escaped identity holds a comma, and the string returned ends with a
comma. -/
theorem buildBZIDString_trailing_comma :
    (∃ p ∈ sampleAnonymous.matchParticipants, p.teamColor = eRedTeam) ∧
    (∀ i ∈ teamIdentities sampleHost sampleAnonymous eRedTeam, ',' ∉ i.data) ∧
    buildBZIDString sampleHost sampleAnonymous eRedTeam = some "101," ∧
    "101,".data.getLast? = some ',' := by
  decide

/-- C9, at the failing input: the roster is not empty and holds red players only; for the
designated colour green `buildBZIDString` raises instead of returning the empty string, and
so does the game-end handler, in a state whose outcome is `OfficialCompleted`. -/
theorem buildBZIDString_redOnly_raises :
    (∃ m, sampleRedOnly.officialMatch = some m ∧ m.matchParticipants ≠ [] ∧
      gameEndOutcome sampleRedOnly = MatchOutcome.OfficialCompleted m ∧
      teamIdentities sampleHost m sampleRedOnly.TEAM_TWO = [] ∧
      buildBZIDString sampleHost m sampleRedOnly.TEAM_TWO = none) ∧
    gameEndReport sampleRedOnly sampleHost = none := by
  refine ⟨⟨_, rfl, by decide, by decide, by decide, by decide⟩, by decide⟩

/-! ## The report body -/

/-- `validateTeamName` on a roll call that is valid so far, for a player whose label is the
team's common label: nothing is flagged and the canonical name stays empty or common. -/
theorem validateTeamName_consistent (p : MatchParticipant) (teamName L : String)
    (team : bz_eTeamType) (hL : p.teamColor = team → p.teamName = L)
    (hn : teamName = "" ∨ teamName = L) :
    (validateTeamName false false p teamName team).1 = false ∧
    (validateTeamName false false p teamName team).2.1 = false ∧
    ((validateTeamName false false p teamName team).2.2 = "" ∨
      (validateTeamName false false p teamName team).2.2 = L) := by
  unfold validateTeamName
  by_cases hc : p.teamColor = team
  · by_cases he : teamName = ""
    · simp [hc, he, hL hc]
    · have hL2 : teamName = L := hn.resolve_left he
      simp [hc, he, hL hc, hL2, hn]
  · simp [hc, hn]

/-- The roll-call loop over players who all have an identity and share one label per
designated colour: the roll call stays valid and every non-observer is appended. -/
theorem rollCallLoop_consistent (s : LeagueOverseer) (L1 L2 : String)
    (ps : List bz_BasePlayerRecord) (r : RollCall)
    (hid : ∀ p ∈ ps, p.team ≠ eObservers → p.bzID ≠ "")
    (h1 : ∀ p ∈ ps, p.team ≠ eObservers → p.team = s.TEAM_ONE →
      mottoOf s.teamMottos p.bzID = L1)
    (h2 : ∀ p ∈ ps, p.team ≠ eObservers → p.team = s.TEAM_TWO →
      mottoOf s.teamMottos p.bzID = L2)
    (hi : r.invalidateRollcall = false) (he1 : r.teamOneError = false)
    (he2 : r.teamTwoError = false)
    (hn1 : r.teamOneMotto = "" ∨ r.teamOneMotto = L1)
    (hn2 : r.teamTwoMotto = "" ∨ r.teamTwoMotto = L2) :
    (rollCallLoop s ps r).invalidateRollcall = false ∧
    (rollCallLoop s ps r).teamOneError = false ∧
    (rollCallLoop s ps r).teamTwoError = false ∧
    (rollCallLoop s ps r).matchParticipants =
      r.matchParticipants ++
        (ps.filter (fun p => decide (p.team ≠ eObservers))).map (participantOf s) := by
  induction ps generalizing r with
  | nil => simp [rollCallLoop, hi, he1, he2]
  | cons p rest ih =>
    have hrest_id : ∀ q ∈ rest, q.team ≠ eObservers → q.bzID ≠ "" :=
      fun q hq => hid q (List.mem_cons_of_mem _ hq)
    have hrest1 : ∀ q ∈ rest, q.team ≠ eObservers → q.team = s.TEAM_ONE →
        mottoOf s.teamMottos q.bzID = L1 := fun q hq => h1 q (List.mem_cons_of_mem _ hq)
    have hrest2 : ∀ q ∈ rest, q.team ≠ eObservers → q.team = s.TEAM_TWO →
        mottoOf s.teamMottos q.bzID = L2 := fun q hq => h2 q (List.mem_cons_of_mem _ hq)
    have hstep : rollCallLoop s (p :: rest) r = rollCallLoop s rest (rollCallStep s r p) := rfl
    rw [hstep]
    by_cases ho : p.team = eObservers
    · have hsame : rollCallStep s r p = r := by simp [rollCallStep, ho]
      rw [hsame]
      have := ih r hrest_id hrest1 hrest2 hi he1 he2 hn1 hn2
      simpa [ho] using this
    · have hb : p.bzID ≠ "" := hid p (List.mem_cons_self _ _) ho
      have v1 := validateTeamName_consistent (participantOf s p) r.teamOneMotto L1 s.TEAM_ONE
        (fun hc => h1 p (List.mem_cons_self _ _) ho hc) hn1
      have v2 := validateTeamName_consistent (participantOf s p) r.teamTwoMotto L2 s.TEAM_TWO
        (fun hc => h2 p (List.mem_cons_self _ _) ho hc) hn2
      have hstepEq : rollCallStep s r p =
          { invalidateRollcall :=
              if (participantOf s p).bzID = "" then true
              else (validateTeamName
                (validateTeamName r.invalidateRollcall r.teamOneError (participantOf s p)
                  r.teamOneMotto s.TEAM_ONE).1
                r.teamTwoError (participantOf s p) r.teamTwoMotto s.TEAM_TWO).1
            teamOneError := (validateTeamName r.invalidateRollcall r.teamOneError
              (participantOf s p) r.teamOneMotto s.TEAM_ONE).2.1
            teamTwoError := (validateTeamName
                (validateTeamName r.invalidateRollcall r.teamOneError (participantOf s p)
                  r.teamOneMotto s.TEAM_ONE).1
                r.teamTwoError (participantOf s p) r.teamTwoMotto s.TEAM_TWO).2.1
            teamOneMotto := (validateTeamName r.invalidateRollcall r.teamOneError
              (participantOf s p) r.teamOneMotto s.TEAM_ONE).2.2
            teamTwoMotto := (validateTeamName
                (validateTeamName r.invalidateRollcall r.teamOneError (participantOf s p)
                  r.teamOneMotto s.TEAM_ONE).1
                r.teamTwoError (participantOf s p) r.teamTwoMotto s.TEAM_TWO).2.2
            matchParticipants := r.matchParticipants ++ [participantOf s p] } := by
        simp [rollCallStep, ho, participantOf]
      rw [hi, he1, he2, v1.1] at hstepEq
      have hbz : (participantOf s p).bzID = p.bzID := rfl
      have := ih (rollCallStep s r p) hrest_id hrest1 hrest2
        (by rw [hstepEq]; simp [hbz, hb, v2.1])
        (by rw [hstepEq]; exact v1.2.1)
        (by rw [hstepEq]; exact v2.2.1)
        (by rw [hstepEq]; exact v1.2.2)
        (by rw [hstepEq]; exact v2.2.2)
      refine ⟨this.1, this.2.1, this.2.2.1, ?_⟩
      rw [this.2.2.2, hstepEq]
      simp [ho]

/-- A common label for the non-observer players of one colour, from their labels being
pairwise equal. -/
theorem common_label (s : LeagueOverseer) (ps : List bz_BasePlayerRecord)
    (team : bz_eTeamType)
    (hsame : ∀ p ∈ ps, ∀ q ∈ ps, p.team ≠ eObservers → q.team ≠ eObservers →
      p.team = team → q.team = team →
      mottoOf s.teamMottos p.bzID = mottoOf s.teamMottos q.bzID) :
    ∃ L, ∀ p ∈ ps, p.team ≠ eObservers → p.team = team →
      mottoOf s.teamMottos p.bzID = L := by
  by_cases hex : ∃ p0 ∈ ps, p0.team ≠ eObservers ∧ p0.team = team
  · obtain ⟨p0, hp0, ho0, ht0⟩ := hex
    exact ⟨mottoOf s.teamMottos p0.bzID, fun p hp ho ht => hsame p hp p0 hp0 ho ho0 ht ht0⟩
  · exact ⟨"", fun p hp ho ht => absurd ⟨p, hp, ho, ht⟩ hex⟩

/-- The clean-up half of a tick touches only `canceled` and `cancelationReason` of the
match and asks for no identity refresh. -/
theorem tickCleanup_keeps (s : LeagueOverseer) (h : Host) (m : OfficialMatch)
    (hm : s.officialMatch = some m) :
    ∃ m', (tickCleanup s h).state = { s with officialMatch := some m' } ∧
      m'.startTime = m.startTime ∧ m'.duration = m.duration ∧
      m'.matchParticipants = m.matchParticipants ∧
      refreshRequests (tickCleanup s h).actions = [] := by
  unfold tickCleanup
  by_cases ht : h.teamCount eRedTeam + h.teamCount eGreenTeam + h.teamCount eBlueTeam +
      h.teamCount ePurpleTeam = 0
  · refine ⟨{ m with canceled := true, cancelationReason :=
        "Official match automatically canceled due to all players leaving the match." },
      ?_, rfl, rfl, rfl, ?_⟩
    · simp [ht, hm]
    · by_cases ha : h.countDownActive = true <;> simp [ht, ha, refreshRequests]
  · refine ⟨m, ?_, rfl, rfl, rfl, ?_⟩
    · simp [ht, ← hm]
    · simp [ht, refreshRequests]

/-- C10: on a tick whose roll call is due, when every non-observer player has a stable
identity and, on each designated colour, all players carry the same label, the tick
returns with `participants` the list of all connected non-observer players in enumeration
order (identity, callsign, address, cached label, colour), the roll-call delay unchanged
and no identity-refresh request issued. -/
theorem rollCall_consistent_commits (s : LeagueOverseer) (h : Host) (m : OfficialMatch)
    (hm : s.officialMatch = some m) (hdue : rollCallDue s h m = true)
    (hid : ∀ p ∈ h.players, p.team ≠ eObservers → p.bzID ≠ "")
    (h1 : ∀ p ∈ h.players, ∀ q ∈ h.players, p.team ≠ eObservers → q.team ≠ eObservers →
      p.team = s.TEAM_ONE → q.team = s.TEAM_ONE →
      mottoOf s.teamMottos p.bzID = mottoOf s.teamMottos q.bzID)
    (h2 : ∀ p ∈ h.players, ∀ q ∈ h.players, p.team ≠ eObservers → q.team ≠ eObservers →
      p.team = s.TEAM_TWO → q.team = s.TEAM_TWO →
      mottoOf s.teamMottos p.bzID = mottoOf s.teamMottos q.bzID) :
    ∃ (r : Step) (m' : OfficialMatch),
      Event s h bz_EventData.bz_eTickEvent = EventResult.returned r ∧
      r.state.officialMatch = some m' ∧
      m'.matchParticipants = connectedParticipants s h ∧
      r.state.MATCH_ROLLCALL = s.MATCH_ROLLCALL ∧
      refreshRequests r.actions = [] := by
  obtain ⟨L1, hL1⟩ := common_label s h.players s.TEAM_ONE h1
  obtain ⟨L2, hL2⟩ := common_label s h.players s.TEAM_TWO h2
  obtain ⟨mc, hstate, hst, hdur, hpart, hreq⟩ := tickCleanup_keeps s h m hm
  have hempty : m.matchParticipants = [] := by
    simp only [rollCallDue, Bool.and_eq_true, List.isEmpty_iff] at hdue
    exact hdue.2
  have hdue2 : rollCallDue { s with officialMatch := some mc } h mc = true := by
    simp only [rollCallDue, hst, hpart] at hdue ⊢
    exact hdue
  have hloop := rollCallLoop_consistent { s with officialMatch := some mc } L1 L2 h.players
    (RollCall.start mc.matchParticipants) hid hL1 hL2 rfl rfl rfl (Or.inl rfl) (Or.inl rfl)
  have hroll : tickRollCall { s with officialMatch := some mc } h =
      ⟨{ s with officialMatch := some { mc with matchParticipants :=
          (rollCallLoop { s with officialMatch := some mc } h.players
            (RollCall.start mc.matchParticipants)).matchParticipants } }, []⟩ := by
    simp [tickRollCall, hdue2, hloop.1]
  refine ⟨_, { mc with matchParticipants :=
      (rollCallLoop { s with officialMatch := some mc } h.players
        (RollCall.start mc.matchParticipants)).matchParticipants }, rfl, ?_, ?_, ?_, ?_⟩
  · simp [Event_bz_eTickEvent, hstate, hroll]
  · show (rollCallLoop _ h.players _).matchParticipants = _
    rw [hloop.2.2.2, hpart, hempty]
    rfl
  · simp [Event_bz_eTickEvent, hstate, hroll]
  · simp only [Event_bz_eTickEvent, hstate, hroll, List.append_nil]
    exact hreq

/-- Witness for C10: 900 seconds into the sample match, two Reds on red and two Greens on
green. -/
theorem rollCall_consistent_commits_witness :
    sampleLabelled.officialMatch = some sampleMatch ∧
    rollCallDue sampleLabelled sampleHost sampleMatch = true ∧
    (∀ p ∈ sampleHost.players, p.team ≠ eObservers → p.bzID ≠ "") ∧
    ∃ (r : Step) (m' : OfficialMatch),
      Event sampleLabelled sampleHost bz_EventData.bz_eTickEvent = EventResult.returned r ∧
      r.state.officialMatch = some m' ∧
      m'.matchParticipants =
        [⟨"101", "ann", "10.0.0.1", "Reds", eRedTeam⟩,
         ⟨"102", "bob", "10.0.0.2", "Reds", eRedTeam⟩,
         ⟨"103", "cy", "10.0.0.3", "Greens", eGreenTeam⟩,
         ⟨"104", "dee", "10.0.0.4", "Greens", eGreenTeam⟩] ∧
      r.state.MATCH_ROLLCALL = 90 ∧ refreshRequests r.actions = [] :=
  ⟨rfl, by decide, by decide,
   rollCall_consistent_commits sampleLabelled sampleHost sampleMatch rfl (by decide)
     (by decide) (by decide) (by decide)⟩

/-! ## The roll call: conflicts, retries and the gate -/

/-- `validateTeamName` in terms of `labelFlag` and `labelNext`. -/
theorem validateTeamName_eq (i e : Bool) (p : MatchParticipant) (n : String)
    (t : bz_eTeamType) :
    validateTeamName i e p n t = (i || labelFlag t n p, e || labelFlag t n p, labelNext t n p) := by
  unfold validateTeamName labelFlag labelNext
  by_cases hc : p.teamColor = t
  · by_cases hn : n = ""
    · simp [hc, hn]
    · by_cases hd : n = p.teamName
      · simp [hc, hn, hd]
      · simp [hc, hn, hd]
  · simp [hc]

/-- An observer leaves the roll call as it is. -/
theorem rollCallStep_observer (s : LeagueOverseer) (r : RollCall) (p : bz_BasePlayerRecord)
    (ho : p.team = eObservers) : rollCallStep s r p = r := by
  simp [rollCallStep, ho]

/-- One iteration of the roll call for a player who is no observer. -/
theorem rollCallStep_player (s : LeagueOverseer) (r : RollCall) (p : bz_BasePlayerRecord)
    (ho : p.team ≠ eObservers) :
    rollCallStep s r p =
      { invalidateRollcall :=
          if p.bzID = "" then true
          else (r.invalidateRollcall || labelFlag s.TEAM_ONE r.teamOneMotto (participantOf s p))
            || labelFlag s.TEAM_TWO r.teamTwoMotto (participantOf s p)
        teamOneError := r.teamOneError || labelFlag s.TEAM_ONE r.teamOneMotto (participantOf s p)
        teamTwoError := r.teamTwoError || labelFlag s.TEAM_TWO r.teamTwoMotto (participantOf s p)
        teamOneMotto := labelNext s.TEAM_ONE r.teamOneMotto (participantOf s p)
        teamTwoMotto := labelNext s.TEAM_TWO r.teamTwoMotto (participantOf s p)
        matchParticipants := r.matchParticipants ++ [participantOf s p] } := by
  simp only [rollCallStep, ho, ne_eq, not_false_eq_true, if_true, validateTeamName_eq]
  rfl

/-- The roll-call loop, one player at a time. -/
theorem rollCallLoop_cons (s : LeagueOverseer) (p : bz_BasePlayerRecord)
    (rest : List bz_BasePlayerRecord) (r : RollCall) :
    rollCallLoop s (p :: rest) r = rollCallLoop s rest (rollCallStep s r p) := rfl

/-- The roll call appends every non-observer, in enumeration order, whatever it flags. -/
theorem rollCallLoop_participants (s : LeagueOverseer) (ps : List bz_BasePlayerRecord)
    (r : RollCall) :
    (rollCallLoop s ps r).matchParticipants = r.matchParticipants ++ sampled s ps := by
  induction ps generalizing r with
  | nil => simp [rollCallLoop, sampled]
  | cons p rest ih =>
    rw [rollCallLoop_cons, ih]
    by_cases ho : p.team = eObservers
    · rw [rollCallStep_observer s r p ho]
      simp [sampled, ho]
    · rw [rollCallStep_player s r p ho]
      simp [sampled, ho]

/-- The canonical name and error flag of team one are the scan of the sampled players. -/
theorem rollCallLoop_scanOne (s : LeagueOverseer) (ps : List bz_BasePlayerRecord)
    (r : RollCall) :
    ((rollCallLoop s ps r).teamOneMotto, (rollCallLoop s ps r).teamOneError) =
      scanTeam s.TEAM_ONE (sampled s ps) (r.teamOneMotto, r.teamOneError) := by
  induction ps generalizing r with
  | nil => rfl
  | cons p rest ih =>
    rw [rollCallLoop_cons, ih]
    by_cases ho : p.team = eObservers
    · rw [rollCallStep_observer s r p ho]
      simp [sampled, ho]
    · rw [rollCallStep_player s r p ho]
      simp [sampled, ho, scanTeam]

/-- The canonical name and error flag of team two are the scan of the sampled players. -/
theorem rollCallLoop_scanTwo (s : LeagueOverseer) (ps : List bz_BasePlayerRecord)
    (r : RollCall) :
    ((rollCallLoop s ps r).teamTwoMotto, (rollCallLoop s ps r).teamTwoError) =
      scanTeam s.TEAM_TWO (sampled s ps) (r.teamTwoMotto, r.teamTwoError) := by
  induction ps generalizing r with
  | nil => rfl
  | cons p rest ih =>
    rw [rollCallLoop_cons, ih]
    by_cases ho : p.team = eObservers
    · rw [rollCallStep_observer s r p ho]
      simp [sampled, ho]
    · rw [rollCallStep_player s r p ho]
      simp [sampled, ho, scanTeam]

/-- A roll call that is invalid stays invalid. -/
theorem rollCallLoop_invalid_mono (s : LeagueOverseer) (ps : List bz_BasePlayerRecord)
    (r : RollCall) (hi : r.invalidateRollcall = true) :
    (rollCallLoop s ps r).invalidateRollcall = true := by
  induction ps generalizing r with
  | nil => exact hi
  | cons p rest ih =>
    rw [rollCallLoop_cons]
    apply ih
    by_cases ho : p.team = eObservers
    · rw [rollCallStep_observer s r p ho]; exact hi
    · rw [rollCallStep_player s r p ho]
      simp [hi]

/-- A colour is flagged only together with the roll call as a whole. -/
theorem rollCallLoop_error_invalid (s : LeagueOverseer) (ps : List bz_BasePlayerRecord)
    (r : RollCall)
    (h1 : r.teamOneError = true → r.invalidateRollcall = true)
    (h2 : r.teamTwoError = true → r.invalidateRollcall = true) :
    ((rollCallLoop s ps r).teamOneError = true →
      (rollCallLoop s ps r).invalidateRollcall = true) ∧
    ((rollCallLoop s ps r).teamTwoError = true →
      (rollCallLoop s ps r).invalidateRollcall = true) := by
  induction ps generalizing r with
  | nil => exact ⟨h1, h2⟩
  | cons p rest ih =>
    rw [rollCallLoop_cons]
    by_cases ho : p.team = eObservers
    · rw [rollCallStep_observer s r p ho]; exact ih r h1 h2
    · apply ih
      · rw [rollCallStep_player s r p ho]
        intro he
        simp only [Bool.or_eq_true] at he
        by_cases hb : p.bzID = ""
        · simp [hb]
        · rcases he with he | he
          · simp [hb, h1 he]
          · simp [hb, he]
      · rw [rollCallStep_player s r p ho]
        intro he
        simp only [Bool.or_eq_true] at he
        by_cases hb : p.bzID = ""
        · simp [hb]
        · rcases he with he | he
          · simp [hb, h2 he]
          · simp [hb, he]

/-- An error flag that is set stays set along the scan. -/
theorem scanTeam_error_mono (t : bz_eTeamType) (ps : List MatchParticipant)
    (acc : String × Bool) (he : acc.2 = true) : (scanTeam t ps acc).2 = true := by
  induction ps generalizing acc with
  | nil => exact he
  | cons p rest ih =>
    rw [scanTeam]
    apply ih
    simp [he]

/-- Once a name is adopted, a later player of the colour with another label is flagged. -/
theorem scanTeam_flags_other (t : bz_eTeamType) (ps : List MatchParticipant)
    (acc : String × Bool) (hn : acc.1 ≠ "")
    (hp : ∃ p ∈ ps, p.teamColor = t ∧ p.teamName ≠ acc.1) :
    (scanTeam t ps acc).2 = true := by
  induction ps generalizing acc with
  | nil =>
    obtain ⟨p, hmem, _⟩ := hp
    exact absurd hmem (List.not_mem_nil _)
  | cons q rest ih =>
    rw [scanTeam]
    obtain ⟨p, hmem, hc, hl⟩ := hp
    rcases List.mem_cons.mp hmem with hq | hrest
    · subst hq
      apply scanTeam_error_mono
      have : labelFlag t acc.1 p = true := by
        simp [labelFlag, hc, hn, Ne.symm hl]
      simp [this]
    · have hname : labelNext t acc.1 q = acc.1 := by
        simp [labelNext, hn]
      apply ih
      · show labelNext t acc.1 q ≠ ""
        rw [hname]; exact hn
      · exact ⟨p, hrest, hc, by show p.teamName ≠ labelNext t acc.1 q; rw [hname]; exact hl⟩

/-- Two players of one colour with two different non-empty labels get the colour flagged,
wherever they stand in the enumeration. -/
theorem scanTeam_conflict (t : bz_eTeamType) (ps : List MatchParticipant)
    (acc : String × Bool) (a b : MatchParticipant) (ha : a ∈ ps) (hb : b ∈ ps)
    (hat : a.teamColor = t) (hbt : b.teamColor = t)
    (hla : a.teamName ≠ "") (hlb : b.teamName ≠ "") (hab : a.teamName ≠ b.teamName) :
    (scanTeam t ps acc).2 = true := by
  induction ps generalizing acc with
  | nil => exact absurd ha (List.not_mem_nil _)
  | cons q rest ih =>
    by_cases hn : acc.1 = ""
    · by_cases hq : q.teamColor = t ∧ q.teamName ≠ ""
      · -- `q` sets the canonical name; one of `a`, `b` differs from it and comes later
        rw [scanTeam]
        have hname : labelNext t acc.1 q = q.teamName := by simp [labelNext, hq.1, hn]
        have hother : ∃ p ∈ rest, p.teamColor = t ∧ p.teamName ≠ q.teamName := by
          by_cases haq : a.teamName = q.teamName
          · have hbq : b.teamName ≠ q.teamName := fun hbq => hab (haq.trans hbq.symm)
            rcases List.mem_cons.mp hb with h0 | h0
            · exact absurd (by rw [h0]) hbq
            · exact ⟨b, h0, hbt, hbq⟩
          · rcases List.mem_cons.mp ha with h0 | h0
            · exact absurd (by rw [h0]) haq
            · exact ⟨a, h0, hat, haq⟩
        apply scanTeam_flags_other
        · show labelNext t acc.1 q ≠ ""
          rw [hname]; exact hq.2
        · obtain ⟨p, hp, hc, hl⟩ := hother
          exact ⟨p, hp, hc, by show p.teamName ≠ labelNext t acc.1 q; rw [hname]; exact hl⟩
      · -- `q` adopts nothing: both players come later
        rw [scanTeam]
        have ha2 : a ∈ rest := by
          rcases List.mem_cons.mp ha with h0 | h0
          · exact absurd ⟨h0 ▸ hat, h0 ▸ hla⟩ hq
          · exact h0
        have hb2 : b ∈ rest := by
          rcases List.mem_cons.mp hb with h0 | h0
          · exact absurd ⟨h0 ▸ hbt, h0 ▸ hlb⟩ hq
          · exact h0
        exact ih _ ha2 hb2
    · -- a name is adopted already: one of the two differs from it
      by_cases haq : a.teamName = acc.1
      · exact scanTeam_flags_other t _ acc hn
          ⟨b, hb, hbt, fun hbq => hab (haq.trans hbq.symm)⟩
      · exact scanTeam_flags_other t _ acc hn ⟨a, ha, hat, haq⟩

/-- The roll-call half of a tick: nothing unless the roll call is due. -/
theorem tickRollCall_eq (s : LeagueOverseer) (h : Host) (m : OfficialMatch)
    (hm : s.officialMatch = some m) :
    tickRollCall s h = if rollCallDue s h m then rollCallRun s h m else ⟨s, []⟩ := by
  simp only [tickRollCall, hm, rollCallRun]

/-- The clean-up half of a tick with a match object: the match is marked canceled exactly
when no tank is playing, and the game is ended if its clock is running. -/
theorem tickCleanup_official (s : LeagueOverseer) (h : Host) (m : OfficialMatch)
    (hm : s.officialMatch = some m) :
    tickCleanup s h =
      if h.teamCount eRedTeam + h.teamCount eGreenTeam + h.teamCount eBlueTeam +
          h.teamCount ePurpleTeam = 0 then
        ⟨{ s with officialMatch := some { m with
            canceled := true
            cancelationReason :=
              "Official match automatically canceled due to all players leaving the match." } },
         if h.countDownActive then [HostAction.gameOver 253 eObservers] else []⟩
      else ⟨s, []⟩ := by
  simp only [tickCleanup, hm]

/-- The clean-up half of a tick without a match object leaves the plugin as it is. -/
theorem tickCleanup_none (s : LeagueOverseer) (h : Host) (hm : s.officialMatch = none) :
    (tickCleanup s h).state = s := by
  simp only [tickCleanup, hm]
  split <;> rfl

/-- A tick with a match object: the clean-up keeps start time, duration and participants,
asks for no identity refresh, and is followed by the roll call if that is due. -/
theorem tick_official (s : LeagueOverseer) (h : Host) (m : OfficialMatch)
    (hm : s.officialMatch = some m) :
    ∃ mc : OfficialMatch,
      mc.startTime = m.startTime ∧ mc.duration = m.duration ∧
      mc.matchParticipants = m.matchParticipants ∧
      refreshRequests (tickCleanup s h).actions = [] ∧
      Event_bz_eTickEvent s h =
        if rollCallDue s h m then
          ⟨(rollCallRun { s with officialMatch := some mc } h mc).state,
           (tickCleanup s h).actions ++
             (rollCallRun { s with officialMatch := some mc } h mc).actions⟩
        else ⟨{ s with officialMatch := some mc }, (tickCleanup s h).actions⟩ := by
  obtain ⟨mc, hstate, hst, hdur, hpart, hreq⟩ := tickCleanup_keeps s h m hm
  refine ⟨mc, hst, hdur, hpart, hreq, ?_⟩
  have hdue : rollCallDue { s with officialMatch := some mc } h mc = rollCallDue s h m := by
    simp only [rollCallDue, hst, hpart]
  rw [Event_bz_eTickEvent, hstate, tickRollCall_eq _ h mc rfl, hdue]
  by_cases hd : rollCallDue s h m = true
  · simp [hd]
  · simp [hd]

/-- The state a due roll call leaves: the retry when it is invalid and time remains, the
commit of the sampled players otherwise. -/
theorem rollCallRun_state (s : LeagueOverseer) (h : Host) (m : OfficialMatch)
    (hp : m.matchParticipants = []) :
    ((rollCallLoop s h.players (RollCall.start m.matchParticipants)).invalidateRollcall = true ∧
        s.MATCH_ROLLCALL + 30 < m.duration →
      (rollCallRun s h m).state =
        { s with MATCH_ROLLCALL := s.MATCH_ROLLCALL + 60
                 officialMatch := some { m with matchParticipants := [] } }) ∧
    (¬ ((rollCallLoop s h.players (RollCall.start m.matchParticipants)).invalidateRollcall = true ∧
        s.MATCH_ROLLCALL + 30 < m.duration) →
      rollCallRun s h m =
        ⟨{ s with officialMatch := some { m with matchParticipants := sampled s h.players } },
         []⟩) := by
  refine ⟨fun hc => ?_, fun hc => ?_⟩
  · simp only [rollCallRun, hc, and_self, if_true]
  · have hl := rollCallLoop_participants s h.players (RollCall.start m.matchParticipants)
    simp only [rollCallRun, hc, if_false, hl]
    simp [RollCall.start, hp]

/-- Two non-observers of one designated colour with different non-empty labels make the
roll call invalid. -/
theorem rollCallLoop_conflict_invalid (s : LeagueOverseer) (ps : List bz_BasePlayerRecord)
    (recorded : List MatchParticipant) (team : bz_eTeamType)
    (hteam : team = s.TEAM_ONE ∨ team = s.TEAM_TWO) (a b : bz_BasePlayerRecord)
    (ha : a ∈ ps) (hb : b ∈ ps) (hao : a.team ≠ eObservers) (hbo : b.team ≠ eObservers)
    (hat : a.team = team) (hbt : b.team = team)
    (hla : mottoOf s.teamMottos a.bzID ≠ "") (hlb : mottoOf s.teamMottos b.bzID ≠ "")
    (hab : mottoOf s.teamMottos a.bzID ≠ mottoOf s.teamMottos b.bzID) :
    (rollCallLoop s ps (RollCall.start recorded)).invalidateRollcall = true := by
  have hma : participantOf s a ∈ sampled s ps :=
    List.mem_map.mpr ⟨a, List.mem_filter.mpr ⟨ha, by simp [hao]⟩, rfl⟩
  have hmb : participantOf s b ∈ sampled s ps :=
    List.mem_map.mpr ⟨b, List.mem_filter.mpr ⟨hb, by simp [hbo]⟩, rfl⟩
  have hinv := rollCallLoop_error_invalid s ps (RollCall.start recorded)
    (fun he => by simp [RollCall.start] at he) (fun he => by simp [RollCall.start] at he)
  rcases hteam with ht | ht
  · have hscan := rollCallLoop_scanOne s ps (RollCall.start recorded)
    have hflag := scanTeam_conflict s.TEAM_ONE (sampled s ps)
      ((RollCall.start recorded).teamOneMotto, (RollCall.start recorded).teamOneError)
      (participantOf s a) (participantOf s b) hma hmb (hat.trans ht) (hbt.trans ht) hla hlb hab
    rw [← hscan] at hflag
    exact hinv.1 hflag
  · have hscan := rollCallLoop_scanTwo s ps (RollCall.start recorded)
    have hflag := scanTeam_conflict s.TEAM_TWO (sampled s ps)
      ((RollCall.start recorded).teamTwoMotto, (RollCall.start recorded).teamTwoError)
      (participantOf s a) (participantOf s b) hma hmb (hat.trans ht) (hbt.trans ht) hla hlb hab
    rw [← hscan] at hflag
    exact hinv.2 hflag

/-- C11: on a tick whose roll call is due and meets, on one designated colour, two
non-observers with different non-empty labels, if the roll-call delay plus 30 is less than
the planned duration then the tick returns with `participants` empty and the delay exactly
60 larger; the next roll call is due exactly when the elapsed time exceeds the new delay. -/
theorem rollCall_conflict_defers (s : LeagueOverseer) (h : Host) (m : OfficialMatch)
    (hm : s.officialMatch = some m) (hdue : rollCallDue s h m = true)
    (team : bz_eTeamType) (hteam : team = s.TEAM_ONE ∨ team = s.TEAM_TWO)
    (a b : bz_BasePlayerRecord) (ha : a ∈ h.players) (hb : b ∈ h.players)
    (hao : a.team ≠ eObservers) (hbo : b.team ≠ eObservers)
    (hat : a.team = team) (hbt : b.team = team)
    (hla : mottoOf s.teamMottos a.bzID ≠ "") (hlb : mottoOf s.teamMottos b.bzID ≠ "")
    (hab : mottoOf s.teamMottos a.bzID ≠ mottoOf s.teamMottos b.bzID)
    (htime : s.MATCH_ROLLCALL + 30 < m.duration) :
    ∃ (r : Step) (m' : OfficialMatch),
      Event s h bz_EventData.bz_eTickEvent = EventResult.returned r ∧
      r.state.officialMatch = some m' ∧ m'.matchParticipants = [] ∧
      r.state.MATCH_ROLLCALL = s.MATCH_ROLLCALL + 60 ∧
      ∀ later : Host, rollCallDue r.state later m' = true ↔
        s.MATCH_ROLLCALL + 60 < later.currentTime - m'.startTime := by
  obtain ⟨mc, hst, hdur, hpart, _, htick⟩ := tick_official s h m hm
  have hempty : m.matchParticipants = [] := by
    simp only [rollCallDue, Bool.and_eq_true, List.isEmpty_iff] at hdue
    exact hdue.2
  have hstart : 0 ≤ m.startTime := by
    simp only [rollCallDue, Bool.and_eq_true, decide_eq_true_eq] at hdue
    exact hdue.1.1
  have hinv := rollCallLoop_conflict_invalid { s with officialMatch := some mc } h.players
    mc.matchParticipants team hteam a b ha hb hao hbo hat hbt hla hlb hab
  have hrun := (rollCallRun_state { s with officialMatch := some mc } h mc
    (hpart.trans hempty)).1 ⟨hinv, by rw [hdur]; exact htime⟩
  rw [hdue, if_pos rfl] at htick
  refine ⟨_, { mc with matchParticipants := [] }, congrArg EventResult.returned htick,
    ?_, rfl, ?_, ?_⟩
  · show (rollCallRun _ h mc).state.officialMatch = _
    rw [hrun]
  · show (rollCallRun _ h mc).state.MATCH_ROLLCALL = _
    rw [hrun]
  · intro later
    show rollCallDue (rollCallRun _ h mc).state later _ = true ↔ _
    rw [hrun]
    simp only [rollCallDue, Bool.and_eq_true, decide_eq_true_eq, List.isEmpty_nil, and_true,
      hst]
    constructor
    · intro hd; omega
    · intro hd; exact ⟨hstart, by omega⟩

/-- Witness for C11: 900 seconds into the sample match, the two red players carry the
labels Reds and Blues. -/
theorem rollCall_conflict_defers_witness :
    sampleConflict.officialMatch = some sampleMatch ∧
    rollCallDue sampleConflict sampleHost sampleMatch = true ∧
    sampleConflict.MATCH_ROLLCALL + 30 < sampleMatch.duration ∧
    ∃ (r : Step) (m' : OfficialMatch),
      Event sampleConflict sampleHost bz_EventData.bz_eTickEvent = EventResult.returned r ∧
      r.state.officialMatch = some m' ∧ m'.matchParticipants = [] ∧
      r.state.MATCH_ROLLCALL = 90 + 60 ∧
      ∀ later : Host, rollCallDue r.state later m' = true ↔
        90 + 60 < later.currentTime - m'.startTime :=
  ⟨rfl, by decide, by decide,
   rollCall_conflict_defers sampleConflict sampleHost sampleMatch rfl (by decide)
     eRedTeam (Or.inl rfl)
     ⟨1, "ann", "101", "10.0.0.1", eRedTeam, true, false⟩
     ⟨2, "bob", "102", "10.0.0.2", eRedTeam, true, false⟩
     (by decide) (by decide) (by decide) (by decide) rfl rfl
     (by decide) (by decide) (by decide) (by decide)⟩

/-- C12: on a tick whose roll call is due while the roll-call delay plus 30 is not less
than the planned duration, the sampled list (all non-observers in enumeration order, with
whatever labels and identities they have) is committed as `participants`, valid or not;
the delay is unchanged and no identity refresh is requested. -/
theorem rollCall_no_time_commits (s : LeagueOverseer) (h : Host) (m : OfficialMatch)
    (hm : s.officialMatch = some m) (hdue : rollCallDue s h m = true)
    (htime : ¬ (s.MATCH_ROLLCALL + 30 < m.duration)) :
    ∃ (r : Step) (m' : OfficialMatch),
      Event s h bz_EventData.bz_eTickEvent = EventResult.returned r ∧
      r.state.officialMatch = some m' ∧
      m'.matchParticipants = connectedParticipants s h ∧
      r.state.MATCH_ROLLCALL = s.MATCH_ROLLCALL ∧
      refreshRequests r.actions = [] := by
  obtain ⟨mc, hst, hdur, hpart, hreq, htick⟩ := tick_official s h m hm
  have hempty : m.matchParticipants = [] := by
    simp only [rollCallDue, Bool.and_eq_true, List.isEmpty_iff] at hdue
    exact hdue.2
  have hrun := (rollCallRun_state { s with officialMatch := some mc } h mc
    (hpart.trans hempty)).2 (fun hc => htime (by rw [← hdur]; exact hc.2))
  rw [hdue, if_pos rfl, hrun] at htick
  refine ⟨_, { mc with matchParticipants := connectedParticipants s h },
    congrArg EventResult.returned htick, rfl, rfl, rfl, ?_⟩
  show refreshRequests ((tickCleanup s h).actions ++ []) = []
  rw [List.append_nil]
  exact hreq

/-- Witness for C12: the roll call of the 100-second match finds Reds and Blues on red and
commits both. -/
theorem rollCall_no_time_commits_witness :
    sampleConflictShort.officialMatch = some { sampleMatch with duration := 100 } ∧
    rollCallDue sampleConflictShort sampleHost { sampleMatch with duration := 100 } = true ∧
    (rollCallLoop sampleConflictShort sampleHost.players
      (RollCall.start [])).invalidateRollcall = true ∧
    ∃ (r : Step) (m' : OfficialMatch),
      Event sampleConflictShort sampleHost bz_EventData.bz_eTickEvent =
        EventResult.returned r ∧
      r.state.officialMatch = some m' ∧
      m'.matchParticipants =
        [⟨"101", "ann", "10.0.0.1", "Reds", eRedTeam⟩,
         ⟨"102", "bob", "10.0.0.2", "Blues", eRedTeam⟩,
         ⟨"103", "cy", "10.0.0.3", "Greens", eGreenTeam⟩,
         ⟨"104", "dee", "10.0.0.4", "Greens", eGreenTeam⟩] ∧
      r.state.MATCH_ROLLCALL = 90 ∧ refreshRequests r.actions = [] :=
  ⟨rfl, by decide, by decide,
   rollCall_no_time_commits sampleConflictShort sampleHost { sampleMatch with duration := 100 }
     rfl (by decide) (by decide)⟩

/-- The gate of the roll call, read off the code: the start time is set, the elapsed time
is strictly greater than the delay, and no participant is recorded. -/
theorem rollCallDue_iff (s : LeagueOverseer) (h : Host) (m : OfficialMatch) :
    rollCallDue s h m = true ↔
      0 ≤ m.startTime ∧ s.MATCH_ROLLCALL < h.currentTime - m.startTime ∧
      m.matchParticipants = [] := by
  simp only [rollCallDue, Bool.and_eq_true, decide_eq_true_eq, List.isEmpty_iff]
  constructor
  · rintro ⟨⟨h1, h2⟩, h3⟩
    exact ⟨h1, by omega, h3⟩
  · rintro ⟨h1, h2, h3⟩
    exact ⟨⟨h1, by omega⟩, h3⟩

/-- A due roll call changes nothing of the match but its participants. -/
theorem rollCallRun_match (s : LeagueOverseer) (h : Host) (m : OfficialMatch) :
    ∃ parts, (rollCallRun s h m).state.officialMatch =
      some { m with matchParticipants := parts } := by
  unfold rollCallRun
  simp only
  split
  · exact ⟨[], rfl⟩
  · exact ⟨_, rfl⟩

/-- C13 (amended): a tick samples the players, and then either commits them or defers by
60 seconds, when an official match exists, its start time is set, the elapsed time is
strictly greater than the roll-call delay and `participants` is empty; in every other
state the tick leaves `participants` and the roll-call delay unchanged and requests no
identity refresh. -/
theorem rollCall_gate_strict (s : LeagueOverseer) (h : Host) :
    (∀ m, s.officialMatch = some m → 0 ≤ m.startTime →
      s.MATCH_ROLLCALL < h.currentTime - m.startTime → m.matchParticipants = [] →
      ∃ (r : Step) (m' : OfficialMatch),
        Event s h bz_EventData.bz_eTickEvent = EventResult.returned r ∧
        r.state.officialMatch = some m' ∧
        ((m'.matchParticipants = connectedParticipants s h ∧
            r.state.MATCH_ROLLCALL = s.MATCH_ROLLCALL) ∨
         (m'.matchParticipants = [] ∧
            r.state.MATCH_ROLLCALL = s.MATCH_ROLLCALL + 60))) ∧
    ((¬ ∃ m, s.officialMatch = some m ∧ 0 ≤ m.startTime ∧
        s.MATCH_ROLLCALL < h.currentTime - m.startTime ∧ m.matchParticipants = []) →
      ∃ r : Step,
        Event s h bz_EventData.bz_eTickEvent = EventResult.returned r ∧
        r.state.MATCH_ROLLCALL = s.MATCH_ROLLCALL ∧
        r.state.officialMatch.map (fun m => m.matchParticipants) =
          s.officialMatch.map (fun m => m.matchParticipants) ∧
        refreshRequests r.actions = []) := by
  refine ⟨fun m hm h1 h2 h3 => ?_, fun hno => ?_⟩
  · have hdue : rollCallDue s h m = true := (rollCallDue_iff s h m).mpr ⟨h1, h2, h3⟩
    obtain ⟨mc, hst, hdur, hpart, _, htick⟩ := tick_official s h m hm
    rw [hdue, if_pos rfl] at htick
    have hrun := rollCallRun_state { s with officialMatch := some mc } h mc (hpart.trans h3)
    by_cases hc : (rollCallLoop { s with officialMatch := some mc } h.players
        (RollCall.start mc.matchParticipants)).invalidateRollcall = true ∧
        s.MATCH_ROLLCALL + 30 < mc.duration
    · have hs := hrun.1 hc
      refine ⟨_, { mc with matchParticipants := [] }, congrArg EventResult.returned htick,
        ?_, Or.inr ⟨rfl, ?_⟩⟩
      · show (rollCallRun _ h mc).state.officialMatch = _
        rw [hs]
      · show (rollCallRun _ h mc).state.MATCH_ROLLCALL = _
        rw [hs]
    · have hs := hrun.2 hc
      rw [hs] at htick
      exact ⟨_, { mc with matchParticipants := connectedParticipants s h },
        congrArg EventResult.returned htick, rfl, Or.inl ⟨rfl, rfl⟩⟩
  · cases hm : s.officialMatch with
    | none =>
      refine ⟨_, rfl, ?_, ?_, ?_⟩
      · show (tickRollCall (tickCleanup s h).state h).state.MATCH_ROLLCALL = _
        rw [tickCleanup_none s h hm]
        simp [tickRollCall, hm]
      · show (tickRollCall (tickCleanup s h).state h).state.officialMatch.map _ = _
        rw [tickCleanup_none s h hm]
        simp [tickRollCall, hm]
      · show refreshRequests ((tickCleanup s h).actions ++
          (tickRollCall (tickCleanup s h).state h).actions) = []
        rw [tickCleanup_none s h hm]
        simp only [tickCleanup, tickRollCall, hm]
        split
        · split <;> rfl
        · rfl
    | some m =>
      have hdue : ¬ rollCallDue s h m = true := fun hd =>
        hno ⟨m, hm, (rollCallDue_iff s h m).mp hd⟩
      obtain ⟨mc, _, _, hpart, hreq, htick⟩ := tick_official s h m hm
      rw [if_neg hdue] at htick
      refine ⟨_, congrArg EventResult.returned htick, rfl, ?_, hreq⟩
      simp [hpart]

/-- Witness for C13: the first part at the sample match 900 seconds in, the second part
when no match object exists. -/
theorem rollCall_gate_strict_witness :
    (samplePlaying.officialMatch = some sampleMatch ∧ 0 ≤ sampleMatch.startTime ∧
      samplePlaying.MATCH_ROLLCALL < sampleHost.currentTime - sampleMatch.startTime ∧
      sampleMatch.matchParticipants = [] ∧
      ∃ (r : Step) (m' : OfficialMatch),
        Event samplePlaying sampleHost bz_EventData.bz_eTickEvent = EventResult.returned r ∧
        r.state.officialMatch = some m' ∧
        ((m'.matchParticipants = connectedParticipants samplePlaying sampleHost ∧
            r.state.MATCH_ROLLCALL = samplePlaying.MATCH_ROLLCALL) ∨
         (m'.matchParticipants = [] ∧
            r.state.MATCH_ROLLCALL = samplePlaying.MATCH_ROLLCALL + 60))) ∧
    ((¬ ∃ m, sampleIdle.officialMatch = some m ∧ 0 ≤ m.startTime ∧
        sampleIdle.MATCH_ROLLCALL < sampleHost.currentTime - m.startTime ∧
        m.matchParticipants = []) ∧
      ∃ r : Step,
        Event sampleIdle sampleHost bz_EventData.bz_eTickEvent = EventResult.returned r ∧
        r.state.MATCH_ROLLCALL = sampleIdle.MATCH_ROLLCALL) :=
  ⟨⟨rfl, by decide, by decide, rfl,
    (rollCall_gate_strict samplePlaying sampleHost).1 sampleMatch rfl (by decide) (by decide)
      rfl⟩,
   ⟨fun ⟨_, hm, _⟩ => Option.noConfusion hm,
    let ⟨r, h1, h2, _⟩ := (rollCall_gate_strict sampleIdle sampleHost).2
      (fun ⟨_, hm, _⟩ => Option.noConfusion hm)
    ⟨r, h1, h2⟩⟩⟩

/-- C13, counterexample: exactly 90 seconds into an official match with the delay at 90
and four players connected, the tick samples nobody; the plugin is left as it was. -/
theorem rollCall_gate_boundary :
    (∃ m, sampleBoundary.officialMatch = some m ∧ 0 ≤ m.startTime ∧
      sampleHost.currentTime - m.startTime ≥ sampleBoundary.MATCH_ROLLCALL ∧
      sampleHost.currentTime - m.startTime = sampleBoundary.MATCH_ROLLCALL ∧
      m.matchParticipants = []) ∧
    connectedParticipants sampleBoundary sampleHost ≠ [] ∧
    Event sampleBoundary sampleHost bz_EventData.bz_eTickEvent =
      EventResult.returned ⟨sampleBoundary, []⟩ := by
  refine ⟨⟨_, rfl, by decide, by decide, by decide, rfl⟩, by decide, by decide⟩

/-! ## Ending a match by command -/

/-- For a verified caller who may spawn, `SlashCommand` is the branch of the command. -/
theorem SlashCommand_permitted (s : LeagueOverseer) (h : Host)
    (playerData : bz_BasePlayerRecord) (params : List String)
    (hv : playerData.verified = true) (hp : h.hasPerm playerData.playerID "spawn" = true) :
    SlashCommand s h playerData "cancel" params = some (SlashCommand_cancel s h playerData, true) ∧
    SlashCommand s h playerData "finish" params = some (SlashCommand_finish s h playerData, true) ∧
    SlashCommand s h playerData "fm" params =
      some (SlashCommand_fm s h playerData params, true) ∧
    SlashCommand s h playerData "official" params =
      some (SlashCommand_official s h playerData params, true) ∧
    SlashCommand s h playerData "pause" params = some (SlashCommand_pause s h playerData, true) ∧
    SlashCommand s h playerData "resume" params =
      some (SlashCommand_resume s h playerData, true) ∧
    SlashCommand s h playerData "spawn" params =
      some (SlashCommand_spawn s h playerData params, true) := by
  have key : ∀ c : String, SlashCommand s h playerData c params =
      if c = "cancel" then some (SlashCommand_cancel s h playerData, true)
      else if c = "finish" then some (SlashCommand_finish s h playerData, true)
      else if c = "fm" then some (SlashCommand_fm s h playerData params, true)
      else if c = "official" then some (SlashCommand_official s h playerData params, true)
      else if c = "pause" then some (SlashCommand_pause s h playerData, true)
      else if c = "resume" then some (SlashCommand_resume s h playerData, true)
      else if c = "spawn" then some (SlashCommand_spawn s h playerData params, true)
      else none := by
    intro c
    simp [SlashCommand, hv, hp]
  refine ⟨?_, ?_, ?_, ?_, ?_, ?_, ?_⟩ <;> (rw [key]; simp)

/-- The `/finish` command for a permitted caller who is no observer, once the game clock
runs and no countdown is in progress: an official match whose start time is set is ended
when strictly more than half of its duration has elapsed and is refused, with the state
unchanged and the advice to use `/cancel`, otherwise; without a match object the command
is refused. -/
theorem finish_gate (s : LeagueOverseer) (h : Host) (playerData : bz_BasePlayerRecord)
    (params : List String)
    (hv : playerData.verified = true) (hp : h.hasPerm playerData.playerID "spawn" = true)
    (ho : playerData.team ≠ eObservers) (hprog : h.countDownInProgress = false)
    (hact : h.countDownActive = true) :
    (∀ m, s.officialMatch = some m → 0 ≤ m.startTime →
      2 * m.startTime + m.duration < 2 * h.currentTime →
      SlashCommand s h playerData "finish" params =
        some (⟨s, [HostAction.sendTextMessage MessageTarget.allUsers
                     ("Official match ended early by " ++ playerData.callsign),
                   HostAction.gameOver 253 eObservers]⟩, true)) ∧
    (∀ m, s.officialMatch = some m →
      ¬ (0 ≤ m.startTime ∧ 2 * m.startTime + m.duration < 2 * h.currentTime) →
      SlashCommand s h playerData "finish" params =
        some (⟨s, [HostAction.sendTextMessage (MessageTarget.player playerData.playerID)
                     "Sorry, I cannot automatically report a match less than half way through.",
                   HostAction.sendTextMessage (MessageTarget.player playerData.playerID)
                     "Please use the /cancel command and message a referee for review of this match."]⟩,
              true)) ∧
    (s.officialMatch = none →
      SlashCommand s h playerData "finish" params =
        some (⟨s, [HostAction.sendTextMessage (MessageTarget.player playerData.playerID)
                     "You cannot /finish a fun match. Use /cancel instead."]⟩, true)) := by
  rw [(SlashCommand_permitted s h playerData params hv hp).2.1]
  refine ⟨fun m hm h1 h2 => ?_, fun m hm hn => ?_, fun hm => ?_⟩
  · simp [SlashCommand_finish, ho, hprog, hact, hm, h1, h2]
  · have hn2 : ¬ (m.startTime ≥ 0 ∧ 2 * m.startTime + m.duration < 2 * h.currentTime) := hn
    simp only [SlashCommand_finish, ho, hprog, hact, hm, hn2, if_false, if_true,
      Bool.false_eq_true]
  · simp [SlashCommand_finish, ho, hprog, hact, hm]

/-- C14, at the failing input: the caller is verified, may spawn and plays red, the game
clock runs, the official match started at second 100 is planned for 1800 seconds and the
clock reads 1000, so that exactly half has elapsed; `/finish` is refused with the advice to
use `/cancel` and no game-over is invoked. -/
theorem finish_at_half_refused :
    sampleCaller.verified = true ∧
    sampleRunningHost.hasPerm sampleCaller.playerID "spawn" = true ∧
    sampleCaller.team ≠ eObservers ∧ sampleRunningHost.countDownActive = true ∧
    samplePlaying.officialMatch = some sampleMatch ∧ 0 ≤ sampleMatch.startTime ∧
    2 * (sampleRunningHost.currentTime - sampleMatch.startTime) = sampleMatch.duration ∧
    SlashCommand samplePlaying sampleRunningHost sampleCaller "finish" [] =
      some (⟨samplePlaying,
        [HostAction.sendTextMessage (MessageTarget.player 1)
           "Sorry, I cannot automatically report a match less than half way through.",
         HostAction.sendTextMessage (MessageTarget.player 1)
           "Please use the /cancel command and message a referee for review of this match."]⟩,
        true) := by
  refine ⟨rfl, by decide, by decide, rfl, rfl, by decide, by decide, ?_⟩
  exact (finish_gate samplePlaying sampleRunningHost sampleCaller [] rfl (by decide)
    (by decide) rfl rfl).2.1 sampleMatch rfl (by decide)

/-- The `/finish` branch never changes the plugin state. -/
theorem SlashCommand_finish_state (s : LeagueOverseer) (h : Host)
    (playerData : bz_BasePlayerRecord) : (SlashCommand_finish s h playerData).state = s := by
  unfold SlashCommand_finish
  simp only
  split
  · rfl
  · split
    · rfl
    · split
      · split
        · split <;> rfl
        · rfl
      · rfl

/-- C16: for a verified caller who may spawn, `/cancel` is refused with one direct message,
the state unchanged and no game-over when the caller is an observer, when the pre-game
countdown is in progress, or when no game is active; otherwise (game clock active) an
official match is marked canceled with the reason naming the caller and the game-over is
invoked, and without a match object the game-over is invoked and no match object appears. -/
theorem cancel_command (s : LeagueOverseer) (h : Host) (playerData : bz_BasePlayerRecord)
    (params : List String)
    (hv : playerData.verified = true) (hp : h.hasPerm playerData.playerID "spawn" = true) :
    ((playerData.team = eObservers ∨ h.countDownInProgress = true ∨
        h.countDownActive = false) →
      ∃ msg, SlashCommand s h playerData "cancel" params =
        some (⟨s, [HostAction.sendTextMessage (MessageTarget.player playerData.playerID)
          msg]⟩, true)) ∧
    (playerData.team ≠ eObservers → h.countDownInProgress = false →
      h.countDownActive = true →
      (∀ m, s.officialMatch = some m →
        SlashCommand s h playerData "cancel" params =
          some (⟨{ s with officialMatch := some { m with
                    canceled := true
                    cancelationReason :=
                      "Official match cancellation requested by " ++ playerData.callsign } },
                 [HostAction.gameOver 253 eObservers]⟩, true)) ∧
      (s.officialMatch = none →
        SlashCommand s h playerData "cancel" params =
          some (⟨s, [HostAction.sendTextMessage MessageTarget.allUsers
                       ("Fun match ended by " ++ playerData.callsign),
                     HostAction.gameOver 253 eObservers]⟩, true))) := by
  rw [(SlashCommand_permitted s h playerData params hv hp).1]
  refine ⟨fun hrej => ?_, fun ho hprog hact => ⟨fun m hm => ?_, fun hm => ?_⟩⟩
  · by_cases ho : playerData.team = eObservers
    · exact ⟨"Observers are not allowed to cancel matches.",
        by simp [SlashCommand_cancel, ho]⟩
    · by_cases hprog : h.countDownInProgress = true
      · exact ⟨"You may only cancel a match after it has started.",
          by simp [SlashCommand_cancel, ho, hprog]⟩
      · have hact : h.countDownActive = false := by
          rcases hrej with h1 | h1 | h1
          · exact absurd h1 ho
          · exact absurd h1 hprog
          · exact h1
        exact ⟨"There is no match in progress to cancel.",
          by simp [SlashCommand_cancel, ho, hprog, hact]⟩
  · simp [SlashCommand_cancel, ho, hprog, hact, hm]
  · simp [SlashCommand_cancel, ho, hprog, hact, hm]

/-- Witness for C16: the sample caller cancels the running sample match. -/
theorem cancel_command_witness :
    sampleCaller.verified = true ∧
    sampleRunningHost.hasPerm sampleCaller.playerID "spawn" = true ∧
    sampleCaller.team ≠ eObservers ∧ sampleRunningHost.countDownInProgress = false ∧
    sampleRunningHost.countDownActive = true ∧
    samplePlaying.officialMatch = some sampleMatch ∧
    SlashCommand samplePlaying sampleRunningHost sampleCaller "cancel" [] =
      some (⟨{ samplePlaying with officialMatch := some { sampleMatch with
                canceled := true
                cancelationReason := "Official match cancellation requested by ann" } },
             [HostAction.gameOver 253 eObservers]⟩, true) :=
  ⟨rfl, by decide, by decide, rfl, rfl, rfl,
   ((cancel_command samplePlaying sampleRunningHost sampleCaller [] rfl (by decide)).2
      (by decide) rfl rfl).1 sampleMatch rfl⟩

/-- C17: on a tick with an official match, when no tank is playing on red, green, blue or
purple the tick returns with the match marked canceled and the fixed reason, and the
game-over is invoked if the game clock is active; when some tank is playing the flag and
the reason are as before. -/
theorem tick_auto_cancel (s : LeagueOverseer) (h : Host) (m : OfficialMatch)
    (hm : s.officialMatch = some m) :
    (h.teamCount eRedTeam + h.teamCount eGreenTeam + h.teamCount eBlueTeam +
        h.teamCount ePurpleTeam = 0 →
      ∃ (r : Step) (m' : OfficialMatch),
        Event s h bz_EventData.bz_eTickEvent = EventResult.returned r ∧
        r.state.officialMatch = some m' ∧ m'.canceled = true ∧
        m'.cancelationReason =
          "Official match automatically canceled due to all players leaving the match." ∧
        (h.countDownActive = true → HostAction.gameOver 253 eObservers ∈ r.actions)) ∧
    (h.teamCount eRedTeam + h.teamCount eGreenTeam + h.teamCount eBlueTeam +
        h.teamCount ePurpleTeam ≠ 0 →
      ∃ (r : Step) (m' : OfficialMatch),
        Event s h bz_EventData.bz_eTickEvent = EventResult.returned r ∧
        r.state.officialMatch = some m' ∧ m'.canceled = m.canceled ∧
        m'.cancelationReason = m.cancelationReason ∧
        HostAction.gameOver 253 eObservers ∉ r.actions) := by
  have hclean := tickCleanup_official s h m hm
  refine ⟨fun hz => ?_, fun hnz => ?_⟩
  · rw [if_pos hz] at hclean
    generalize hmc : ({ m with
        canceled := true
        cancelationReason :=
          "Official match automatically canceled due to all players leaving the match." } :
        OfficialMatch) = mc at hclean
    have hc1 : mc.canceled = true := by rw [← hmc]
    have hc2 : mc.cancelationReason =
        "Official match automatically canceled due to all players leaving the match." := by
      rw [← hmc]
    have hover : h.countDownActive = true → HostAction.gameOver 253 eObservers ∈
        (tickCleanup s h).actions ++ (tickRollCall (tickCleanup s h).state h).actions := by
      intro hact
      rw [hclean]
      simp [hact]
    by_cases hd : rollCallDue { s with officialMatch := some mc } h mc = true
    · obtain ⟨parts, hparts⟩ := rollCallRun_match { s with officialMatch := some mc } h mc
      refine ⟨_, { mc with matchParticipants := parts }, rfl, ?_, hc1, hc2, hover⟩
      show (tickRollCall (tickCleanup s h).state h).state.officialMatch = _
      rw [hclean, tickRollCall_eq _ h _ rfl, if_pos hd]
      exact hparts
    · refine ⟨_, mc, rfl, ?_, hc1, hc2, hover⟩
      show (tickRollCall (tickCleanup s h).state h).state.officialMatch = _
      rw [hclean, tickRollCall_eq _ h _ rfl, if_neg hd]
  · rw [if_neg hnz] at hclean
    have hno : ∀ (x : LeagueOverseer) (t : bz_eTeamType),
        HostAction.gameOver 253 eObservers ∉ requestTeamNameOfTeam x h t := by
      intro x t hmem
      simp [requestTeamNameOfTeam, requestTeamName] at hmem
    by_cases hd : rollCallDue s h m = true
    · obtain ⟨parts, hparts⟩ := rollCallRun_match s h m
      refine ⟨_, { m with matchParticipants := parts }, rfl, ?_, rfl, rfl, ?_⟩
      · show (tickRollCall (tickCleanup s h).state h).state.officialMatch = _
        rw [hclean, tickRollCall_eq _ h _ hm, if_pos hd]
        exact hparts
      · show _ ∉ (tickCleanup s h).actions ++ (tickRollCall (tickCleanup s h).state h).actions
        rw [hclean, tickRollCall_eq _ h _ hm, if_pos hd]
        simp only [List.nil_append, rollCallRun]
        split
        · intro hmem
          rcases List.mem_append.mp hmem with h1 | h1
          · split at h1
            · exact hno _ _ h1
            · exact absurd h1 (List.not_mem_nil _)
          · split at h1
            · exact hno _ _ h1
            · exact absurd h1 (List.not_mem_nil _)
        · exact List.not_mem_nil _
    · refine ⟨_, m, rfl, ?_, rfl, rfl, ?_⟩
      · show (tickRollCall (tickCleanup s h).state h).state.officialMatch = _
        rw [hclean, tickRollCall_eq _ h _ hm, if_neg hd]
        exact hm
      · show _ ∉ (tickCleanup s h).actions ++ (tickRollCall (tickCleanup s h).state h).actions
        rw [hclean, tickRollCall_eq _ h _ hm, if_neg hd]
        simp

/-- Witness for C17: everybody has left the running sample match. -/
theorem tick_auto_cancel_witness :
    samplePlaying.officialMatch = some sampleMatch ∧
    sampleDesertedHost.teamCount eRedTeam + sampleDesertedHost.teamCount eGreenTeam +
      sampleDesertedHost.teamCount eBlueTeam + sampleDesertedHost.teamCount ePurpleTeam = 0 ∧
    sampleDesertedHost.countDownActive = true ∧
    ∃ (r : Step) (m' : OfficialMatch),
      Event samplePlaying sampleDesertedHost bz_EventData.bz_eTickEvent =
        EventResult.returned r ∧
      r.state.officialMatch = some m' ∧ m'.canceled = true ∧
      m'.cancelationReason =
        "Official match automatically canceled due to all players leaving the match." ∧
      (sampleDesertedHost.countDownActive = true →
        HostAction.gameOver 253 eObservers ∈ r.actions) :=
  ⟨rfl, by decide, rfl,
   (tick_auto_cancel samplePlaying sampleDesertedHost sampleMatch rfl).1 (by decide)⟩

/-! ## What commands and events can change -/

/-- Replacing the match object by itself changes nothing. -/
theorem with_officialMatch_self (s : LeagueOverseer) :
    ({ s with officialMatch := s.officialMatch } : LeagueOverseer) = s := rfl

/-- The `/cancel` branch leaves the plugin as it is or marks the official match canceled. -/
theorem SlashCommand_cancel_state (s : LeagueOverseer) (h : Host)
    (playerData : bz_BasePlayerRecord) :
    (SlashCommand_cancel s h playerData).state = s ∨
    ∃ m, s.officialMatch = some m ∧
      (SlashCommand_cancel s h playerData).state =
        { s with officialMatch := some { m with
            canceled := true
            cancelationReason :=
              "Official match cancellation requested by " ++ playerData.callsign } } := by
  unfold SlashCommand_cancel
  simp only
  split
  · exact Or.inl rfl
  · split
    · exact Or.inl rfl
    · split
      · cases hm : s.officialMatch with
        | none => exact Or.inl rfl
        | some m => exact Or.inr ⟨m, rfl, rfl⟩
      · exact Or.inl rfl

/-- The `/fm` branch never changes the plugin state: where it assigns the null pointer to
`officialMatch`, that pointer is null already. -/
theorem SlashCommand_fm_state (s : LeagueOverseer) (h : Host)
    (playerData : bz_BasePlayerRecord) (params : List String) :
    (SlashCommand_fm s h playerData params).state = s := by
  unfold SlashCommand_fm
  simp only
  split
  · rfl
  · split
    · rfl
    · rename_i hlive
      have hnone : s.officialMatch = none := by
        cases hm : s.officialMatch with
        | none => rfl
        | some m => simp [hm] at hlive
      show ({ s with officialMatch := none } : LeagueOverseer) = s
      rw [← hnone]

/-- The `/official` branch leaves the plugin as it is, or installs a fresh match where no
match object existed and no countdown was active or in progress. -/
theorem SlashCommand_official_state (s : LeagueOverseer) (h : Host)
    (playerData : bz_BasePlayerRecord) (params : List String) :
    (SlashCommand_official s h playerData params).state = s ∨
    (s.officialMatch = none ∧ h.countDownActive = false ∧ h.countDownInProgress = false ∧
      (SlashCommand_official s h playerData params).state =
        { s with officialMatch := some OfficialMatch.new }) := by
  unfold SlashCommand_official
  simp only
  split
  · exact Or.inl rfl
  · split
    · exact Or.inl rfl
    · split
      · exact Or.inl rfl
      · rename_i hlive
        simp only [Bool.or_eq_true, not_or, Bool.not_eq_true] at hlive
        refine Or.inr ⟨?_, hlive.1.2, hlive.2, rfl⟩
        cases hm : s.officialMatch with
        | none => rfl
        | some m => simp [hm] at hlive

/-- The `/pause` branch never changes the plugin state. -/
theorem SlashCommand_pause_state (s : LeagueOverseer) (h : Host)
    (playerData : bz_BasePlayerRecord) : (SlashCommand_pause s h playerData).state = s := by
  unfold SlashCommand_pause
  simp only
  split
  · rfl
  · split <;> rfl

/-- The `/resume` branch never changes the plugin state. -/
theorem SlashCommand_resume_state (s : LeagueOverseer) (h : Host)
    (playerData : bz_BasePlayerRecord) : (SlashCommand_resume s h playerData).state = s := by
  unfold SlashCommand_resume
  simp only
  split
  · rfl
  · split <;> rfl

/-- The `/spawn` branch never changes the plugin state. -/
theorem SlashCommand_spawn_state (s : LeagueOverseer) (h : Host)
    (playerData : bz_BasePlayerRecord) (params : List String) :
    (SlashCommand_spawn s h playerData params).state = s := by
  unfold SlashCommand_spawn
  simp only
  split
  · split
    · split
      · rfl
      · split <;> rfl
    · rfl
  · split <;> rfl

/-- What any slash command can do to the plugin state: nothing, mark the official match
canceled (`/cancel`), or install a fresh match where none existed and no countdown was
active or in progress (`/official`). -/
theorem SlashCommand_effect (s : LeagueOverseer) (h : Host) (playerData : bz_BasePlayerRecord)
    (command : String) (params : List String) (r : Step) (handled : Bool)
    (hres : SlashCommand s h playerData command params = some (r, handled)) :
    handled = true ∧
    (r.state = s ∨
     (∃ m, s.officialMatch = some m ∧ command = "cancel" ∧
        r.state = { s with officialMatch := some { m with
          canceled := true
          cancelationReason :=
            "Official match cancellation requested by " ++ playerData.callsign } }) ∨
     (s.officialMatch = none ∧ command = "official" ∧ h.countDownActive = false ∧
        h.countDownInProgress = false ∧
        r.state = { s with officialMatch := some OfficialMatch.new })) := by
  unfold SlashCommand at hres
  split at hres
  · obtain ⟨hr, hb⟩ := Prod.mk.inj (Option.some.inj hres)
    subst hr
    subst hb
    exact ⟨rfl, Or.inl rfl⟩
  · split at hres
    · rename_i hc
      obtain ⟨hr, hb⟩ := Prod.mk.inj (Option.some.inj hres)
      subst hr
      subst hb
      refine ⟨rfl, ?_⟩
      rcases SlashCommand_cancel_state s h playerData with h1 | ⟨m, hm, h1⟩
      · exact Or.inl h1
      · exact Or.inr (Or.inl ⟨m, hm, hc, h1⟩)
    · split at hres
      · obtain ⟨hr, hb⟩ := Prod.mk.inj (Option.some.inj hres)
        subst hr
        subst hb
        exact ⟨rfl, Or.inl (SlashCommand_finish_state s h playerData)⟩
      · split at hres
        · obtain ⟨hr, hb⟩ := Prod.mk.inj (Option.some.inj hres)
          subst hr
          subst hb
          exact ⟨rfl, Or.inl (SlashCommand_fm_state s h playerData params)⟩
        · split at hres
          · rename_i hc
            obtain ⟨hr, hb⟩ := Prod.mk.inj (Option.some.inj hres)
            subst hr
            subst hb
            refine ⟨rfl, ?_⟩
            rcases SlashCommand_official_state s h playerData params with h1 | ⟨hm, ha, hp, h1⟩
            · exact Or.inl h1
            · exact Or.inr (Or.inr ⟨hm, hc, ha, hp, h1⟩)
          · split at hres
            · obtain ⟨hr, hb⟩ := Prod.mk.inj (Option.some.inj hres)
              subst hr
              subst hb
              exact ⟨rfl, Or.inl (SlashCommand_pause_state s h playerData)⟩
            · split at hres
              · obtain ⟨hr, hb⟩ := Prod.mk.inj (Option.some.inj hres)
                subst hr
                subst hb
                exact ⟨rfl, Or.inl (SlashCommand_resume_state s h playerData)⟩
              · split at hres
                · obtain ⟨hr, hb⟩ := Prod.mk.inj (Option.some.inj hres)
                  subst hr
                  subst hb
                  exact ⟨rfl, Or.inl (SlashCommand_spawn_state s h playerData params)⟩
                · exact Option.noConfusion hres


/-- A caller who is not verified or may not spawn is answered with one direct message. -/
theorem SlashCommand_denied (s : LeagueOverseer) (h : Host)
    (playerData : bz_BasePlayerRecord) (command : String) (params : List String)
    (hden : playerData.verified = false ∨ h.hasPerm playerData.playerID "spawn" = false) :
    SlashCommand s h playerData command params =
      some (⟨s, [HostAction.sendTextMessage (MessageTarget.player playerData.playerID)
        ("You do not have permission to run the /" ++ command ++ " command.")]⟩, true) := by
  have hcond : (!playerData.verified || !h.hasPerm playerData.playerID "spawn") = true := by
    rcases hden with hd | hd <;> simp [hd]
  simp only [SlashCommand, hcond, if_true]

/-- A caller is either permitted (verified and allowed to spawn) or denied. -/
theorem permitted_or_denied (h : Host) (playerData : bz_BasePlayerRecord) :
    (playerData.verified = true ∧ h.hasPerm playerData.playerID "spawn" = true) ∨
    (playerData.verified = false ∨ h.hasPerm playerData.playerID "spawn" = false) := by
  cases playerData.verified <;> cases h.hasPerm playerData.playerID "spawn" <;> simp


/-- C18: whatever the command and its arguments, a caller who is not verified or may not
spawn gets `handled = true`, the plugin state (match and roll-call delay included)
unchanged, and one direct message as the only host action. -/
theorem command_requires_spawn (s : LeagueOverseer) (h : Host)
    (playerData : bz_BasePlayerRecord) (command : String) (params : List String)
    (hden : playerData.verified = false ∨ h.hasPerm playerData.playerID "spawn" = false) :
    SlashCommand s h playerData command params =
      some (⟨s, [HostAction.sendTextMessage (MessageTarget.player playerData.playerID)
        ("You do not have permission to run the /" ++ command ++ " command.")]⟩, true) := by
  exact SlashCommand_denied s h playerData command params hden

/-- Witness for C18: player 2 of the sample host may not spawn and asks for `/official`
while no match exists and the teams are 2 v 2. -/
theorem command_requires_spawn_witness :
    (sampleGuest.verified = false ∨
      sampleHost.hasPerm sampleGuest.playerID "spawn" = false) ∧
    SlashCommand sampleIdle sampleHost sampleGuest "official" ["20"] =
      some (⟨sampleIdle, [HostAction.sendTextMessage (MessageTarget.player 2)
        "You do not have permission to run the /official command."]⟩, true) :=
  ⟨Or.inr (by decide),
   command_requires_spawn sampleIdle sampleHost sampleGuest "official" ["20"]
     (Or.inr (by decide))⟩

/-- While a match object exists or a countdown is active or in progress, the `/official`
branch answers with one direct message and changes nothing. -/
theorem SlashCommand_official_live (s : LeagueOverseer) (h : Host)
    (playerData : bz_BasePlayerRecord) (params : List String)
    (hlive : s.officialMatch ≠ none ∨ h.countDownInProgress = true ∨
      h.countDownActive = true) :
    ∃ msg, SlashCommand_official s h playerData params =
      ⟨s, [HostAction.sendTextMessage (MessageTarget.player playerData.playerID) msg]⟩ := by
  have hl : (s.officialMatch.isSome || h.countDownActive || h.countDownInProgress) = true := by
    rcases hlive with h1 | h1 | h1
    · cases hm : s.officialMatch with
      | none => exact absurd hm h1
      | some m => simp
    · simp [h1]
    · simp [h1]
  unfold SlashCommand_official
  simp only
  split
  · exact ⟨_, rfl⟩
  · split
    · exact ⟨_, rfl⟩
    · exact ⟨_, rfl⟩

/-- While a match object exists or a countdown is active or in progress, the `/fm` branch
answers with one direct message and changes nothing. -/
theorem SlashCommand_fm_live (s : LeagueOverseer) (h : Host)
    (playerData : bz_BasePlayerRecord) (params : List String)
    (hlive : s.officialMatch ≠ none ∨ h.countDownInProgress = true ∨
      h.countDownActive = true) :
    ∃ msg, SlashCommand_fm s h playerData params =
      ⟨s, [HostAction.sendTextMessage (MessageTarget.player playerData.playerID) msg]⟩ := by
  have hl : (s.officialMatch.isSome || h.countDownActive || h.countDownInProgress) = true := by
    rcases hlive with h1 | h1 | h1
    · cases hm : s.officialMatch with
      | none => exact absurd hm h1
      | some m => simp
    · simp [h1]
    · simp [h1]
  unfold SlashCommand_fm
  simp only
  split
  · exact ⟨_, rfl⟩
  · exact ⟨_, rfl⟩

/-- No event creates a match object. -/
theorem Event_keeps_none (s : LeagueOverseer) (h : Host) (e : bz_EventData) (r : Step)
    (hr : Event s h e = EventResult.returned r) (hm : s.officialMatch = none) :
    r.state.officialMatch = none := by
  cases e with
  | bz_eCaptureEvent t =>
    rw [← EventResult.returned.inj hr]
    simp [Event_bz_eCaptureEvent, hm]
  | bz_eGameEndEvent =>
    rw [gameEnd_returned_resets s h r hr]
  | bz_eGameStartEvent =>
    rw [← EventResult.returned.inj hr]
    simp [Event_bz_eGameStartEvent, hm]
  | bz_eGetPlayerMotto record =>
    rw [← EventResult.returned.inj hr]
    exact hm
  | bz_ePlayerJoinEvent playerID record =>
    rw [← EventResult.returned.inj hr]
    exact hm
  | bz_eSlashCommandEvent sender message =>
    rw [← EventResult.returned.inj hr]
    show (Event_bz_eSlashCommandEvent s sender message).state.officialMatch = none
    unfold Event_bz_eSlashCommandEvent
    split
    · exact hm
    · split
      · exact hm
      · split
        · exact hm
        · split <;> exact hm
  | bz_eTickEvent =>
    rw [← EventResult.returned.inj hr]
    show (tickRollCall (tickCleanup s h).state h).state.officialMatch = none
    rw [tickCleanup_none s h hm]
    simp [tickRollCall, hm]

/-- C19: while a match object exists or a countdown is in progress or active, `/official`
and `/fm` by any caller with any arguments leave the plugin state unchanged and start no
countdown. A match object comes into being only through `/official`, as a fresh value, in
a state without match object and without countdown active or in progress: no other
command and no event turns the null pointer into a match. -/
theorem match_created_only_when_inactive (s : LeagueOverseer) (h : Host) :
    ((s.officialMatch ≠ none ∨ h.countDownInProgress = true ∨ h.countDownActive = true) →
      ∀ (playerData : bz_BasePlayerRecord) (params : List String) (command : String),
        command = "official" ∨ command = "fm" →
        ∃ acts, SlashCommand s h playerData command params = some (⟨s, acts⟩, true) ∧
          countdownsStarted acts = []) ∧
    (∀ (playerData : bz_BasePlayerRecord) (params : List String) (command : String)
        (r : Step) (handled : Bool),
      SlashCommand s h playerData command params = some (r, handled) →
      s.officialMatch = none → r.state.officialMatch ≠ none →
      command = "official" ∧ h.countDownActive = false ∧ h.countDownInProgress = false ∧
        r.state.officialMatch = some OfficialMatch.new) ∧
    (∀ (e : bz_EventData) (r : Step), Event s h e = EventResult.returned r →
      s.officialMatch = none → r.state.officialMatch = none) := by
  refine ⟨fun hlive playerData params command hc => ?_,
    fun playerData params command r handled hres hm hne => ?_,
    fun e r hr hm => Event_keeps_none s h e r hr hm⟩
  · rcases permitted_or_denied h playerData with ⟨hv, hp⟩ | hden
    · rcases hc with hc | hc
      · subst hc
        obtain ⟨msg, hmsg⟩ := SlashCommand_official_live s h playerData params hlive
        refine ⟨[HostAction.sendTextMessage (MessageTarget.player playerData.playerID) msg],
          ?_, rfl⟩
        rw [(SlashCommand_permitted s h playerData params hv hp).2.2.2.1, hmsg]
      · subst hc
        obtain ⟨msg, hmsg⟩ := SlashCommand_fm_live s h playerData params hlive
        refine ⟨[HostAction.sendTextMessage (MessageTarget.player playerData.playerID) msg],
          ?_, rfl⟩
        rw [(SlashCommand_permitted s h playerData params hv hp).2.2.1, hmsg]
    · exact ⟨_, SlashCommand_denied s h playerData command params hden, rfl⟩
  · rcases (SlashCommand_effect s h playerData command params r handled hres).2 with
      h1 | ⟨m, hm2, _, _⟩ | ⟨_, hc, ha, hp, h1⟩
    · rw [h1] at hne
      exact absurd hm hne
    · rw [hm] at hm2
      exact Option.noConfusion hm2
    · exact ⟨hc, ha, hp, by rw [h1]⟩

/-- Witness for C19: during the sample match the sample caller asks for `/official`. -/
theorem match_created_only_when_inactive_witness :
    (samplePlaying.officialMatch ≠ none ∨ sampleRunningHost.countDownInProgress = true ∨
      sampleRunningHost.countDownActive = true) ∧
    ∃ acts, SlashCommand samplePlaying sampleRunningHost sampleCaller "official" ["30"] =
        some (⟨samplePlaying, acts⟩, true) ∧
      countdownsStarted acts = [] :=
  ⟨Or.inl (by decide),
   (match_created_only_when_inactive samplePlaying sampleRunningHost).1 (Or.inl (by decide))
     sampleCaller ["30"] "official" (Or.inl rfl)⟩

/-- C20: within an official match a capture event leaves each counter at least as large
as it was, for a counter below `INT_MAX` (2147483647), the largest value an `int` holds;
tick, join, motto query and slash-command events, every slash command and every job
completion leave both counters as they were and the match in place. The game-start event
is the one that sets them back (to 0). -/
theorem scores_never_decrease (s : LeagueOverseer) (h : Host) (m : OfficialMatch)
    (hm : s.officialMatch = some m) :
    (∀ teamCapping, ∃ (r : Step) (m' : OfficialMatch),
      Event s h (bz_EventData.bz_eCaptureEvent teamCapping) = EventResult.returned r ∧
      r.state.officialMatch = some m' ∧
      (m.teamOnePoints < INT_MAX → m.teamOnePoints ≤ m'.teamOnePoints) ∧
      (m.teamTwoPoints < INT_MAX → m.teamTwoPoints ≤ m'.teamTwoPoints)) ∧
    (∀ e, e = bz_EventData.bz_eTickEvent ∨ (∃ id rec, e = bz_EventData.bz_ePlayerJoinEvent id rec) ∨
        (∃ rec, e = bz_EventData.bz_eGetPlayerMotto rec) ∨
        (∃ id msg, e = bz_EventData.bz_eSlashCommandEvent id msg) →
      ∃ (r : Step) (m' : OfficialMatch),
        Event s h e = EventResult.returned r ∧ r.state.officialMatch = some m' ∧
        m'.teamOnePoints = m.teamOnePoints ∧ m'.teamTwoPoints = m.teamTwoPoints) ∧
    (∀ (playerData : bz_BasePlayerRecord) (command : String) (params : List String)
        (r : Step) (handled : Bool),
      SlashCommand s h playerData command params = some (r, handled) →
      ∃ m', r.state.officialMatch = some m' ∧
        m'.teamOnePoints = m.teamOnePoints ∧ m'.teamTwoPoints = m.teamTwoPoints) ∧
    (∀ (siteData : String) (properJSON : Bool) (errorCode : Int) (errorString : String),
      (URLDone s siteData properJSON).state = s ∧ (URLTimeout s errorCode).state = s ∧
      (URLError s errorCode errorString).state = s) ∧
    (∃ (r : Step) (m' : OfficialMatch),
      Event s h bz_EventData.bz_eGameStartEvent = EventResult.returned r ∧
      r.state.officialMatch = some m' ∧ m'.teamOnePoints = 0 ∧ m'.teamTwoPoints = 0) := by
  refine ⟨fun teamCapping => ?_, fun e he => ?_,
    fun playerData command params r handled hres => ?_,
    fun siteData properJSON errorCode errorString => ⟨?_, rfl, rfl⟩, ?_⟩
  · by_cases hc : teamCapping = s.TEAM_ONE
    · refine ⟨_, { m with teamOnePoints := wrapInt (m.teamOnePoints + 1) }, rfl, ?_, ?_, ?_⟩
      · simp [Event_bz_eCaptureEvent, hm, hc]
      · intro hlt
        show m.teamOnePoints ≤ wrapInt (m.teamOnePoints + 1)
        unfold INT_MAX at hlt
        unfold wrapInt
        omega
      · intro _
        exact le_refl _
    · refine ⟨_, { m with teamTwoPoints := wrapInt (m.teamTwoPoints + 1) }, rfl, ?_, ?_, ?_⟩
      · simp [Event_bz_eCaptureEvent, hm, hc]
      · intro _
        exact le_refl _
      · intro hlt
        show m.teamTwoPoints ≤ wrapInt (m.teamTwoPoints + 1)
        unfold INT_MAX at hlt
        unfold wrapInt
        omega
  · rcases he with he | ⟨id, rec, he⟩ | ⟨rec, he⟩ | ⟨id, msg, he⟩
    · subst he
      obtain ⟨mc, hstate, _, _, _, _⟩ := tickCleanup_keeps s h m hm
      have hpts : mc.teamOnePoints = m.teamOnePoints ∧ mc.teamTwoPoints = m.teamTwoPoints := by
        have hclean := tickCleanup_official s h m hm
        rw [hclean] at hstate
        split at hstate
        · have := Option.some.inj (congrArg LeagueOverseer.officialMatch hstate)
          rw [← this]
          exact ⟨rfl, rfl⟩
        · have := congrArg LeagueOverseer.officialMatch hstate
          simp only [hm] at this
          rw [← Option.some.inj this]
          exact ⟨rfl, rfl⟩
      by_cases hd : rollCallDue { s with officialMatch := some mc } h mc = true
      · obtain ⟨parts, hparts⟩ := rollCallRun_match { s with officialMatch := some mc } h mc
        refine ⟨_, { mc with matchParticipants := parts }, rfl, ?_, hpts.1, hpts.2⟩
        show (tickRollCall (tickCleanup s h).state h).state.officialMatch = _
        rw [hstate, tickRollCall_eq _ h _ rfl, if_pos hd]
        exact hparts
      · refine ⟨_, mc, rfl, ?_, hpts.1, hpts.2⟩
        show (tickRollCall (tickCleanup s h).state h).state.officialMatch = _
        rw [hstate, tickRollCall_eq _ h _ rfl, if_neg hd]
    · subst he
      exact ⟨_, m, rfl, hm, rfl, rfl⟩
    · subst he
      exact ⟨_, m, rfl, hm, rfl, rfl⟩
    · subst he
      refine ⟨_, m, rfl, ?_, rfl, rfl⟩
      show (Event_bz_eSlashCommandEvent s id msg).state.officialMatch = some m
      unfold Event_bz_eSlashCommandEvent
      split
      · exact hm
      · split
        · exact hm
        · split
          · exact hm
          · split <;> exact hm
  · rcases (SlashCommand_effect s h playerData command params r handled hres).2 with
      h1 | ⟨m2, hm2, _, h1⟩ | ⟨hnone, _⟩
    · exact ⟨m, by rw [h1]; exact hm, rfl, rfl⟩
    · have hmm : m2 = m := Option.some.inj (hm2.symm.trans hm)
      subst hmm
      exact ⟨{ m2 with
          canceled := true
          cancelationReason :=
            "Official match cancellation requested by " ++ playerData.callsign },
        by rw [h1], rfl, rfl⟩
    · rw [hm] at hnone
      exact Option.noConfusion hnone
  · unfold URLDone
    split
    · rfl
    · split <;> rfl
  · exact ⟨_, { m with teamOnePoints := 0, teamTwoPoints := 0, startTime := h.currentTime,
                       duration := h.timeLimit },
      rfl, by simp [Event_bz_eGameStartEvent, hm], rfl, rfl⟩

/-- Witness for C20: a red capture in the sample match at 3 : 2. -/
theorem scores_never_decrease_witness :
    samplePlaying.officialMatch = some sampleMatch ∧
    sampleMatch.teamOnePoints < INT_MAX ∧ sampleMatch.teamTwoPoints < INT_MAX ∧
    ∃ (r : Step) (m' : OfficialMatch),
      Event samplePlaying sampleHost (bz_EventData.bz_eCaptureEvent eRedTeam) =
        EventResult.returned r ∧
      r.state.officialMatch = some m' ∧
      sampleMatch.teamOnePoints ≤ m'.teamOnePoints ∧
      sampleMatch.teamTwoPoints ≤ m'.teamTwoPoints :=
  ⟨rfl, by decide, by decide,
   ((scores_never_decrease samplePlaying sampleHost sampleMatch rfl).1 eRedTeam).imp
     (fun _ hr => hr.imp (fun _ hx =>
       ⟨hx.1, hx.2.1, hx.2.2.1 (by decide), hx.2.2.2 (by decide)⟩))⟩

/-! ## Members no handler assigns -/

/-- A due roll call assigns `MATCH_ROLLCALL` and the participants only. -/
theorem rollCallRun_settings (s : LeagueOverseer) (h : Host) (m : OfficialMatch) :
    sameSettings (rollCallRun s h m).state s := by
  unfold rollCallRun
  simp only
  split <;> exact ⟨rfl, rfl, rfl, rfl, rfl, rfl, rfl, rfl⟩

/-- The roll-call half of a tick assigns `MATCH_ROLLCALL` and the participants only. -/
theorem tickRollCall_settings (s : LeagueOverseer) (h : Host) :
    sameSettings (tickRollCall s h).state s := by
  cases hm : s.officialMatch with
  | none =>
    simp only [tickRollCall, hm]
    exact ⟨rfl, rfl, rfl, rfl, rfl, rfl, rfl, rfl⟩
  | some m =>
    rw [tickRollCall_eq s h m hm]
    split
    · exact rollCallRun_settings s h m
    · exact ⟨rfl, rfl, rfl, rfl, rfl, rfl, rfl, rfl⟩

/-- The clean-up half of a tick assigns the match object only. -/
theorem tickCleanup_settings (s : LeagueOverseer) (h : Host) :
    sameSettings (tickCleanup s h).state s ∧
    (tickCleanup s h).state.MATCH_ROLLCALL = s.MATCH_ROLLCALL := by
  cases hm : s.officialMatch with
  | none =>
    rw [tickCleanup_none s h hm]
    exact ⟨⟨rfl, rfl, rfl, rfl, rfl, rfl, rfl, rfl⟩, rfl⟩
  | some m =>
    rw [tickCleanup_official s h m hm]
    split <;> exact ⟨⟨rfl, rfl, rfl, rfl, rfl, rfl, rfl, rfl⟩, rfl⟩

/-- `sameSettings` is transitive. -/
theorem sameSettings_trans {a b c : LeagueOverseer} (h1 : sameSettings a b)
    (h2 : sameSettings b c) : sameSettings a c :=
  ⟨h1.1.trans h2.1, h1.2.1.trans h2.2.1, h1.2.2.1.trans h2.2.2.1,
   h1.2.2.2.1.trans h2.2.2.2.1, h1.2.2.2.2.1.trans h2.2.2.2.2.1,
   h1.2.2.2.2.2.1.trans h2.2.2.2.2.2.1, h1.2.2.2.2.2.2.1.trans h2.2.2.2.2.2.2.1,
   h1.2.2.2.2.2.2.2.trans h2.2.2.2.2.2.2.2⟩

/-- The slash-command event never changes the plugin state. -/
theorem Event_bz_eSlashCommandEvent_state (s : LeagueOverseer) (playerID : Int)
    (command : String) : (Event_bz_eSlashCommandEvent s playerID command).state = s := by
  unfold Event_bz_eSlashCommandEvent
  split
  · rfl
  · split
    · rfl
    · split
      · rfl
      · split <;> rfl

/-- No event, whether it returns or is left by an exception, assigns the designated
colours, the label cache or a configuration member. -/
theorem Event_settings (s : LeagueOverseer) (h : Host) (e : bz_EventData) (r : Step)
    (hr : Event s h e = EventResult.returned r ∨ Event s h e = EventResult.raised r) :
    sameSettings r.state s := by
  have hrefl : sameSettings s s := ⟨rfl, rfl, rfl, rfl, rfl, rfl, rfl, rfl⟩
  cases e with
  | bz_eCaptureEvent t =>
    rcases hr with hr | hr
    · rw [← EventResult.returned.inj hr]
      unfold Event_bz_eCaptureEvent
      split
      · split <;> exact hrefl
      · exact hrefl
    · exact EventResult.noConfusion hr
  | bz_eGameEndEvent =>
    rcases hr with hr | hr
    · rw [gameEnd_returned_resets s h r hr]
      exact hrefl
    · rw [gameEnd_eq] at hr
      cases hg : gameEndReport s h with
      | none =>
        rw [hg] at hr
        rw [← EventResult.raised.inj hr]
        exact hrefl
      | some acts =>
        rw [hg] at hr
        exact EventResult.noConfusion hr
  | bz_eGameStartEvent =>
    rcases hr with hr | hr
    · rw [← EventResult.returned.inj hr]
      unfold Event_bz_eGameStartEvent
      simp only
      split <;> exact hrefl
    · exact EventResult.noConfusion hr
  | bz_eGetPlayerMotto record =>
    rcases hr with hr | hr
    · rw [← EventResult.returned.inj hr]
      exact hrefl
    · exact EventResult.noConfusion hr
  | bz_ePlayerJoinEvent playerID record =>
    rcases hr with hr | hr
    · rw [← EventResult.returned.inj hr]
      exact hrefl
    · exact EventResult.noConfusion hr
  | bz_eSlashCommandEvent sender message =>
    rcases hr with hr | hr
    · rw [← EventResult.returned.inj hr]
      show sameSettings (Event_bz_eSlashCommandEvent s sender message).state s
      rw [Event_bz_eSlashCommandEvent_state]
      exact hrefl
    · exact EventResult.noConfusion hr
  | bz_eTickEvent =>
    rcases hr with hr | hr
    · rw [← EventResult.returned.inj hr]
      show sameSettings (tickRollCall (tickCleanup s h).state h).state s
      exact sameSettings_trans (tickRollCall_settings _ h) (tickCleanup_settings s h).1
    · exact EventResult.noConfusion hr

/-- No slash command assigns the designated colours, the label cache or a configuration
member. -/
theorem SlashCommand_settings (s : LeagueOverseer) (h : Host)
    (playerData : bz_BasePlayerRecord) (command : String) (params : List String) (r : Step)
    (handled : Bool)
    (hres : SlashCommand s h playerData command params = some (r, handled)) :
    sameSettings r.state s := by
  rcases (SlashCommand_effect s h playerData command params r handled hres).2 with
    h1 | ⟨m, _, _, h1⟩ | ⟨_, _, _, _, h1⟩ <;>
  (rw [h1]; exact ⟨rfl, rfl, rfl, rfl, rfl, rfl, rfl, rfl⟩)

/-- A job completion never changes the plugin state. -/
theorem URLDone_state (s : LeagueOverseer) (siteData : String) (properJSON : Bool) :
    (URLDone s siteData properJSON).state = s := by
  unfold URLDone
  split
  · rfl
  · split <;> rfl

/-! ## Countdown length -/

/-- The countdowns among a broadcast followed by the countdown of `startCountdownFor`. -/
theorem countdownsStarted_start (target : MessageTarget) (msg : String) (h : Host)
    (params : List String) :
    countdownsStarted [HostAction.sendTextMessage target msg, startCountdownFor h params] =
      [startCountdownFor h params] := by
  unfold startCountdownFor
  simp only
  split <;> rfl

/-- The countdowns the `/official` branch starts: none, or the one of `startCountdownFor`. -/
theorem SlashCommand_official_countdowns (s : LeagueOverseer) (h : Host)
    (playerData : bz_BasePlayerRecord) (params : List String) :
    countdownsStarted (SlashCommand_official s h playerData params).actions = [] ∨
    countdownsStarted (SlashCommand_official s h playerData params).actions =
      [startCountdownFor h params] := by
  unfold SlashCommand_official
  simp only
  split
  · exact Or.inl rfl
  · split
    · exact Or.inl rfl
    · split
      · exact Or.inl rfl
      · exact Or.inr (countdownsStarted_start _ _ h params)

/-- The countdowns the `/fm` branch starts: none, or the one of `startCountdownFor`. -/
theorem SlashCommand_fm_countdowns (s : LeagueOverseer) (h : Host)
    (playerData : bz_BasePlayerRecord) (params : List String) :
    countdownsStarted (SlashCommand_fm s h playerData params).actions = [] ∨
    countdownsStarted (SlashCommand_fm s h playerData params).actions =
      [startCountdownFor h params] := by
  unfold SlashCommand_fm
  simp only
  split
  · exact Or.inl rfl
  · split
    · exact Or.inl rfl
    · exact Or.inr (countdownsStarted_start _ _ h params)

/-- The value `atoi` returns is the number the string begins with whenever that fits an
`int`. -/
theorem atoi_of_fits (str : String) (h1 : INT_MIN ≤ decimalValue str)
    (h2 : decimalValue str ≤ INT_MAX) : atoi str = decimalValue str := by
  unfold INT_MIN at h1
  unfold INT_MAX at h2
  unfold atoi strtol LONG_MIN LONG_MAX
  rw [if_neg (by omega), if_neg (by omega)]
  unfold wrapInt
  omega

/-- What `atoi` returns is an `int`. -/
theorem atoi_range (str : String) : INT_MIN ≤ atoi str ∧ atoi str ≤ INT_MAX := by
  unfold atoi wrapInt INT_MIN INT_MAX
  omega

/-- C21: an accepted `/official` and an accepted `/fm` each pass exactly one countdown to
the host, and it lasts `n` seconds when exactly one argument is given and `atoi` reads it as
an `int` `n` between 5 and 120, and 10 seconds in every other case (no argument, several
arguments, an argument without leading number, which `atoi` reads as 0, or one read as less
than 5 or more than 120); so it always lies between 5 and 120. Refused, either command
starts no countdown. What `atoi` reads is the number written whenever that fits an `int`. -/
theorem countdown_length (s : LeagueOverseer) (h : Host) (playerData : bz_BasePlayerRecord)
    (params : List String) :
    startCountdownFor h params =
      HostAction.startCountdown (countdownLength params) h.timeLimit "Server" ∧
    5 ≤ countdownLength params ∧ countdownLength params ≤ 120 ∧
    (playerData.verified = true → h.hasPerm playerData.playerID "spawn" = true →
      playerData.team ≠ eObservers →
      2 ≤ h.teamCount s.TEAM_ONE → 2 ≤ h.teamCount s.TEAM_TWO → s.officialMatch = none →
      h.countDownActive = false → h.countDownInProgress = false →
      SlashCommand s h playerData "official" params =
        some (⟨{ s with officialMatch := some OfficialMatch.new },
          [HostAction.sendTextMessage MessageTarget.allUsers
             ("Official match started by " ++ playerData.callsign ++ "."),
           HostAction.startCountdown (countdownLength params) h.timeLimit "Server"]⟩, true)) ∧
    (playerData.verified = true → h.hasPerm playerData.playerID "spawn" = true →
      playerData.team ≠ eObservers → s.officialMatch = none →
      h.countDownActive = false → h.countDownInProgress = false →
      SlashCommand s h playerData "fm" params =
        some (⟨{ s with officialMatch := none },
          [HostAction.sendTextMessage MessageTarget.allUsers
             ("Fun match started by " ++ playerData.callsign ++ "."),
           HostAction.startCountdown (countdownLength params) h.timeLimit "Server"]⟩, true)) ∧
    (∀ (command : String) (r : Step) (handled : Bool),
      command = "official" ∨ command = "fm" →
      SlashCommand s h playerData command params = some (r, handled) →
      countdownsStarted r.actions = [] ∨
      countdownsStarted r.actions =
        [HostAction.startCountdown (countdownLength params) h.timeLimit "Server"]) ∧
    (∀ p, 5 ≤ atoi p → atoi p ≤ 120 → countdownLength [p] = atoi p) ∧
    (∀ p, atoi p < 5 ∨ 120 < atoi p → countdownLength [p] = 10) ∧
    (∀ p, INT_MIN ≤ atoi p ∧ atoi p ≤ INT_MAX ∧
      (INT_MIN ≤ decimalValue p → decimalValue p ≤ INT_MAX → atoi p = decimalValue p)) ∧
    countdownLength [] = 10 ∧ (∀ p q rest, countdownLength (p :: q :: rest) = 10) ∧
    atoi "soon" = 0 := by
  have hfor : startCountdownFor h params =
      HostAction.startCountdown (countdownLength params) h.timeLimit "Server" := by
    unfold startCountdownFor countdownLength
    cases params with
    | nil => simp
    | cons p rest =>
      cases rest with
      | nil =>
        by_cases hr : 5 ≤ atoi p ∧ atoi p ≤ 120
        · simp [hr]
        · simp only [hr, if_false]
          have : ¬ (atoi p ≤ 120 ∧ atoi p ≥ 5) := fun hc => hr ⟨hc.2, hc.1⟩
          simp [this]
      | cons q rest2 => simp
  have hrange : 5 ≤ countdownLength params ∧ countdownLength params ≤ 120 := by
    unfold countdownLength
    split
    · split
      · rename_i hr; exact hr
      · exact ⟨by decide, by decide⟩
    · exact ⟨by decide, by decide⟩
  refine ⟨hfor, hrange.1, hrange.2, ?_, ?_, ?_, ?_, ?_,
    fun p => ⟨(atoi_range p).1, (atoi_range p).2, atoi_of_fits p⟩, rfl,
    fun p q rest => rfl, by decide⟩
  · intro hv hp ho h1 h2 hnone hact hprog
    rw [(SlashCommand_permitted s h playerData params hv hp).2.2.2.1, ← hfor]
    have hge : ¬ (h.teamCount s.TEAM_ONE < 2 ∨ h.teamCount s.TEAM_TWO < 2) := by omega
    simp [SlashCommand_official, ho, hge, hnone, hact, hprog]
  · intro hv hp ho hnone hact hprog
    rw [(SlashCommand_permitted s h playerData params hv hp).2.2.1, ← hfor]
    simp [SlashCommand_fm, ho, hnone, hact, hprog]
  · intro command r handled hc hres
    rw [← hfor]
    rcases permitted_or_denied h playerData with ⟨hv, hp⟩ | hden
    · rcases hc with hc | hc
      · subst hc
        rw [(SlashCommand_permitted s h playerData params hv hp).2.2.2.1] at hres
        obtain ⟨hr, _⟩ := Prod.mk.inj (Option.some.inj hres)
        subst hr
        exact SlashCommand_official_countdowns s h playerData params
      · subst hc
        rw [(SlashCommand_permitted s h playerData params hv hp).2.2.1] at hres
        obtain ⟨hr, _⟩ := Prod.mk.inj (Option.some.inj hres)
        subst hr
        exact SlashCommand_fm_countdowns s h playerData params
    · rw [SlashCommand_denied s h playerData command params hden] at hres
      obtain ⟨hr, _⟩ := Prod.mk.inj (Option.some.inj hres)
      subst hr
      exact Or.inl rfl
  · intro p h1 h2
    simp [countdownLength, h1, h2]
  · intro p hp
    have : ¬ (5 ≤ atoi p ∧ atoi p ≤ 120) := by omega
    simp [countdownLength, this]

/-- Witness for C21: on the idle sample plugin `/official 30` starts the match and one
countdown of 30 seconds and `/fm 30` one countdown of 30 seconds; `121` gives 10 seconds,
and `4294967326`, which `atoi` reads as the `int` 30, gives 30. -/
theorem countdown_length_witness :
    countdownLength ["30"] = 30 ∧ countdownLength ["121"] = 10 ∧
    atoi "4294967326" = 30 ∧ countdownLength ["4294967326"] = 30 ∧
    SlashCommand sampleIdle sampleHost sampleCaller "official" ["30"] =
      some (⟨{ sampleIdle with officialMatch := some OfficialMatch.new },
        [HostAction.sendTextMessage MessageTarget.allUsers
           ("Official match started by " ++ sampleCaller.callsign ++ "."),
         HostAction.startCountdown (countdownLength ["30"]) sampleHost.timeLimit "Server"]⟩,
        true) ∧
    SlashCommand sampleIdle sampleHost sampleCaller "fm" ["30"] =
      some (⟨{ sampleIdle with officialMatch := none },
        [HostAction.sendTextMessage MessageTarget.allUsers
           ("Fun match started by " ++ sampleCaller.callsign ++ "."),
         HostAction.startCountdown (countdownLength ["30"]) sampleHost.timeLimit "Server"]⟩,
        true) :=
  ⟨by decide, by decide, by decide, by decide,
   (countdown_length sampleIdle sampleHost sampleCaller ["30"]).2.2.2.1 rfl (by decide)
     (by decide) (by decide) (by decide) rfl rfl rfl,
   (countdown_length sampleIdle sampleHost sampleCaller ["30"]).2.2.2.2.1 rfl (by decide)
     (by decide) rfl rfl rfl⟩

/-- The loop of `Init` finds the first two supported colours. -/
theorem scanTeamColors_eq (limit : bz_eTeamType → Int) :
    scanTeamColors limit scannedColors (eNoTeam, eNoTeam) =
      ((supportedColors limit)[0]?.getD eNoTeam, (supportedColors limit)[1]?.getD eNoTeam) := by
  by_cases hr : limit eRedTeam > 0 <;> by_cases hg : limit eGreenTeam > 0 <;>
    by_cases hb : limit eBlueTeam > 0 <;> by_cases hp : limit ePurpleTeam > 0 <;>
    simp [scanTeamColors, scannedColors, supportedColors, hr, hg, hb, hp, List.filter]

/-- The first two supported colours are different, in enumeration order, when there are
two. -/
theorem supportedColors_order (limit : bz_eTeamType → Int) (one two : bz_eTeamType)
    (h1 : (supportedColors limit)[0]? = some one)
    (h2 : (supportedColors limit)[1]? = some two) :
    one ≠ two ∧ colorIndex one < colorIndex two ∧ limit one > 0 ∧ limit two > 0 := by
  by_cases hr : limit eRedTeam > 0 <;> by_cases hg : limit eGreenTeam > 0 <;>
    by_cases hb : limit eBlueTeam > 0 <;> by_cases hp : limit ePurpleTeam > 0 <;>
    simp [scannedColors, supportedColors, hr, hg, hb, hp, List.filter] at h1 h2 <;>
    (subst h1; subst h2; exact ⟨by decide, by decide, by assumption, by assumption⟩)

/-- C22: `Init` sets `TEAM_ONE` to the first colour, in the order red, green, blue, purple,
whose player-slot limit is greater than 0 and `TEAM_TWO` to the second such colour, each
being `eNoTeam` when there is no such colour; when both are found they are different and
`TEAM_ONE` comes first in the enumeration; and no event (returning or not), slash command
or job completion assigns either of them afterwards. -/
theorem init_designates_first_two (h : Host) (config : PluginConfig) (mapchangeLine : String)
    (RECORDING : Bool) :
    (Init h config mapchangeLine RECORDING).TEAM_ONE =
      (supportedColors h.teamPlayerLimit)[0]?.getD eNoTeam ∧
    (Init h config mapchangeLine RECORDING).TEAM_TWO =
      (supportedColors h.teamPlayerLimit)[1]?.getD eNoTeam ∧
    (∀ one two, (supportedColors h.teamPlayerLimit)[0]? = some one →
      (supportedColors h.teamPlayerLimit)[1]? = some two →
      (Init h config mapchangeLine RECORDING).TEAM_ONE = one ∧
      (Init h config mapchangeLine RECORDING).TEAM_TWO = two ∧
      one ≠ two ∧ colorIndex one < colorIndex two) ∧
    (∀ (s : LeagueOverseer) (later : Host) (e : bz_EventData) (r : Step),
      Event s later e = EventResult.returned r ∨ Event s later e = EventResult.raised r →
      r.state.TEAM_ONE = s.TEAM_ONE ∧ r.state.TEAM_TWO = s.TEAM_TWO) ∧
    (∀ (s : LeagueOverseer) (later : Host) (playerData : bz_BasePlayerRecord)
        (command : String) (params : List String) (r : Step) (handled : Bool),
      SlashCommand s later playerData command params = some (r, handled) →
      r.state.TEAM_ONE = s.TEAM_ONE ∧ r.state.TEAM_TWO = s.TEAM_TWO) ∧
    (∀ (s : LeagueOverseer) (siteData : String) (properJSON : Bool) (errorCode : Int)
        (errorString : String),
      (URLDone s siteData properJSON).state = s ∧ (URLTimeout s errorCode).state = s ∧
      (URLError s errorCode errorString).state = s) := by
  have hscan := scanTeamColors_eq h.teamPlayerLimit
  have h1 : (Init h config mapchangeLine RECORDING).TEAM_ONE =
      (supportedColors h.teamPlayerLimit)[0]?.getD eNoTeam := by
    show (scanTeamColors h.teamPlayerLimit scannedColors (eNoTeam, eNoTeam)).1 = _
    rw [hscan]
  have h2 : (Init h config mapchangeLine RECORDING).TEAM_TWO =
      (supportedColors h.teamPlayerLimit)[1]?.getD eNoTeam := by
    show (scanTeamColors h.teamPlayerLimit scannedColors (eNoTeam, eNoTeam)).2 = _
    rw [hscan]
  refine ⟨h1, h2, fun one two e1 e2 => ?_, fun s later e r hr => ?_,
    fun s later playerData command params r handled hres => ?_,
    fun s siteData properJSON errorCode errorString => ⟨URLDone_state s siteData properJSON,
      rfl, rfl⟩⟩
  · have hord := supportedColors_order h.teamPlayerLimit one two e1 e2
    exact ⟨by rw [h1, e1]; rfl, by rw [h2, e2]; rfl, hord.1, hord.2.1⟩
  · have := Event_settings s later e r hr
    exact ⟨this.1, this.2.1⟩
  · have := SlashCommand_settings s later playerData command params r handled hres
    exact ⟨this.1, this.2.1⟩

/-- Witness for C22: the sample host's map has slots for red and green only. -/
theorem init_designates_first_two_witness :
    (supportedColors sampleHost.teamPlayerLimit)[0]? = some eRedTeam ∧
    (supportedColors sampleHost.teamPlayerLimit)[1]? = some eGreenTeam ∧
    (Init sampleHost sampleConfig "" false).TEAM_ONE =
      eRedTeam ∧
    (Init sampleHost sampleConfig "" false).TEAM_TWO =
      eGreenTeam ∧
    eRedTeam ≠ eGreenTeam ∧ colorIndex eRedTeam < colorIndex eGreenTeam ∧
    Init sampleHost sampleConfig "" false = sampleIdle :=
  ⟨by decide, by decide,
   ((init_designates_first_two sampleHost sampleConfig
      "" false).2.2.1 eRedTeam eGreenTeam (by decide) (by decide)).1,
   ((init_designates_first_two sampleHost sampleConfig
      "" false).2.2.1 eRedTeam eGreenTeam (by decide) (by decide)).2.1,
   by decide, by decide, by decide⟩

/-! ## Job completions and the spawn command -/

/-- No job completion changes what the cache returns for any identity. -/
theorem URLDone_lookup (s : LeagueOverseer) (siteData : String) (properJSON : Bool)
    (bzID : String) :
    mottoOf (URLDone s siteData properJSON).state.teamMottos bzID = mottoOf s.teamMottos bzID := by
  rw [URLDone_state]

/-- C23, at the failing input: a verified player's join issues the team-identity query for
identity 101, but processing the successful completion of that query, whatever the response
and whether or not it passes the test for proper JSON, leaves the state as it was: the cache
still answers the empty string for 101, to the motto query as well. -/
theorem urlDone_leaves_cache :
    Event sampleIdle sampleHost (bz_EventData.bz_ePlayerJoinEvent 1 sampleCaller) =
      EventResult.returned ⟨sampleIdle,
        [HostAction.addURLJob "http://league.example/report"
          "query=teamNameQuery&teamPlayers=101"]⟩ ∧
    (∀ properJSON : Bool,
      (URLDone sampleIdle "Reds" properJSON).state = sampleIdle ∧
      mottoOf (URLDone sampleIdle "Reds" properJSON).state.teamMottos "101" = "") ∧
    Event (URLDone sampleIdle "Reds" true).state sampleHost
        (bz_EventData.bz_eGetPlayerMotto sampleCaller) =
      EventResult.returned ⟨sampleIdle, [HostAction.setMotto ""]⟩ := by
  refine ⟨by decide, fun properJSON => ?_, by decide⟩
  cases properJSON <;> exact ⟨by decide, by decide⟩

/-- A caller without the ban capability never causes a grant. -/
theorem SlashCommand_spawn_no_ban (s : LeagueOverseer) (h : Host)
    (playerData : bz_BasePlayerRecord) (params : List String)
    (hban : h.hasPerm playerData.playerID "ban" = false) :
    grants (SlashCommand_spawn s h playerData params).actions = [] := by
  unfold SlashCommand_spawn
  simp only [hban]
  cases playerData.admin <;> simp [grants]

/-- C24, at the failing input: on a host whose slot 0 is taken by the observer zed, the
ban-holding caller ann runs /spawn with the one argument #nobody. No connected player has
that callsign and no slot id is written nobody, yet the spawn capability is granted to zed
and the caller gets no "not found" message. -/
theorem spawn_unmatched_grants_slot_zero :
    bz_getPlayerByCallsign sampleSpawnHost "#nobody" = none ∧
    (∀ p ∈ sampleSpawnHost.players, "#" ++ intToString p.playerID ≠ "#nobody") ∧
    sampleSpawnHost.hasPerm sampleCaller.playerID "ban" = true ∧
    SlashCommand sampleIdle sampleSpawnHost sampleCaller "spawn" ["#nobody"] =
      some (⟨sampleIdle,
        [HostAction.grantPerm 0 "spawn",
         HostAction.sendTextMessage (MessageTarget.team eAdministrators)
           "ann granted zed the ability to spawn."]⟩, true) := by
  refine ⟨by decide, by decide, by decide, by decide⟩

/-! ## Reachable states -/

/-- Every reachable state has an empty team-label cache. -/
theorem Reachable_teamMottos (s : LeagueOverseer) (hs : Reachable s) : s.teamMottos = [] := by
  induction hs with
  | init h config mapchangeLine RECORDING => rfl
  | event s h e r _ hr ih => rw [(Event_settings s h e r (Or.inl hr)).2.2.1, ih]
  | eventRaised s h e r _ hr ih => rw [(Event_settings s h e r (Or.inr hr)).2.2.1, ih]
  | command s h playerData command params r handled _ hres ih =>
    rw [(SlashCommand_settings s h playerData command params r handled hres).2.2.1, ih]
  | urlDone s siteData properJSON _ ih => rw [URLDone_state, ih]
  | urlTimeout s errorCode _ ih => exact ih
  | urlError s errorCode errorString _ ih => exact ih

/-- With an empty cache every lookup is the empty string. -/
theorem mottoOf_nil (bzID : String) : mottoOf [] bzID = "" := rfl

/-- With an empty cache the roll call adopts no name, flags no colour, and is invalid
exactly when it started invalid or sampled a player without identity. -/
theorem rollCallLoop_unlabelled (s : LeagueOverseer) (hc : s.teamMottos = [])
    (ps : List bz_BasePlayerRecord) (r : RollCall)
    (he1 : r.teamOneError = false) (he2 : r.teamTwoError = false)
    (hn1 : r.teamOneMotto = "") (hn2 : r.teamTwoMotto = "") :
    (rollCallLoop s ps r).teamOneError = false ∧
    (rollCallLoop s ps r).teamTwoError = false ∧
    (rollCallLoop s ps r).teamOneMotto = "" ∧
    (rollCallLoop s ps r).teamTwoMotto = "" ∧
    ((rollCallLoop s ps r).invalidateRollcall = true ↔
      r.invalidateRollcall = true ∨ ∃ p ∈ ps, p.team ≠ eObservers ∧ p.bzID = "") := by
  induction ps generalizing r with
  | nil => exact ⟨he1, he2, hn1, hn2, by simp [rollCallLoop]⟩
  | cons p rest ih =>
    rw [rollCallLoop_cons]
    by_cases ho : p.team = eObservers
    · rw [rollCallStep_observer s r p ho]
      obtain ⟨a, b, c, d, e⟩ := ih r he1 he2 hn1 hn2
      refine ⟨a, b, c, d, ?_⟩
      rw [e]
      simp [ho]
    · have hstep := rollCallStep_player s r p ho
      have hname : (participantOf s p).teamName = "" := by
        show mottoOf s.teamMottos p.bzID = ""
        rw [hc]; rfl
      have hf1 : labelFlag s.TEAM_ONE r.teamOneMotto (participantOf s p) = false := by
        simp [labelFlag, hn1]
      have hf2 : labelFlag s.TEAM_TWO r.teamTwoMotto (participantOf s p) = false := by
        simp [labelFlag, hn2]
      have hl1 : labelNext s.TEAM_ONE r.teamOneMotto (participantOf s p) = "" := by
        simp [labelNext, hn1, hname]
      have hl2 : labelNext s.TEAM_TWO r.teamTwoMotto (participantOf s p) = "" := by
        simp [labelNext, hn2, hname]
      rw [hf1, hf2, hl1, hl2] at hstep
      obtain ⟨a, b, c, d, e⟩ := ih (rollCallStep s r p) (by rw [hstep]; simp [he1])
        (by rw [hstep]; simp [he2]) (by rw [hstep]) (by rw [hstep])
      refine ⟨a, b, c, d, ?_⟩
      rw [e, hstep]
      by_cases hid : p.bzID = ""
      · simp [hid, ho]
      · simp [hid, ho]

/-- The participants sampled with an empty cache all carry the empty label. -/
theorem sampled_unlabelled (s : LeagueOverseer) (hc : s.teamMottos = [])
    (ps : List bz_BasePlayerRecord) : ∀ p ∈ sampled s ps, p.teamName = "" := by
  intro p hp
  simp only [sampled, List.mem_map] at hp
  obtain ⟨q, _, hq⟩ := hp
  rw [← hq]
  show mottoOf s.teamMottos q.bzID = ""
  rw [hc]; rfl

/-- What a tick does to the participants of an official match: nothing, unless the list is
empty and the roll call commits the players it samples. -/
theorem tick_participants (s : LeagueOverseer) (h : Host) (m : OfficialMatch)
    (hm : s.officialMatch = some m) :
    ∃ m', (Event_bz_eTickEvent s h).state.officialMatch = some m' ∧
      (m'.matchParticipants = m.matchParticipants ∨
       (m.matchParticipants = [] ∧ rollCallDue s h m = true ∧
        m'.matchParticipants = sampled s h.players)) := by
  obtain ⟨mc, _, _, hparts, _, heq⟩ := tick_official s h m hm
  rw [heq]
  by_cases hd : rollCallDue s h m = true
  · rw [if_pos hd]
    have hp : m.matchParticipants = [] := ((rollCallDue_iff s h m).1 hd).2.2
    have hpc : mc.matchParticipants = [] := hparts.trans hp
    have hrun := rollCallRun_state { s with officialMatch := some mc } h mc hpc
    by_cases hc : (rollCallLoop { s with officialMatch := some mc } h.players
        (RollCall.start mc.matchParticipants)).invalidateRollcall = true ∧
        ({ s with officialMatch := some mc } : LeagueOverseer).MATCH_ROLLCALL + 30 < mc.duration
    · refine ⟨{ mc with matchParticipants := [] }, ?_, Or.inl hp.symm⟩
      show (rollCallRun { s with officialMatch := some mc } h mc).state.officialMatch = _
      rw [hrun.1 hc]
    · refine ⟨{ mc with matchParticipants := sampled s h.players }, ?_, Or.inr ⟨hp, hd, rfl⟩⟩
      show (rollCallRun { s with officialMatch := some mc } h mc).state.officialMatch = _
      rw [hrun.2 hc]
      rfl
  · rw [if_neg hd]
    exact ⟨mc, rfl, Or.inl hparts⟩

/-- What an event, returning or not, does to the participants of an official match: the
match is gone, or the list is as it was, or it was empty and a due roll call committed the
players it sampled. -/
theorem Event_participants (s : LeagueOverseer) (h : Host) (e : bz_EventData) (r : Step)
    (hr : Event s h e = EventResult.returned r ∨ Event s h e = EventResult.raised r)
    (m : OfficialMatch) (hm : s.officialMatch = some m) :
    (r.state.officialMatch = none ∧ e = bz_EventData.bz_eGameEndEvent) ∨
    ∃ m', r.state.officialMatch = some m' ∧
      (m'.matchParticipants = m.matchParticipants ∨
       (e = bz_EventData.bz_eTickEvent ∧ m.matchParticipants = [] ∧
        rollCallDue s h m = true ∧ m'.matchParticipants = sampled s h.players)) := by
  cases e with
  | bz_eCaptureEvent t =>
    rcases hr with hr | hr
    · rw [← EventResult.returned.inj hr]
      right
      by_cases hc : t = s.TEAM_ONE
      · exact ⟨{ m with teamOnePoints := wrapInt (m.teamOnePoints + 1) },
          by simp [Event_bz_eCaptureEvent, hm, hc], Or.inl rfl⟩
      · exact ⟨{ m with teamTwoPoints := wrapInt (m.teamTwoPoints + 1) },
          by simp [Event_bz_eCaptureEvent, hm, hc], Or.inl rfl⟩
    · exact EventResult.noConfusion hr
  | bz_eGameEndEvent =>
    rcases hr with hr | hr
    · rw [gameEnd_returned_resets s h r hr]
      exact Or.inl ⟨rfl, rfl⟩
    · rw [gameEnd_eq] at hr
      cases hg : gameEndReport s h with
      | none =>
        rw [hg] at hr
        rw [← EventResult.raised.inj hr]
        exact Or.inr ⟨m, hm, Or.inl rfl⟩
      | some acts =>
        rw [hg] at hr
        exact EventResult.noConfusion hr
  | bz_eGameStartEvent =>
    rcases hr with hr | hr
    · rw [← EventResult.returned.inj hr]
      exact Or.inr ⟨{ m with teamOnePoints := 0, teamTwoPoints := 0, startTime := h.currentTime,
                             duration := h.timeLimit },
        by simp [Event_bz_eGameStartEvent, hm], Or.inl rfl⟩
    · exact EventResult.noConfusion hr
  | bz_eGetPlayerMotto record =>
    rcases hr with hr | hr
    · rw [← EventResult.returned.inj hr]
      exact Or.inr ⟨m, hm, Or.inl rfl⟩
    · exact EventResult.noConfusion hr
  | bz_ePlayerJoinEvent playerID record =>
    rcases hr with hr | hr
    · rw [← EventResult.returned.inj hr]
      exact Or.inr ⟨m, hm, Or.inl rfl⟩
    · exact EventResult.noConfusion hr
  | bz_eSlashCommandEvent sender message =>
    rcases hr with hr | hr
    · rw [← EventResult.returned.inj hr]
      refine Or.inr ⟨m, ?_, Or.inl rfl⟩
      show (Event_bz_eSlashCommandEvent s sender message).state.officialMatch = some m
      rw [Event_bz_eSlashCommandEvent_state]
      exact hm
    · exact EventResult.noConfusion hr
  | bz_eTickEvent =>
    rcases hr with hr | hr
    · rw [← EventResult.returned.inj hr]
      obtain ⟨m', h1, h2⟩ := tick_participants s h m hm
      refine Or.inr ⟨m', h1, ?_⟩
      rcases h2 with h2 | ⟨h2, h3, h4⟩
      · exact Or.inl h2
      · exact Or.inr ⟨rfl, h2, h3, h4⟩
    · exact EventResult.noConfusion hr

/-- An event that does not return leaves the state as it was. -/
theorem Event_raised_state (s : LeagueOverseer) (h : Host) (e : bz_EventData) (r : Step)
    (hr : Event s h e = EventResult.raised r) : r.state = s := by
  cases e with
  | bz_eGameEndEvent =>
    rw [gameEnd_eq] at hr
    cases hg : gameEndReport s h with
    | none =>
      rw [hg] at hr
      rw [← EventResult.raised.inj hr]
    | some acts =>
      rw [hg] at hr
      exact EventResult.noConfusion hr
  | _ => exact EventResult.noConfusion hr

/-- What a slash command does to the participants of the match it leaves: they are those
of the match before, or the match is new and has none. -/
theorem SlashCommand_participants (s : LeagueOverseer) (h : Host)
    (playerData : bz_BasePlayerRecord) (command : String) (params : List String) (r : Step)
    (handled : Bool)
    (hres : SlashCommand s h playerData command params = some (r, handled))
    (m' : OfficialMatch) (hm' : r.state.officialMatch = some m') :
    (∃ m, s.officialMatch = some m ∧ m'.matchParticipants = m.matchParticipants) ∨
    (s.officialMatch = none ∧ m'.matchParticipants = []) := by
  rcases (SlashCommand_effect s h playerData command params r handled hres).2 with
    h1 | ⟨m, hm, _, h1⟩ | ⟨hn, _, _, _, h1⟩
  · rw [h1] at hm'
    exact Or.inl ⟨m', hm', rfl⟩
  · rw [h1] at hm'
    have := Option.some.inj hm'
    rw [← this]
    exact Or.inl ⟨m, hm, rfl⟩
  · rw [h1] at hm'
    have := Option.some.inj hm'
    rw [← this]
    exact Or.inr ⟨hn, rfl⟩

/-- In every reachable state the recorded participants carry the empty label. -/
theorem Reachable_unlabelled (s : LeagueOverseer) (hs : Reachable s) :
    ∀ m, s.officialMatch = some m → ∀ p ∈ m.matchParticipants, p.teamName = "" := by
  induction hs with
  | init h config mapchangeLine RECORDING =>
    intro m hm
    have : (none : Option OfficialMatch) = some m := hm
    cases this
  | event s h e r hs hr ih =>
    intro m' hm' p hp
    cases hm : s.officialMatch with
    | none =>
      rw [Event_keeps_none s h e r hr hm] at hm'
      cases hm'
    | some m =>
      rcases Event_participants s h e r (Or.inl hr) m hm with ⟨hn, _⟩ | ⟨m2, h2, hparts⟩
      · rw [hn] at hm'
        cases hm'
      · rw [h2] at hm'
        have hmm := Option.some.inj hm'
        rw [← hmm] at hp
        rcases hparts with hparts | ⟨_, _, _, hparts⟩
        · rw [hparts] at hp
          exact ih m hm p hp
        · rw [hparts] at hp
          exact sampled_unlabelled s (Reachable_teamMottos s hs) h.players p hp
  | eventRaised s h e r hs hr ih =>
    rw [Event_raised_state s h e r hr]
    exact ih
  | command s h playerData command params r handled hs hres ih =>
    intro m' hm' p hp
    rcases SlashCommand_participants s h playerData command params r handled hres m' hm' with
      ⟨m, hm, hparts⟩ | ⟨_, hparts⟩
    · rw [hparts] at hp
      exact ih m hm p hp
    · rw [hparts] at hp
      cases hp
  | urlDone s siteData properJSON hs ih =>
    rw [URLDone_state]
    exact ih
  | urlTimeout s errorCode hs ih => exact ih
  | urlError s errorCode errorString hs ih => exact ih

/-- With an empty cache the roll-call half of a tick emits no host action. -/
theorem tickRollCall_quiet (s : LeagueOverseer) (hc : s.teamMottos = []) (h : Host) :
    (tickRollCall s h).actions = [] := by
  unfold tickRollCall
  split
  · rename_i m _
    obtain ⟨a, b, _, _, _⟩ := rollCallLoop_unlabelled s hc h.players
      (RollCall.start m.matchParticipants) rfl rfl rfl rfl
    split
    · simp only [a, b]
      split <;> rfl
    · rfl
  · rfl

/-- The clean-up half of a tick issues no identity-refresh request. -/
theorem tickCleanup_no_requests (s : LeagueOverseer) (h : Host) :
    refreshRequests (tickCleanup s h).actions = [] := by
  unfold tickCleanup
  simp only
  split
  · cases h.countDownActive <;> rfl
  · rfl

/-- C25: in every state reachable from `Init` by events (returning or not), slash commands
and job completions, timeouts and errors, the team-label cache answers the empty string for
every identity; the participants recorded in the match all carry the empty label; a roll
call over any player list samples only empty labels, flags neither designated colour, and
is invalid exactly when some connected non-observer has an empty stable identity; and a
tick issues no identity-refresh request. -/
theorem cache_always_empty (s : LeagueOverseer) (hs : Reachable s) :
    (∀ bzID, mottoOf s.teamMottos bzID = "") ∧
    (∀ m, s.officialMatch = some m → ∀ p ∈ m.matchParticipants, p.teamName = "") ∧
    (∀ (ps : List bz_BasePlayerRecord) (recorded : List MatchParticipant),
      (∀ p ∈ sampled s ps, p.teamName = "") ∧
      (rollCallLoop s ps (RollCall.start recorded)).teamOneError = false ∧
      (rollCallLoop s ps (RollCall.start recorded)).teamTwoError = false ∧
      ((rollCallLoop s ps (RollCall.start recorded)).invalidateRollcall = true ↔
        ∃ p ∈ ps, p.team ≠ eObservers ∧ p.bzID = "")) ∧
    (∀ (h : Host) (r : Step),
      Event s h bz_EventData.bz_eTickEvent = EventResult.returned r →
      refreshRequests r.actions = [] ∧
      ∀ m', r.state.officialMatch = some m' → ∀ p ∈ m'.matchParticipants, p.teamName = "") := by
  have hc := Reachable_teamMottos s hs
  refine ⟨fun bzID => by rw [hc]; rfl, Reachable_unlabelled s hs, fun ps recorded => ?_,
    fun h r hr => ⟨?_, Reachable_unlabelled r.state (Reachable.event s h _ r hs hr)⟩⟩
  · obtain ⟨a, b, _, _, e⟩ := rollCallLoop_unlabelled s hc ps (RollCall.start recorded)
      rfl rfl rfl rfl
    refine ⟨sampled_unlabelled s hc ps, a, b, ?_⟩
    rw [e]
    simp [RollCall.start]
  · rw [← EventResult.returned.inj hr]
    show refreshRequests ((tickCleanup s h).actions ++
      (tickRollCall (tickCleanup s h).state h).actions) = []
    rw [tickRollCall_quiet _ ((tickCleanup_settings s h).1.2.2.1.trans hc) h, List.append_nil]
    exact tickCleanup_no_requests s h

/-- Witness for C25: the state after start-up and one completed job. -/
theorem cache_always_empty_witness :
    Reachable (URLDone (Init sampleHost sampleConfig "" false) "Reds" true).state ∧
    mottoOf (URLDone (Init sampleHost sampleConfig "" false) "Reds" true).state.teamMottos
      "101" = "" :=
  ⟨Reachable.urlDone _ "Reds" true (Reachable.init sampleHost sampleConfig "" false),
   (cache_always_empty _
     (Reachable.urlDone _ "Reds" true (Reachable.init sampleHost sampleConfig "" false))).1
     "101"⟩

/-- The first non-empty label of a colour, one player at a time. -/
theorem firstLabel_cons (t : bz_eTeamType) (p : MatchParticipant)
    (ps : List MatchParticipant) :
    firstLabel t (p :: ps) =
      if p.teamColor = t ∧ p.teamName ≠ "" then p.teamName else firstLabel t ps := by
  by_cases hc : p.teamColor = t
  · by_cases hn : p.teamName = ""
    · simp [firstLabel, List.filter_cons, hc, hn]
    · simp [firstLabel, List.filter_cons, hc, hn]
  · simp [firstLabel, List.filter_cons, hc]

/-- The name adopted after one more player: the name before if there was one, else the
first non-empty label from that player on. -/
theorem canonical_cons (t : bz_eTeamType) (n : String) (p : MatchParticipant)
    (pre : List MatchParticipant) :
    (if n = "" then firstLabel t (p :: pre) else n) =
      (if labelNext t n p = "" then firstLabel t pre else labelNext t n p) := by
  rw [firstLabel_cons]
  by_cases hn : n = ""
  · by_cases hc : p.teamColor = t
    · by_cases hl : p.teamName = ""
      · simp [labelNext, hn, hc, hl]
      · simp [labelNext, hn, hc, hl]
    · simp [labelNext, hn, hc]
  · simp [labelNext, hn]

/-- The canonical name a scan ends with. -/
theorem scanTeam_name (t : bz_eTeamType) (ps : List MatchParticipant) (n : String)
    (e : Bool) :
    (scanTeam t ps (n, e)).1 = if n = "" then firstLabel t ps else n := by
  induction ps generalizing n e with
  | nil =>
    by_cases hn : n = ""
    · simp [scanTeam, firstLabel, hn]
    · simp [scanTeam, hn]
  | cons p rest ih =>
    show (scanTeam t rest (labelNext t n p, e || labelFlag t n p)).1 = _
    rw [ih, canonical_cons]

/-- When a scan flags the colour: the flag was set before, or some player of the colour
carries a label different from the non-empty name adopted before that player. -/
theorem scanTeam_flag_iff (t : bz_eTeamType) (ps : List MatchParticipant) (n : String)
    (e : Bool) :
    (scanTeam t ps (n, e)).2 = true ↔
      e = true ∨ ∃ pre q post, ps = pre ++ q :: post ∧ q.teamColor = t ∧
        (if n = "" then firstLabel t pre else n) ≠ "" ∧
        q.teamName ≠ (if n = "" then firstLabel t pre else n) := by
  induction ps generalizing n e with
  | nil => simp [scanTeam]
  | cons p rest ih =>
    show (scanTeam t rest (labelNext t n p, e || labelFlag t n p)).2 = true ↔ _
    rw [ih]
    constructor
    · rintro (h1 | ⟨pre, q, post, hps, hq, hne, hdiff⟩)
      · rcases Bool.or_eq_true _ _ ▸ h1 with h1 | h1
        · exact Or.inl h1
        · right
          simp only [labelFlag, Bool.and_eq_true, decide_eq_true_eq] at h1
          refine ⟨[], p, rest, rfl, h1.1, ?_, ?_⟩
          · simp [h1.2.1]
          · simp only [if_neg h1.2.1]
            exact fun hx => h1.2.2 hx.symm
      · right
        refine ⟨p :: pre, q, post, by rw [hps]; rfl, hq, ?_, ?_⟩
        · rw [canonical_cons]; exact hne
        · rw [canonical_cons]; exact hdiff
    · rintro (h1 | ⟨pre, q, post, hps, hq, hne, hdiff⟩)
      · left
        simp [h1]
      · cases pre with
        | nil =>
          left
          obtain ⟨hp, _⟩ := List.cons.inj hps
          subst hp
          have hn : n ≠ "" := by
            intro hn
            apply hne
            simp [hn, firstLabel]
          simp only [if_neg hn] at hdiff
          simp [labelFlag, hq, hn, Ne.symm hdiff]
        | cons p2 pre2 =>
          right
          obtain ⟨hp, hrest⟩ := List.cons.inj hps
          subst hp
          refine ⟨pre2, q, post, hrest, hq, ?_, ?_⟩
          · rw [← canonical_cons]; exact hne
          · rw [← canonical_cons]; exact hdiff

/-- A colour is flagged by a scan from scratch exactly when it is flagged in the sense of
`flaggedBy`. -/
theorem scanTeam_flaggedBy (t : bz_eTeamType) (ps : List MatchParticipant) :
    (scanTeam t ps ("", false)).2 = true ↔ flaggedBy t ps := by
  rw [scanTeam_flag_iff]
  simp [flaggedBy]

/-- C26 (amended): a roll call flags a designated colour exactly when some sampled player
of that colour carries a label, empty or not, that differs from the first non-empty label
carried by an earlier sampled player of the colour. Two different non-empty labels on a
colour therefore flag it, and so does an empty label that follows a non-empty one. -/
theorem rollCall_flags_differing_label (s : LeagueOverseer)
    (players : List bz_BasePlayerRecord) (recorded : List MatchParticipant) :
    ((rollCallLoop s players (RollCall.start recorded)).teamOneError = true ↔
      flaggedBy s.TEAM_ONE (sampled s players)) ∧
    ((rollCallLoop s players (RollCall.start recorded)).teamTwoError = true ↔
      flaggedBy s.TEAM_TWO (sampled s players)) ∧
    (∀ team a b, a ∈ sampled s players → b ∈ sampled s players →
      a.teamColor = team → b.teamColor = team → a.teamName ≠ "" → b.teamName ≠ "" →
      a.teamName ≠ b.teamName → flaggedBy team (sampled s players)) ∧
    (∀ team pre q post, sampled s players = pre ++ q :: post → q.teamColor = team →
      firstLabel team pre ≠ "" → q.teamName = "" → flaggedBy team (sampled s players)) := by
  refine ⟨?_, ?_, ?_, ?_⟩
  · rw [← scanTeam_flaggedBy]
    have := congrArg Prod.snd (rollCallLoop_scanOne s players (RollCall.start recorded))
    exact Eq.to_iff (congrArg (fun b => b = true) this)
  · rw [← scanTeam_flaggedBy]
    have := congrArg Prod.snd (rollCallLoop_scanTwo s players (RollCall.start recorded))
    exact Eq.to_iff (congrArg (fun b => b = true) this)
  · intro team a b ha hb hat hbt hla hlb hab
    rw [← scanTeam_flaggedBy]
    exact scanTeam_conflict team _ _ a b ha hb hat hbt hla hlb hab
  · intro team pre q post hps hq hne hl
    exact ⟨pre, q, post, hps, hq, hne, by rw [hl]; exact fun hx => hne hx.symm⟩

/-- Witness for C26: ann carries the label Reds, bob after her carries none, and red is
flagged. -/
theorem rollCall_flags_differing_label_witness :
    flaggedBy eRedTeam (sampled sampleHalfLabelled sampleHost.players) ∧
    (rollCallLoop sampleHalfLabelled sampleHost.players (RollCall.start [])).teamOneError =
      true :=
  ⟨⟨[⟨"101", "ann", "10.0.0.1", "Reds", eRedTeam⟩], ⟨"102", "bob", "10.0.0.2", "", eRedTeam⟩,
      [⟨"103", "cy", "10.0.0.3", "Greens", eGreenTeam⟩,
       ⟨"104", "dee", "10.0.0.4", "Greens", eGreenTeam⟩],
      by decide, rfl, by decide, by decide⟩,
   (rollCall_flags_differing_label sampleHalfLabelled sampleHost.players []).1.2
     ⟨[⟨"101", "ann", "10.0.0.1", "Reds", eRedTeam⟩], ⟨"102", "bob", "10.0.0.2", "", eRedTeam⟩,
      [⟨"103", "cy", "10.0.0.3", "Greens", eGreenTeam⟩,
       ⟨"104", "dee", "10.0.0.4", "Greens", eGreenTeam⟩],
      by decide, rfl, by decide, by decide⟩⟩

/-- C26, counterexample: the roll call over ann (Reds), bob (no label), cy and
dee (Greens) flags red, and is invalid, although no two players of any colour carry
different non-empty labels: the unlabelled bob alone causes the flag. -/
theorem rollCall_flags_empty_label :
    sampled sampleHalfLabelled sampleHost.players =
      [⟨"101", "ann", "10.0.0.1", "Reds", eRedTeam⟩, ⟨"102", "bob", "10.0.0.2", "", eRedTeam⟩,
       ⟨"103", "cy", "10.0.0.3", "Greens", eGreenTeam⟩,
       ⟨"104", "dee", "10.0.0.4", "Greens", eGreenTeam⟩] ∧
    (rollCallLoop sampleHalfLabelled sampleHost.players (RollCall.start [])).teamOneError =
      true ∧
    (rollCallLoop sampleHalfLabelled sampleHost.players
      (RollCall.start [])).invalidateRollcall = true ∧
    ¬ (∃ a ∈ sampled sampleHalfLabelled sampleHost.players,
        ∃ b ∈ sampled sampleHalfLabelled sampleHost.players,
          a.teamColor = b.teamColor ∧ a.teamName ≠ "" ∧ b.teamName ≠ "" ∧
          a.teamName ≠ b.teamName) := by
  refine ⟨by decide, by decide, by decide, by decide⟩

/-- Folding `validateTeamName` from any start gives the name and the flag of the scan. -/
theorem foldl_validateTeamName (team : bz_eTeamType) (ps : List MatchParticipant)
    (i e : Bool) (n : String) :
    (ps.foldl (fun acc p => validateTeamName acc.1 acc.2.1 p acc.2.2 team) (i, e, n)).2.2 =
        (scanTeam team ps (n, e)).1 ∧
    (ps.foldl (fun acc p => validateTeamName acc.1 acc.2.1 p acc.2.2 team) (i, e, n)).2.1 =
        (scanTeam team ps (n, e)).2 := by
  induction ps generalizing i e n with
  | nil => exact ⟨rfl, rfl⟩
  | cons p rest ih =>
    rw [List.foldl_cons]
    show ((rest.foldl _ (validateTeamName i e p n team)).2.2 = _) ∧
      ((rest.foldl _ (validateTeamName i e p n team)).2.1 = _)
    rw [validateTeamName_eq]
    exact ih _ _ _

/-- Players of other colours do not count for the first label of a colour. -/
theorem firstLabel_filter (team : bz_eTeamType) (ps : List MatchParticipant) :
    firstLabel team (ps.filter (fun p => decide (p.teamColor = team))) = firstLabel team ps := by
  induction ps with
  | nil => rfl
  | cons p rest ih =>
    by_cases hc : p.teamColor = team
    · rw [List.filter_cons_of_pos (by simpa using hc), firstLabel_cons, firstLabel_cons, ih]
    · rw [List.filter_cons_of_neg (by simpa using hc), firstLabel_cons, ih]
      simp [hc]

/-- The first label of a colour is that of the first player of the colour who has one. -/
theorem firstLabel_first (team : bz_eTeamType) (pre : List MatchParticipant)
    (q : MatchParticipant) (post : List MatchParticipant)
    (hpre : ∀ p ∈ pre, p.teamColor = team → p.teamName = "")
    (hq : q.teamColor = team) (hl : q.teamName ≠ "") :
    firstLabel team (pre ++ q :: post) = q.teamName := by
  induction pre with
  | nil =>
    rw [List.nil_append, firstLabel_cons]
    simp [hq, hl]
  | cons p rest ih =>
    rw [List.cons_append, firstLabel_cons]
    have hp : ¬ (p.teamColor = team ∧ p.teamName ≠ "") :=
      fun hx => hx.2 (hpre p (List.mem_cons_self _ _) hx.1)
    rw [if_neg hp]
    exact ih (fun x hx => hpre x (List.mem_cons_of_mem _ hx))

/-- A colour none of whose players has a label has the empty first label. -/
theorem firstLabel_none (team : bz_eTeamType) (ps : List MatchParticipant)
    (hps : ∀ p ∈ ps, p.teamColor = team → p.teamName = "") : firstLabel team ps = "" := by
  induction ps with
  | nil => rfl
  | cons p rest ih =>
    rw [firstLabel_cons]
    have hp : ¬ (p.teamColor = team ∧ p.teamName ≠ "") :=
      fun hx => hx.2 (hps p (List.mem_cons_self _ _) hx.1)
    rw [if_neg hp]
    exact ih (fun x hx => hps x (List.mem_cons_of_mem _ hx))

/-- C27: folding `validateTeamName` over players in enumeration order, the canonical name
obtained for a colour is the first non-empty label among the players of that colour, the
empty string when none has one: the label of the first labelled player of the colour wins
whatever labels follow, players of other colours change nothing, and the roll call's two
canonical names are those first labels of the designated colours. -/
theorem canonical_name_first_seen (team : bz_eTeamType) (ps : List MatchParticipant) :
    (validateFold team ps).2.2 = firstLabel team ps ∧
    (validateFold team (ps.filter (fun p => decide (p.teamColor = team)))).2.2 =
      (validateFold team ps).2.2 ∧
    (∀ pre q post, ps = pre ++ q :: post →
      (∀ p ∈ pre, p.teamColor = team → p.teamName = "") →
      q.teamColor = team → q.teamName ≠ "" → (validateFold team ps).2.2 = q.teamName) ∧
    ((∀ p ∈ ps, p.teamColor = team → p.teamName = "") → (validateFold team ps).2.2 = "") ∧
    (∀ (s : LeagueOverseer) (players : List bz_BasePlayerRecord)
        (recorded : List MatchParticipant),
      (rollCallLoop s players (RollCall.start recorded)).teamOneMotto =
        firstLabel s.TEAM_ONE (sampled s players) ∧
      (rollCallLoop s players (RollCall.start recorded)).teamTwoMotto =
        firstLabel s.TEAM_TWO (sampled s players)) := by
  have hfold : ∀ qs : List MatchParticipant, (validateFold team qs).2.2 = firstLabel team qs := by
    intro qs
    show (qs.foldl _ (false, false, "")).2.2 = _
    rw [(foldl_validateTeamName team qs false false "").1, scanTeam_name, if_pos rfl]
  refine ⟨hfold ps, ?_, ?_, ?_, ?_⟩
  · rw [hfold, hfold, firstLabel_filter]
  · intro pre q post hps hpre hq hl
    rw [hfold, hps]
    exact firstLabel_first team pre q post hpre hq hl
  · intro hnone
    rw [hfold]
    exact firstLabel_none team ps hnone
  · intro s players recorded
    constructor
    · have := congrArg Prod.fst (rollCallLoop_scanOne s players (RollCall.start recorded))
      exact this.trans (by rw [scanTeam_name]; rfl)
    · have := congrArg Prod.fst (rollCallLoop_scanTwo s players (RollCall.start recorded))
      exact this.trans (by rw [scanTeam_name]; rfl)

/-- Witness for C27: an unlabelled red player, a green player labelled Apes, then red
players labelled Zebras and Apes: the canonical red name is Zebras. -/
theorem canonical_name_first_seen_witness :
    (validateFold eRedTeam
      [⟨"101", "ann", "10.0.0.1", "", eRedTeam⟩, ⟨"103", "cy", "10.0.0.3", "Apes", eGreenTeam⟩,
       ⟨"102", "bob", "10.0.0.2", "Zebras", eRedTeam⟩,
       ⟨"105", "eve", "10.0.0.5", "Apes", eRedTeam⟩]).2.2 = "Zebras" :=
  (canonical_name_first_seen eRedTeam
      [⟨"101", "ann", "10.0.0.1", "", eRedTeam⟩, ⟨"103", "cy", "10.0.0.3", "Apes", eGreenTeam⟩,
       ⟨"102", "bob", "10.0.0.2", "Zebras", eRedTeam⟩,
       ⟨"105", "eve", "10.0.0.5", "Apes", eRedTeam⟩]).2.2.1
    [⟨"101", "ann", "10.0.0.1", "", eRedTeam⟩, ⟨"103", "cy", "10.0.0.3", "Apes", eGreenTeam⟩]
    ⟨"102", "bob", "10.0.0.2", "Zebras", eRedTeam⟩ [⟨"105", "eve", "10.0.0.5", "Apes", eRedTeam⟩]
    rfl (by decide) rfl (by decide)

/-! ## Missing identities and committed participants -/

/-- A sampled player without stable identity makes the roll call invalid. -/
theorem rollCallLoop_missing_identity (s : LeagueOverseer) (ps : List bz_BasePlayerRecord)
    (r : RollCall) (q : bz_BasePlayerRecord) (hq : q ∈ ps) (hqo : q.team ≠ eObservers)
    (hqid : q.bzID = "") : (rollCallLoop s ps r).invalidateRollcall = true := by
  induction ps generalizing r with
  | nil => cases hq
  | cons p rest ih =>
    rw [rollCallLoop_cons]
    rcases List.mem_cons.1 hq with hp | hp
    · subst hp
      apply rollCallLoop_invalid_mono
      rw [rollCallStep_player s r q hqo]
      simp [hqid]
    · exact ih _ hp

/-- Observers take no part in the roll call. -/
theorem rollCallLoop_observers (s : LeagueOverseer) (ps : List bz_BasePlayerRecord)
    (r : RollCall) :
    rollCallLoop s (ps.filter (fun p => decide (p.team ≠ eObservers))) r =
      rollCallLoop s ps r := by
  induction ps generalizing r with
  | nil => rfl
  | cons p rest ih =>
    by_cases ho : p.team = eObservers
    · rw [List.filter_cons_of_neg (by simpa using ho), rollCallLoop_cons,
        rollCallStep_observer s r p ho]
      exact ih r
    · rw [List.filter_cons_of_pos (by simpa using ho), rollCallLoop_cons, rollCallLoop_cons]
      exact ih _

/-- C28: on a tick whose roll call is due, a connected non-observer with an empty stable
identity makes the roll call invalid whatever the labels are; if the roll-call delay plus 30
is less than the planned duration the tick returns with `participants` empty and the delay
60 larger. Observers take no part: the roll call over a player list is the roll call over
its non-observers. -/
theorem rollCall_missing_identity (s : LeagueOverseer) (h : Host) (m : OfficialMatch)
    (hm : s.officialMatch = some m) (hdue : rollCallDue s h m = true)
    (q : bz_BasePlayerRecord) (hq : q ∈ h.players) (hqo : q.team ≠ eObservers)
    (hqid : q.bzID = "") :
    (rollCallLoop s h.players (RollCall.start m.matchParticipants)).invalidateRollcall = true ∧
    (s.MATCH_ROLLCALL + 30 < m.duration →
      ∃ (r : Step) (m' : OfficialMatch),
        Event s h bz_EventData.bz_eTickEvent = EventResult.returned r ∧
        r.state.officialMatch = some m' ∧ m'.matchParticipants = [] ∧
        r.state.MATCH_ROLLCALL = s.MATCH_ROLLCALL + 60) ∧
    (∀ (ps : List bz_BasePlayerRecord) (r0 : RollCall),
      rollCallLoop s (ps.filter (fun p => decide (p.team ≠ eObservers))) r0 =
        rollCallLoop s ps r0) := by
  refine ⟨rollCallLoop_missing_identity s h.players _ q hq hqo hqid, fun htime => ?_,
    rollCallLoop_observers s⟩
  obtain ⟨mc, _, hdur, hpart, _, htick⟩ := tick_official s h m hm
  have hempty : m.matchParticipants = [] := ((rollCallDue_iff s h m).1 hdue).2.2
  have hinv := rollCallLoop_missing_identity { s with officialMatch := some mc } h.players
    (RollCall.start mc.matchParticipants) q hq hqo hqid
  have hrun := (rollCallRun_state { s with officialMatch := some mc } h mc
    (hpart.trans hempty)).1 ⟨hinv, by rw [hdur]; exact htime⟩
  rw [hdue, if_pos rfl] at htick
  refine ⟨_, { mc with matchParticipants := [] }, congrArg EventResult.returned htick,
    ?_, rfl, ?_⟩
  · show (rollCallRun _ h mc).state.officialMatch = _
    rw [hrun]
  · show (rollCallRun _ h mc).state.MATCH_ROLLCALL = _
    rw [hrun]

/-- Witness for C28: 900 seconds into the sample match no label is cached and a
red guest plays without identity. -/
theorem rollCall_missing_identity_witness :
    samplePlaying.officialMatch = some sampleMatch ∧
    rollCallDue samplePlaying sampleGuestHost sampleMatch = true ∧
    (rollCallLoop samplePlaying sampleGuestHost.players (RollCall.start [])).teamOneError =
      false ∧
    (rollCallLoop samplePlaying sampleGuestHost.players (RollCall.start [])).teamTwoError =
      false ∧
    ∃ (r : Step) (m' : OfficialMatch),
      Event samplePlaying sampleGuestHost bz_EventData.bz_eTickEvent =
        EventResult.returned r ∧
      r.state.officialMatch = some m' ∧ m'.matchParticipants = [] ∧
      r.state.MATCH_ROLLCALL = 90 + 60 :=
  ⟨rfl, by decide, by decide, by decide,
   (rollCall_missing_identity samplePlaying sampleGuestHost sampleMatch rfl (by decide)
     ⟨5, "guest", "", "10.0.0.9", eRedTeam, false, false⟩ (by decide) (by decide) rfl).2.1
     (by decide)⟩

/-- C29: while the match holds a non-empty participants list the roll call is not due, and
no event changes the list, content or order: a tick returns with the list and the roll-call
delay as they were and no identity-refresh request; every other event, returning or not,
leaves the list as it was, except the game-end event that returns and destroys the match;
slash commands and job completions leave it as it was too. -/
theorem participants_committed_once (s : LeagueOverseer) (h : Host) (m : OfficialMatch)
    (hm : s.officialMatch = some m) (hp : m.matchParticipants ≠ []) :
    rollCallDue s h m = false ∧
    (∃ (r : Step) (m' : OfficialMatch),
      Event s h bz_EventData.bz_eTickEvent = EventResult.returned r ∧
      r.state.officialMatch = some m' ∧ m'.matchParticipants = m.matchParticipants ∧
      r.state.MATCH_ROLLCALL = s.MATCH_ROLLCALL ∧ refreshRequests r.actions = []) ∧
    (∀ (e : bz_EventData) (r : Step),
      Event s h e = EventResult.returned r ∨ Event s h e = EventResult.raised r →
      (e = bz_EventData.bz_eGameEndEvent ∧ r.state.officialMatch = none) ∨
      ∃ m', r.state.officialMatch = some m' ∧ m'.matchParticipants = m.matchParticipants) ∧
    (∀ (playerData : bz_BasePlayerRecord) (command : String) (params : List String)
        (r : Step) (handled : Bool),
      SlashCommand s h playerData command params = some (r, handled) →
      ∃ m', r.state.officialMatch = some m' ∧ m'.matchParticipants = m.matchParticipants) ∧
    (∀ (siteData : String) (properJSON : Bool) (errorCode : Int) (errorString : String),
      (URLDone s siteData properJSON).state = s ∧ (URLTimeout s errorCode).state = s ∧
      (URLError s errorCode errorString).state = s) := by
  have hdue : rollCallDue s h m = false := by
    cases hd : rollCallDue s h m with
    | false => rfl
    | true => exact absurd ((rollCallDue_iff s h m).1 hd).2.2 hp
  refine ⟨hdue, ?_, fun e r hr => ?_, fun playerData command params r handled hres => ?_,
    fun siteData properJSON errorCode errorString => ⟨URLDone_state s siteData properJSON,
      rfl, rfl⟩⟩
  · obtain ⟨mc, _, _, hpart, hreq, htick⟩ := tick_official s h m hm
    rw [hdue] at htick
    exact ⟨_, mc, congrArg EventResult.returned htick, rfl, hpart, rfl, hreq⟩
  · rcases Event_participants s h e r hr m hm with ⟨hn, he⟩ | ⟨m', hm', hparts⟩
    · exact Or.inl ⟨he, hn⟩
    · rcases hparts with hparts | ⟨_, hempty, _, _⟩
      · exact Or.inr ⟨m', hm', hparts⟩
      · exact absurd hempty hp
  · rcases (SlashCommand_effect s h playerData command params r handled hres).2 with
      h1 | ⟨m2, hm2, _, h1⟩ | ⟨hn, _, _, _, _⟩
    · rw [h1]
      exact ⟨m, hm, rfl⟩
    · rw [h1]
      rw [hm] at hm2
      rw [← Option.some.inj hm2]
      exact ⟨_, rfl, rfl⟩
    · rw [hm] at hn
      cases hn

/-- Witness for C29: 950 seconds into the recorded sample match a tick leaves the roster
of four as it is. -/
theorem participants_committed_once_witness :
    sampleLate.officialMatch = some { sampleRecorded with startTime := 50 } ∧
    sampleRecorded.matchParticipants = sampleRoster ∧ sampleRoster ≠ [] ∧
    ∃ (r : Step) (m' : OfficialMatch),
      Event sampleLate sampleHost bz_EventData.bz_eTickEvent = EventResult.returned r ∧
      r.state.officialMatch = some m' ∧ m'.matchParticipants = sampleRoster ∧
      r.state.MATCH_ROLLCALL = 90 ∧ refreshRequests r.actions = [] :=
  ⟨rfl, rfl, by decide,
   (participants_committed_once sampleLate sampleHost { sampleRecorded with startTime := 50 }
     rfl (by decide)).2.1⟩

/-- C30, at the failing input: on a map with slots for all four colours `Init` designates
red and green; during the sample match, at 3 : 2, a capture by blue, which is neither
designated colour, returns with `teamTwoPoints` raised from 2 to 3. -/
theorem capture_third_colour_counts :
    (Init sampleFourWayHost sampleConfig "" false).TEAM_ONE = eRedTeam ∧
    (Init sampleFourWayHost sampleConfig "" false).TEAM_TWO = eGreenTeam ∧
    samplePlaying.TEAM_ONE = eRedTeam ∧ samplePlaying.TEAM_TWO = eGreenTeam ∧
    samplePlaying.officialMatch = some sampleMatch ∧ sampleMatch.teamOnePoints = 3 ∧
    sampleMatch.teamTwoPoints = 2 ∧
    Event samplePlaying sampleFourWayHost (bz_EventData.bz_eCaptureEvent eBlueTeam) =
      EventResult.returned
        ⟨{ samplePlaying with officialMatch := some { sampleMatch with teamTwoPoints := 3 } },
         []⟩ := by
  refine ⟨by decide, by decide, rfl, rfl, rfl, rfl, rfl, by decide⟩

/-! ## The roll-call delay over runs of calls -/

/-- The roll-call half of a tick adds 60 to the delay exactly when the roll call is due,
invalid and there is time for another attempt. -/
theorem tickRollCall_delay (c : LeagueOverseer) (h : Host) :
    (tickRollCall c h).state.MATCH_ROLLCALL = c.MATCH_ROLLCALL +
      (if (match c.officialMatch with
           | some m =>
             rollCallDue c h m &&
               ((rollCallLoop c h.players (RollCall.start m.matchParticipants)).invalidateRollcall &&
                 decide (c.MATCH_ROLLCALL + 30 < m.duration))
           | none => false) = true then 60 else 0) := by
  cases hm : c.officialMatch with
  | none =>
    simp [tickRollCall, hm]
  | some m =>
    rw [tickRollCall_eq c h m hm]
    by_cases hd : rollCallDue c h m = true
    · rw [if_pos hd]
      unfold rollCallRun
      simp only
      by_cases hc : (rollCallLoop c h.players (RollCall.start m.matchParticipants)).invalidateRollcall
          = true ∧ c.MATCH_ROLLCALL + 30 < m.duration
      · rw [if_pos hc]
        simp [hd, hc.1, hc.2]
      · rw [if_neg hc]
        have : ¬ ((rollCallLoop c h.players
            (RollCall.start m.matchParticipants)).invalidateRollcall = true ∧
            decide (c.MATCH_ROLLCALL + 30 < m.duration) = true) := by
          simpa using hc
        simp only [hd, Bool.true_and, Bool.and_eq_true]
        rw [if_neg this]
        simp
    · rw [if_neg hd]
      have hd2 : rollCallDue c h m = false := by simpa using hd
      simp [hd2]

/-- A tick adds 60 to the delay exactly when it invalidates its roll call and retries. -/
theorem tick_delay (s : LeagueOverseer) (h : Host) :
    (Event_bz_eTickEvent s h).state.MATCH_ROLLCALL =
      s.MATCH_ROLLCALL + (if rollCallRetried s h then 60 else 0) := by
  show (tickRollCall (tickCleanup s h).state h).state.MATCH_ROLLCALL = _
  rw [tickRollCall_delay]
  unfold rollCallRetried
  simp only [(tickCleanup_settings s h).2]

/-- Every event but the tick leaves the delay as it was. -/
theorem Event_delay (s : LeagueOverseer) (h : Host) (e : bz_EventData) (r : Step)
    (he : e ≠ bz_EventData.bz_eTickEvent)
    (hr : Event s h e = EventResult.returned r ∨ Event s h e = EventResult.raised r) :
    r.state.MATCH_ROLLCALL = s.MATCH_ROLLCALL := by
  cases e with
  | bz_eCaptureEvent t =>
    rcases hr with hr | hr
    · rw [← EventResult.returned.inj hr]
      unfold Event_bz_eCaptureEvent
      split
      · split <;> rfl
      · rfl
    · exact EventResult.noConfusion hr
  | bz_eGameEndEvent =>
    rcases hr with hr | hr
    · rw [gameEnd_returned_resets s h r hr]
    · rw [Event_raised_state s h _ r hr]
  | bz_eGameStartEvent =>
    rcases hr with hr | hr
    · rw [← EventResult.returned.inj hr]
      unfold Event_bz_eGameStartEvent
      simp only
      split <;> rfl
    · exact EventResult.noConfusion hr
  | bz_eGetPlayerMotto record =>
    rcases hr with hr | hr
    · rw [← EventResult.returned.inj hr]
      rfl
    · exact EventResult.noConfusion hr
  | bz_ePlayerJoinEvent playerID record =>
    rcases hr with hr | hr
    · rw [← EventResult.returned.inj hr]
      rfl
    · exact EventResult.noConfusion hr
  | bz_eSlashCommandEvent sender message =>
    rcases hr with hr | hr
    · rw [← EventResult.returned.inj hr]
      show (Event_bz_eSlashCommandEvent s sender message).state.MATCH_ROLLCALL = _
      rw [Event_bz_eSlashCommandEvent_state]
    · exact EventResult.noConfusion hr
  | bz_eTickEvent => exact absurd rfl he

/-- No slash command changes the delay. -/
theorem SlashCommand_delay (s : LeagueOverseer) (h : Host) (playerData : bz_BasePlayerRecord)
    (command : String) (params : List String) (r : Step) (handled : Bool)
    (hres : SlashCommand s h playerData command params = some (r, handled)) :
    r.state.MATCH_ROLLCALL = s.MATCH_ROLLCALL := by
  rcases (SlashCommand_effect s h playerData command params r handled hres).2 with
    h1 | ⟨m, _, _, h1⟩ | ⟨_, _, _, _, h1⟩ <;> rw [h1]

/-- The state an event call stops in, by the result of the event. -/
theorem afterCall_event (s : LeagueOverseer) (h : Host) (e : bz_EventData) :
    ∃ r, (Event s h e = EventResult.returned r ∨ Event s h e = EventResult.raised r) ∧
      afterCall s (HostCall.event h e) = r.state := by
  cases hr : Event s h e with
  | returned r => exact ⟨r, Or.inl rfl, by simp [afterCall, hr]⟩
  | raised r => exact ⟨r, Or.inr rfl, by simp [afterCall, hr]⟩

/-- A call adds 60 to the delay when it is a tick whose roll call is retried, and leaves
the delay as it was otherwise. -/
theorem afterCall_delay (s : LeagueOverseer) (c : HostCall) :
    (afterCall s c).MATCH_ROLLCALL =
      s.MATCH_ROLLCALL + (if callRetried s c then 60 else 0) := by
  cases c with
  | event h e =>
    by_cases he : e = bz_EventData.bz_eTickEvent
    · subst he
      exact tick_delay s h
    · obtain ⟨r, hr, hst⟩ := afterCall_event s h e
      rw [hst, Event_delay s h e r he hr]
      have : callRetried s (HostCall.event h e) = false := by
        cases e <;> first | rfl | exact absurd rfl he
      rw [this]
      simp
  | slashCommand h playerData command params =>
    cases hres : SlashCommand s h playerData command params with
    | none => simp [afterCall, hres, callRetried]
    | some rb =>
      obtain ⟨r, b⟩ := rb
      have := SlashCommand_delay s h playerData command params r b hres
      simp [afterCall, hres, callRetried, this]
  | urlDone siteData properJSON =>
    show (URLDone s siteData properJSON).state.MATCH_ROLLCALL = _
    rw [URLDone_state]
    simp [callRetried]
  | urlTimeout errorCode => simp [afterCall, callRetried, URLTimeout]
  | urlError errorCode errorString => simp [afterCall, callRetried, URLError]

/-- After a sequence of calls the delay has grown by 60 for every retried roll call. -/
theorem afterCalls_delay (s : LeagueOverseer) (calls : List HostCall) :
    (afterCalls s calls).MATCH_ROLLCALL = s.MATCH_ROLLCALL + 60 * retries s calls := by
  induction calls generalizing s with
  | nil => simp [afterCalls, retries]
  | cons c rest ih =>
    show (afterCalls (afterCall s c) rest).MATCH_ROLLCALL = _
    rw [ih, afterCall_delay,
      show retries s (c :: rest) =
        (if callRetried s c then 1 else 0) + retries (afterCall s c) rest from rfl]
    split <;> push_cast <;> omega

/-- What an event other than game end does to an official match: the match stays, a
canceled match stays canceled, and unless the event is the game start the planned duration
stays. -/
theorem Event_match (s : LeagueOverseer) (h : Host) (e : bz_EventData) (r : Step)
    (he : e ≠ bz_EventData.bz_eGameEndEvent)
    (hr : Event s h e = EventResult.returned r ∨ Event s h e = EventResult.raised r)
    (m : OfficialMatch) (hm : s.officialMatch = some m) :
    ∃ m', r.state.officialMatch = some m' ∧ (m.canceled = true → m'.canceled = true) ∧
      (e ≠ bz_EventData.bz_eGameStartEvent → m'.duration = m.duration) := by
  cases e with
  | bz_eCaptureEvent t =>
    rcases hr with hr | hr
    · rw [← EventResult.returned.inj hr]
      by_cases hc : t = s.TEAM_ONE
      · exact ⟨{ m with teamOnePoints := wrapInt (m.teamOnePoints + 1) },
          by simp [Event_bz_eCaptureEvent, hm, hc], id, fun _ => rfl⟩
      · exact ⟨{ m with teamTwoPoints := wrapInt (m.teamTwoPoints + 1) },
          by simp [Event_bz_eCaptureEvent, hm, hc], id, fun _ => rfl⟩
    · exact EventResult.noConfusion hr
  | bz_eGameEndEvent => exact absurd rfl he
  | bz_eGameStartEvent =>
    rcases hr with hr | hr
    · rw [← EventResult.returned.inj hr]
      exact ⟨{ m with teamOnePoints := 0, teamTwoPoints := 0, startTime := h.currentTime,
                      duration := h.timeLimit },
        by simp [Event_bz_eGameStartEvent, hm], id, fun hx => absurd rfl hx⟩
    · exact EventResult.noConfusion hr
  | bz_eGetPlayerMotto record =>
    rcases hr with hr | hr
    · rw [← EventResult.returned.inj hr]
      exact ⟨m, hm, id, fun _ => rfl⟩
    · exact EventResult.noConfusion hr
  | bz_ePlayerJoinEvent playerID record =>
    rcases hr with hr | hr
    · rw [← EventResult.returned.inj hr]
      exact ⟨m, hm, id, fun _ => rfl⟩
    · exact EventResult.noConfusion hr
  | bz_eSlashCommandEvent sender message =>
    rcases hr with hr | hr
    · rw [← EventResult.returned.inj hr]
      refine ⟨m, ?_, id, fun _ => rfl⟩
      show (Event_bz_eSlashCommandEvent s sender message).state.officialMatch = some m
      rw [Event_bz_eSlashCommandEvent_state]
      exact hm
    · exact EventResult.noConfusion hr
  | bz_eTickEvent =>
    rcases hr with hr | hr
    · rw [← EventResult.returned.inj hr]
      have hclean := tickCleanup_official s h m hm
      obtain ⟨mc, hstate, _, hdur, _, _⟩ := tickCleanup_keeps s h m hm
      have hcan : m.canceled = true → mc.canceled = true := by
        intro hx
        rw [hclean] at hstate
        split at hstate
        · have := Option.some.inj (congrArg LeagueOverseer.officialMatch hstate)
          rw [← this]
        · have := congrArg LeagueOverseer.officialMatch hstate
          simp only [hm] at this
          rw [← Option.some.inj this]
          exact hx
      obtain ⟨parts, hparts⟩ := rollCallRun_match { s with officialMatch := some mc } h mc
      by_cases hd : rollCallDue { s with officialMatch := some mc } h mc = true
      · refine ⟨{ mc with matchParticipants := parts }, ?_, hcan, fun _ => hdur⟩
        show (tickRollCall (tickCleanup s h).state h).state.officialMatch = _
        rw [hstate, tickRollCall_eq _ h _ rfl, if_pos hd]
        exact hparts
      · refine ⟨mc, ?_, hcan, fun _ => hdur⟩
        show (tickRollCall (tickCleanup s h).state h).state.officialMatch = _
        rw [hstate, tickRollCall_eq _ h _ rfl, if_neg hd]
    · exact EventResult.noConfusion hr

/-- What a slash command does to an official match: the match stays with its planned
duration, and a canceled match stays canceled. -/
theorem SlashCommand_match (s : LeagueOverseer) (h : Host) (playerData : bz_BasePlayerRecord)
    (command : String) (params : List String) (r : Step) (handled : Bool)
    (hres : SlashCommand s h playerData command params = some (r, handled))
    (m : OfficialMatch) (hm : s.officialMatch = some m) :
    ∃ m', r.state.officialMatch = some m' ∧ (m.canceled = true → m'.canceled = true) ∧
      m'.duration = m.duration := by
  rcases (SlashCommand_effect s h playerData command params r handled hres).2 with
    h1 | ⟨m2, hm2, _, h1⟩ | ⟨hn, _, _, _, _⟩
  · rw [h1]
    exact ⟨m, hm, id, rfl⟩
  · rw [h1]
    rw [hm] at hm2
    rw [← Option.some.inj hm2]
    exact ⟨_, rfl, fun _ => rfl, rfl⟩
  · rw [hm] at hn
    cases hn

/-- What a call other than game end does to an official match. -/
theorem afterCall_match (s : LeagueOverseer) (c : HostCall) (hc : endsGame c = false)
    (m : OfficialMatch) (hm : s.officialMatch = some m) :
    ∃ m', (afterCall s c).officialMatch = some m' ∧ (m.canceled = true → m'.canceled = true) ∧
      (startsOrEndsGame c = false → m'.duration = m.duration) := by
  cases c with
  | event h e =>
    have he : e ≠ bz_EventData.bz_eGameEndEvent := by
      intro hx
      subst hx
      cases hc
    obtain ⟨r, hr, hst⟩ := afterCall_event s h e
    rw [hst]
    obtain ⟨m', h1, h2, h3⟩ := Event_match s h e r he hr m hm
    refine ⟨m', h1, h2, fun hx => h3 ?_⟩
    intro hy
    subst hy
    cases hx
  | slashCommand h playerData command params =>
    cases hres : SlashCommand s h playerData command params with
    | none => exact ⟨m, by simp [afterCall, hres, hm], id, fun _ => rfl⟩
    | some rb =>
      obtain ⟨r, b⟩ := rb
      obtain ⟨m', h1, h2, h3⟩ := SlashCommand_match s h playerData command params r b hres m hm
      exact ⟨m', by simp [afterCall, hres, h1], h2, fun _ => h3⟩
  | urlDone siteData properJSON =>
    refine ⟨m, ?_, id, fun _ => rfl⟩
    show (URLDone s siteData properJSON).state.officialMatch = some m
    rw [URLDone_state]
    exact hm
  | urlTimeout errorCode => exact ⟨m, hm, id, fun _ => rfl⟩
  | urlError errorCode errorString => exact ⟨m, hm, id, fun _ => rfl⟩

/-- A roll call is retried only while the delay plus 30 is less than the planned
duration. -/
theorem callRetried_time (s : LeagueOverseer) (c : HostCall) (m : OfficialMatch)
    (hm : s.officialMatch = some m) (hc : callRetried s c = true) :
    s.MATCH_ROLLCALL + 30 < m.duration := by
  cases c with
  | event h e =>
    cases e with
    | bz_eTickEvent =>
      obtain ⟨mc, hstate, _, hdur, _, _⟩ := tickCleanup_keeps s h m hm
      have hc2 : rollCallRetried s h = true := hc
      unfold rollCallRetried at hc2
      simp only [hstate, Bool.and_eq_true, decide_eq_true_eq] at hc2
      rw [← hdur]
      exact hc2.2.2
    | _ => cases hc
  | _ => cases hc

/-- The retry bound in the words of the claim: the ceiling of `(D - 30 - R) / 60`, or 0
when that is negative. -/
theorem retryBound_eq_ceil (D R : Int) :
    (retryBound D R : Int) = max 0 ⌈((D - 30 - R : Int) : ℚ) / 60⌉ := by
  unfold retryBound
  have h60 : (0 : ℚ) < 60 := by norm_num
  have hc : ⌈((D - 30 - R : Int) : ℚ) / 60⌉ = (D - 30 - R + 59) / 60 := by
    rw [Int.ceil_eq_iff]
    constructor
    · rw [lt_div_iff₀ h60]
      have : ((D - 30 - R + 59) / 60 - 1) * 60 < (D - 30 - R) := by omega
      exact_mod_cast this
    · rw [div_le_iff₀ h60]
      have : (D - 30 - R) ≤ ((D - 30 - R + 59) / 60) * 60 := by omega
      exact_mod_cast this
  rw [hc]
  omega

/-- Within a match every retried roll call uses up one of the retries the bound allows. -/
theorem retries_account (s : LeagueOverseer) (m : OfficialMatch)
    (hm : s.officialMatch = some m) (calls : List HostCall)
    (hw : ∀ c ∈ calls, startsOrEndsGame c = false) :
    ∃ m', (afterCalls s calls).officialMatch = some m' ∧ m'.duration = m.duration ∧
      retryBound m.duration (afterCalls s calls).MATCH_ROLLCALL + retries s calls =
        retryBound m.duration s.MATCH_ROLLCALL := by
  induction calls generalizing s m with
  | nil => exact ⟨m, hm, rfl, rfl⟩
  | cons c rest ih =>
    have hc := hw c (List.mem_cons_self _ _)
    have hend : endsGame c = false := by
      cases c with
      | event h e => cases e <;> first | rfl | cases hc
      | _ => rfl
    obtain ⟨m1, hm1, _, hdur1⟩ := afterCall_match s c hend m hm
    obtain ⟨m', hm', hdur', hacc⟩ := ih (afterCall s c) m1 hm1
      (fun x hx => hw x (List.mem_cons_of_mem _ hx))
    refine ⟨m', hm', hdur'.trans (hdur1 hc), ?_⟩
    show retryBound m.duration (afterCalls (afterCall s c) rest).MATCH_ROLLCALL +
      ((if callRetried s c then 1 else 0) + retries (afterCall s c) rest) = _
    rw [hdur1 hc] at hacc
    have hdelay := afterCall_delay s c
    by_cases hr : callRetried s c = true
    · have htime := callRetried_time s c m hm hr
      rw [if_pos hr] at hdelay ⊢
      rw [hdelay] at hacc
      have : retryBound m.duration (s.MATCH_ROLLCALL + 60) + 1 =
          retryBound m.duration s.MATCH_ROLLCALL := by
        unfold retryBound
        omega
      omega
    · rw [if_neg hr] at hdelay ⊢
      rw [hdelay, add_zero] at hacc
      omega

/-- A due roll call with no time left for another attempt commits the players it samples
and leaves the delay as it was. -/
theorem tick_commits (s : LeagueOverseer) (h : Host) (m : OfficialMatch)
    (hm : s.officialMatch = some m) (hdue : rollCallDue s h m = true)
    (htime : ¬ (s.MATCH_ROLLCALL + 30 < m.duration)) :
    ∃ (r : Step) (m' : OfficialMatch),
      Event s h bz_EventData.bz_eTickEvent = EventResult.returned r ∧
      r.state.officialMatch = some m' ∧ m'.matchParticipants = sampled s h.players ∧
      r.state.MATCH_ROLLCALL = s.MATCH_ROLLCALL := by
  obtain ⟨mc, _, hdur, hpart, _, htick⟩ := tick_official s h m hm
  have hempty : m.matchParticipants = [] := ((rollCallDue_iff s h m).1 hdue).2.2
  have hrun := (rollCallRun_state { s with officialMatch := some mc } h mc
    (hpart.trans hempty)).2 (fun hc => htime (by rw [← hdur]; exact hc.2))
  rw [hdue, if_pos rfl, hrun] at htick
  exact ⟨_, { mc with matchParticipants := sampled s h.players },
    congrArg EventResult.returned htick, rfl, rfl, rfl⟩

/-- C31: within one official match of planned duration `D`, over any sequence of calls
that holds no game-start and no game-end event, the number of invalidated and retried roll
calls is at most the ceiling of `(D - 30 - R) / 60`, or 0 when that is negative, `R` being
the delay at the beginning: every retry raises the delay by 60 and uses up one of the
retries the bound allows for the raised delay. Once the bound is used up, a due roll call
commits the players it samples, and when it samples at least one the roll call is never due
again for that list. -/
theorem retries_bounded (s : LeagueOverseer) (m : OfficialMatch)
    (hm : s.officialMatch = some m) (calls : List HostCall)
    (hw : ∀ c ∈ calls, startsOrEndsGame c = false) :
    retries s calls ≤ retryBound m.duration s.MATCH_ROLLCALL ∧
    (retryBound m.duration s.MATCH_ROLLCALL : Int) =
      max 0 ⌈((m.duration - 30 - s.MATCH_ROLLCALL : Int) : ℚ) / 60⌉ ∧
    ∃ m', (afterCalls s calls).officialMatch = some m' ∧ m'.duration = m.duration ∧
      (afterCalls s calls).MATCH_ROLLCALL = s.MATCH_ROLLCALL + 60 * retries s calls ∧
      retryBound m'.duration (afterCalls s calls).MATCH_ROLLCALL + retries s calls =
        retryBound m.duration s.MATCH_ROLLCALL ∧
      ∀ h : Host, retries s calls = retryBound m.duration s.MATCH_ROLLCALL →
        rollCallDue (afterCalls s calls) h m' = true →
        ∃ (r : Step) (m'' : OfficialMatch),
          Event (afterCalls s calls) h bz_EventData.bz_eTickEvent = EventResult.returned r ∧
          r.state.officialMatch = some m'' ∧
          m''.matchParticipants = sampled (afterCalls s calls) h.players ∧
          r.state.MATCH_ROLLCALL = (afterCalls s calls).MATCH_ROLLCALL ∧
          (sampled (afterCalls s calls) h.players ≠ [] →
            ∀ later : Host, rollCallDue r.state later m'' = false) := by
  obtain ⟨m', hm', hdur', hacc⟩ := retries_account s m hm calls hw
  refine ⟨by omega, retryBound_eq_ceil _ _, m', hm', hdur', afterCalls_delay s calls,
    by rw [hdur']; exact hacc, fun h hall hdue => ?_⟩
  have hzero : retryBound m.duration (afterCalls s calls).MATCH_ROLLCALL = 0 := by omega
  have htime : ¬ ((afterCalls s calls).MATCH_ROLLCALL + 30 < m'.duration) := by
    rw [hdur']
    unfold retryBound at hzero
    omega
  obtain ⟨r, m'', h1, h2, h3, h4⟩ := tick_commits (afterCalls s calls) h m' hm' hdue htime
  refine ⟨r, m'', h1, h2, h3, h4, fun hne later => ?_⟩
  cases hd : rollCallDue r.state later m'' with
  | false => rfl
  | true =>
    have := ((rollCallDue_iff r.state later m'').1 hd).2.2
    rw [h3] at this
    exact absurd this hne

/-- Witness for C31: in a match planned for 200 seconds with the delay at 90 the bound is
2; three ticks with a player without identity on the field retry twice, and the third
commits the five players. -/
theorem retries_bounded_witness :
    sampleShort.officialMatch = some { sampleMatch with duration := 200 } ∧
    retryBound 200 90 = 2 ∧
    retries sampleShort [sampleGuestTick, sampleGuestTick, sampleGuestTick] = 2 ∧
    (afterCalls sampleShort [sampleGuestTick, sampleGuestTick]).MATCH_ROLLCALL = 210 ∧
    ((afterCalls sampleShort [sampleGuestTick, sampleGuestTick, sampleGuestTick]).officialMatch.map
      (fun m => m.matchParticipants.length)) = some 5 ∧
    retries sampleShort [sampleGuestTick, sampleGuestTick, sampleGuestTick] ≤
      retryBound ({ sampleMatch with duration := 200 } : OfficialMatch).duration
        sampleShort.MATCH_ROLLCALL :=
  ⟨rfl, by decide, by decide, by decide, by decide,
   (retries_bounded sampleShort { sampleMatch with duration := 200 } rfl
     [sampleGuestTick, sampleGuestTick, sampleGuestTick]
     (fun c hc => by
       simp only [List.mem_cons, List.mem_singleton, List.not_mem_nil, or_false, or_self] at hc
       rw [hc]
       rfl)).1⟩

/-- C32: `Init` sets the roll-call delay to 90; no call ever lowers it, a call raises it,
by 60, exactly when it is a tick whose roll call is invalidated and retried, so after any
sequence of calls since `Init` with `k` such roll calls it is `90 + 60 * k`. `/official`
installs a new match without touching the delay, and the gate of the roll call of whatever
match exists then compares the elapsed time with this value. -/
theorem delay_never_reset (h : Host) (config : PluginConfig) (mapchangeLine : String)
    (RECORDING : Bool) (calls : List HostCall) :
    (Init h config mapchangeLine RECORDING).MATCH_ROLLCALL = 90 ∧
    (afterCalls (Init h config mapchangeLine RECORDING) calls).MATCH_ROLLCALL =
      90 + 60 * retries (Init h config mapchangeLine RECORDING) calls ∧
    (∀ (s : LeagueOverseer) (c : HostCall),
      (afterCall s c).MATCH_ROLLCALL =
        s.MATCH_ROLLCALL + (if callRetried s c then 60 else 0) ∧
      s.MATCH_ROLLCALL ≤ (afterCall s c).MATCH_ROLLCALL) ∧
    (∀ (s : LeagueOverseer) (later : Host) (playerData : bz_BasePlayerRecord)
        (params : List String) (r : Step) (handled : Bool),
      SlashCommand s later playerData "official" params = some (r, handled) →
      r.state.MATCH_ROLLCALL = s.MATCH_ROLLCALL) ∧
    (∀ (later : Host) (m : OfficialMatch),
      rollCallDue (afterCalls (Init h config mapchangeLine RECORDING) calls) later m = true ↔
        0 ≤ m.startTime ∧
        90 + 60 * (retries (Init h config mapchangeLine RECORDING) calls : Int) <
          later.currentTime - m.startTime ∧
        m.matchParticipants = []) := by
  have hrun := afterCalls_delay (Init h config mapchangeLine RECORDING) calls
  have h90 : (Init h config mapchangeLine RECORDING).MATCH_ROLLCALL = 90 := rfl
  rw [h90] at hrun
  refine ⟨h90, hrun, fun s c => ⟨afterCall_delay s c, ?_⟩,
    fun s later playerData params r handled hres =>
      SlashCommand_delay s later playerData "official" params r handled hres,
    fun later m => ?_⟩
  · rw [afterCall_delay]
    split <;> omega
  · rw [rollCallDue_iff, hrun]

/-- Witness for C32: after `Init`, an official match with one retried roll call, its game
end and the `/official` for the next match, the delay in force for the new match is 150. -/
theorem delay_never_reset_witness :
    retries (Init sampleGuestHost sampleConfig "" false) sampleSeason = 1 ∧
    (afterCalls (Init sampleGuestHost sampleConfig "" false) sampleSeason).officialMatch =
      some OfficialMatch.new ∧
    (afterCalls (Init sampleGuestHost sampleConfig "" false) sampleSeason).MATCH_ROLLCALL =
      90 + 60 * retries (Init sampleGuestHost sampleConfig "" false) sampleSeason ∧
    (afterCalls (Init sampleGuestHost sampleConfig "" false) sampleSeason).MATCH_ROLLCALL =
      150 :=
  ⟨by decide, by decide,
   (delay_never_reset sampleGuestHost sampleConfig "" false sampleSeason).2.1, by decide⟩

/-! ## Identity-refresh requests of a retried roll call -/

/-- The source's `requestTeamName (team)` issues the refresh request of every connected
player of the team, in enumeration order. -/
theorem requestTeamNameOfTeam_eq (s : LeagueOverseer) (h : Host) (team : bz_eTeamType) :
    requestTeamNameOfTeam s h team = refreshJobsFor s h team := by
  unfold requestTeamNameOfTeam refreshJobsFor
  generalize h.players.filter (fun playerRecord => decide (playerRecord.team = team)) = l
  induction l with
  | nil => rfl
  | cons p rest ih =>
    rw [List.flatMap_cons, List.map_cons, ih]
    show [HostAction.addURLJob s.LEAGUE_URL
      ("query=teamNameQuery" ++ ("&teamPlayers=" ++ p.bzID))] ++ _ = _
    rw [← String.append_assoc]
    rfl

/-- Refresh requests of two action lists in a row. -/
theorem refreshRequests_append (a b : List HostAction) :
    refreshRequests (a ++ b) = refreshRequests a ++ refreshRequests b := by
  simp [refreshRequests, List.filter_append]

/-- Every request for a team is an identity-refresh request. -/
theorem refreshRequests_refreshJobsFor (s : LeagueOverseer) (h : Host) (team : bz_eTeamType) :
    refreshRequests (refreshJobsFor s h team) = refreshJobsFor s h team := by
  unfold refreshRequests
  rw [List.filter_eq_self]
  intro a ha
  simp only [refreshJobsFor, List.mem_map] at ha
  obtain ⟨p, _, hp⟩ := ha
  rw [← hp]
  rfl

/-- Two filters by predicates that exclude each other, one after the other, hold the
elements of the filter by either. -/
theorem filter_or_perm {α : Type} (p q : α → Bool) (l : List α)
    (hpq : ∀ x ∈ l, p x = true → q x = false) :
    (l.filter p ++ l.filter q).Perm (l.filter (fun x => p x || q x)) := by
  induction l with
  | nil => exact List.Perm.refl _
  | cons x rest ih =>
    have ih2 := ih (fun y hy => hpq y (List.mem_cons_of_mem _ hy))
    cases hp : p x with
    | true =>
      have hq := hpq x (List.mem_cons_self _ _) hp
      simp only [List.filter_cons, hp, hq, Bool.true_or, if_true, Bool.false_eq_true, if_false,
        List.cons_append]
      exact List.Perm.cons x ih2
    | false =>
      cases hq : q x with
      | true =>
        simp only [List.filter_cons, hp, hq, Bool.or_true, if_true, Bool.false_eq_true, if_false]
        exact List.perm_middle.trans (List.Perm.cons x ih2)
      | false =>
        simp only [List.filter_cons, hp, hq, Bool.or_false, Bool.false_eq_true, if_false]
        exact ih2

/-- The requests for the flagged colours, team one's before team two's, against the
flagged players in enumeration order: equal when at most one colour is flagged, the same
requests in another order when both are and the colours differ, and always requests for
flagged players only. -/
theorem refreshJobs_flagged (s : LeagueOverseer) (h : Host) (e1 e2 : Bool) :
    (e1 = false ∨ e2 = false →
      (if e1 then refreshJobsFor s h s.TEAM_ONE else []) ++
        (if e2 then refreshJobsFor s h s.TEAM_TWO else []) =
      (flaggedPlayers s h e1 e2).map (refreshJob s)) ∧
    (s.TEAM_ONE ≠ s.TEAM_TWO →
      ((if e1 then refreshJobsFor s h s.TEAM_ONE else []) ++
        (if e2 then refreshJobsFor s h s.TEAM_TWO else [])).Perm
      ((flaggedPlayers s h e1 e2).map (refreshJob s))) ∧
    (∀ a ∈ (if e1 then refreshJobsFor s h s.TEAM_ONE else []) ++
        (if e2 then refreshJobsFor s h s.TEAM_TWO else []),
      ∃ p ∈ flaggedPlayers s h e1 e2, a = refreshJob s p) := by
  have hone : ∀ b1 b2 : Bool, b1 = false ∨ b2 = false →
      (if b1 then refreshJobsFor s h s.TEAM_ONE else []) ++
        (if b2 then refreshJobsFor s h s.TEAM_TWO else []) =
      (flaggedPlayers s h b1 b2).map (refreshJob s) := by
    intro b1 b2 hb
    cases b1 <;> cases b2 <;> simp [flaggedPlayers, refreshJobsFor] at hb ⊢
  have hperm : s.TEAM_ONE ≠ s.TEAM_TWO →
      (refreshJobsFor s h s.TEAM_ONE ++ refreshJobsFor s h s.TEAM_TWO).Perm
        ((flaggedPlayers s h true true).map (refreshJob s)) := by
    intro hne
    unfold refreshJobsFor flaggedPlayers
    rw [← List.map_append]
    apply List.Perm.map
    simp only [Bool.true_and]
    exact filter_or_perm _ _ h.players (fun x _ hx => by
      have h1 : x.team = s.TEAM_ONE := by simpa using hx
      simp only [decide_eq_false_iff_not]
      intro h2
      exact hne (h1.symm.trans h2))
  refine ⟨hone e1 e2, fun hne => ?_, fun a ha => ?_⟩
  · cases e1 with
    | false => rw [hone false e2 (Or.inl rfl)]
    | true =>
      cases e2 with
      | false => rw [hone true false (Or.inr rfl)]
      | true => exact hperm hne
  · rcases List.mem_append.1 ha with h1 | h1
    · cases e1 with
      | false => cases h1
      | true =>
        simp only [if_true, refreshJobsFor, List.mem_map, List.mem_filter,
          decide_eq_true_eq] at h1
        obtain ⟨p, ⟨hp, ht⟩, hj⟩ := h1
        exact ⟨p, by simp [flaggedPlayers, hp, ht], hj.symm⟩
    · cases e2 with
      | false => cases h1
      | true =>
        simp only [if_true, refreshJobsFor, List.mem_map, List.mem_filter,
          decide_eq_true_eq] at h1
        obtain ⟨p, ⟨hp, ht⟩, hj⟩ := h1
        exact ⟨p, by simp [flaggedPlayers, hp, ht], hj.symm⟩

/-- The identity-refresh requests of a tick whose roll call is invalidated and retried:
those for team one if it was flagged, then those for team two if it was flagged. -/
theorem tick_retry_requests (s : LeagueOverseer) (h : Host) (m : OfficialMatch)
    (hm : s.officialMatch = some m) (hdue : rollCallDue s h m = true)
    (hinv : (rollCallLoop s h.players (RollCall.start [])).invalidateRollcall = true)
    (htime : s.MATCH_ROLLCALL + 30 < m.duration) :
    refreshRequests (Event_bz_eTickEvent s h).actions =
      (if (rollCallLoop s h.players (RollCall.start [])).teamOneError then
        refreshJobsFor s h s.TEAM_ONE else []) ++
      (if (rollCallLoop s h.players (RollCall.start [])).teamTwoError then
        refreshJobsFor s h s.TEAM_TWO else []) := by
  obtain ⟨mc, _, hdur, hpart, hreq, htick⟩ := tick_official s h m hm
  have hempty : m.matchParticipants = [] := ((rollCallDue_iff s h m).1 hdue).2.2
  have hpc : mc.matchParticipants = [] := hpart.trans hempty
  have hloop : rollCallLoop { s with officialMatch := some mc } h.players
      (RollCall.start mc.matchParticipants) = rollCallLoop s h.players (RollCall.start []) := by
    rw [hpc]
    rfl
  have hact : (rollCallRun { s with officialMatch := some mc } h mc).actions =
      (if (rollCallLoop s h.players (RollCall.start [])).teamOneError then
        refreshJobsFor s h s.TEAM_ONE else []) ++
      (if (rollCallLoop s h.players (RollCall.start [])).teamTwoError then
        refreshJobsFor s h s.TEAM_TWO else []) := by
    unfold rollCallRun
    simp only [hloop]
    rw [if_pos ⟨hinv, by rw [hdur]; exact htime⟩]
    simp only [requestTeamNameOfTeam_eq]
    rfl
  rw [htick, hdue, if_pos rfl]
  show refreshRequests ((tickCleanup s h).actions ++ (rollCallRun _ h mc).actions) = _
  rw [refreshRequests_append, hreq, List.nil_append, hact, refreshRequests_append]
  congr 1
  · split
    · exact refreshRequests_refreshJobsFor s h s.TEAM_ONE
    · rfl
  · split
    · exact refreshRequests_refreshJobsFor s h s.TEAM_TWO
    · rfl

/-- C33 (amended): when a roll call is invalidated and retried, the tick issues the
identity-refresh requests of the connected players of `TEAM_ONE`, in enumeration order, if
that colour was flagged, followed by those of the connected players of `TEAM_TWO`, in
enumeration order, if that colour was flagged; each request has the body
`query=teamNameQuery&teamPlayers=` followed by the player's identity. When at most one
colour is flagged these are the requests of the flagged players in enumeration order; when
both are flagged and the colours differ they are the same requests, one per flagged player,
grouped by colour. Every request is for a player of a flagged colour, and a roll call
that flagged no colour issues none. -/
theorem retry_requests_by_colour (s : LeagueOverseer) (h : Host) (m : OfficialMatch)
    (hm : s.officialMatch = some m) (hdue : rollCallDue s h m = true)
    (hinv : (rollCallLoop s h.players (RollCall.start [])).invalidateRollcall = true)
    (htime : s.MATCH_ROLLCALL + 30 < m.duration) :
    ∃ r : Step, Event s h bz_EventData.bz_eTickEvent = EventResult.returned r ∧
      refreshRequests r.actions =
        (if (rollCallLoop s h.players (RollCall.start [])).teamOneError then
          refreshJobsFor s h s.TEAM_ONE else []) ++
        (if (rollCallLoop s h.players (RollCall.start [])).teamTwoError then
          refreshJobsFor s h s.TEAM_TWO else []) ∧
      ((rollCallLoop s h.players (RollCall.start [])).teamOneError = false ∨
        (rollCallLoop s h.players (RollCall.start [])).teamTwoError = false →
        refreshRequests r.actions =
          (flaggedPlayers s h (rollCallLoop s h.players (RollCall.start [])).teamOneError
            (rollCallLoop s h.players (RollCall.start [])).teamTwoError).map (refreshJob s)) ∧
      (s.TEAM_ONE ≠ s.TEAM_TWO →
        (refreshRequests r.actions).Perm
          ((flaggedPlayers s h (rollCallLoop s h.players (RollCall.start [])).teamOneError
            (rollCallLoop s h.players (RollCall.start [])).teamTwoError).map (refreshJob s))) ∧
      (∀ a ∈ refreshRequests r.actions,
        ∃ p ∈ flaggedPlayers s h (rollCallLoop s h.players (RollCall.start [])).teamOneError
            (rollCallLoop s h.players (RollCall.start [])).teamTwoError,
          a = refreshJob s p) ∧
      ((rollCallLoop s h.players (RollCall.start [])).teamOneError = false →
        (rollCallLoop s h.players (RollCall.start [])).teamTwoError = false →
        refreshRequests r.actions = []) ∧
      (∀ team, refreshJobsFor s h team =
        (h.players.filter (fun p => decide (p.team = team))).map (fun p =>
          HostAction.addURLJob s.LEAGUE_URL ("query=teamNameQuery&teamPlayers=" ++ p.bzID))) := by
  have hkey := tick_retry_requests s h m hm hdue hinv htime
  have hflag := refreshJobs_flagged s h
    (rollCallLoop s h.players (RollCall.start [])).teamOneError
    (rollCallLoop s h.players (RollCall.start [])).teamTwoError
  refine ⟨Event_bz_eTickEvent s h, rfl, hkey, fun hone => ?_, fun hne => ?_, fun a ha => ?_,
    fun h1 h2 => ?_, fun team => rfl⟩
  · rw [hkey]
    exact hflag.1 hone
  · rw [hkey]
    exact hflag.2.1 hne
  · rw [hkey] at ha
    exact hflag.2.2 a ha
  · rw [hkey, h1, h2]
    rfl

/-- Witness for C33: 900 seconds into the sample match the red players carry the labels
Reds and Blues, the green players agree; the requests are those for ann and bob. -/
theorem retry_requests_by_colour_witness :
    sampleConflict.officialMatch = some sampleMatch ∧
    rollCallDue sampleConflict sampleHost sampleMatch = true ∧
    ∃ r : Step, Event sampleConflict sampleHost bz_EventData.bz_eTickEvent =
        EventResult.returned r ∧
      refreshRequests r.actions =
        [HostAction.addURLJob "http://league.example/report"
           "query=teamNameQuery&teamPlayers=101",
         HostAction.addURLJob "http://league.example/report"
           "query=teamNameQuery&teamPlayers=102"] :=
  ⟨rfl, by decide,
   (retry_requests_by_colour sampleConflict sampleHost sampleMatch rfl (by decide)
      (by decide) (by decide)).imp (fun _ hr => ⟨hr.1, hr.2.1.trans (by decide)⟩)⟩

/-- C33, counterexample: the players are enumerated cy (green), ann (red), bob (red), dee
(green) and both colours are flagged; the requests of the retried roll call come for ann,
bob, cy, dee (identities 101, 102, 103, 104), whereas the flagged players in enumeration
order are cy, ann, bob, dee (103, 101, 102, 104). -/
theorem retry_requests_grouped :
    rollCallDue sampleBothFlagged sampleMixedHost sampleMatch = true ∧
    (rollCallLoop sampleBothFlagged sampleMixedHost.players (RollCall.start [])).teamOneError =
      true ∧
    (rollCallLoop sampleBothFlagged sampleMixedHost.players (RollCall.start [])).teamTwoError =
      true ∧
    (Event_bz_eTickEvent sampleBothFlagged sampleMixedHost).state.MATCH_ROLLCALL = 150 ∧
    Event sampleBothFlagged sampleMixedHost bz_EventData.bz_eTickEvent =
      EventResult.returned (Event_bz_eTickEvent sampleBothFlagged sampleMixedHost) ∧
    refreshRequests (Event_bz_eTickEvent sampleBothFlagged sampleMixedHost).actions =
      [HostAction.addURLJob "http://league.example/report" "query=teamNameQuery&teamPlayers=101",
       HostAction.addURLJob "http://league.example/report" "query=teamNameQuery&teamPlayers=102",
       HostAction.addURLJob "http://league.example/report" "query=teamNameQuery&teamPlayers=103",
       HostAction.addURLJob "http://league.example/report"
         "query=teamNameQuery&teamPlayers=104"] ∧
    (flaggedPlayers sampleBothFlagged sampleMixedHost true true).map
        (refreshJob sampleBothFlagged) =
      [HostAction.addURLJob "http://league.example/report" "query=teamNameQuery&teamPlayers=103",
       HostAction.addURLJob "http://league.example/report" "query=teamNameQuery&teamPlayers=101",
       HostAction.addURLJob "http://league.example/report" "query=teamNameQuery&teamPlayers=102",
       HostAction.addURLJob "http://league.example/report"
         "query=teamNameQuery&teamPlayers=104"] ∧
    refreshRequests (Event_bz_eTickEvent sampleBothFlagged sampleMixedHost).actions ≠
      (flaggedPlayers sampleBothFlagged sampleMixedHost true true).map
        (refreshJob sampleBothFlagged) := by
  refine ⟨by decide, by decide, by decide, by decide, rfl, by decide, by decide, by decide⟩

/-! ## Canceled matches -/

/-- A canceled official match stays, canceled, over every sequence of calls that holds no
game-end event. -/
theorem afterCalls_canceled (s : LeagueOverseer) (m : OfficialMatch)
    (hm : s.officialMatch = some m) (hc : m.canceled = true) (calls : List HostCall)
    (hw : ∀ c ∈ calls, endsGame c = false) :
    ∃ m', (afterCalls s calls).officialMatch = some m' ∧ m'.canceled = true := by
  induction calls generalizing s m with
  | nil => exact ⟨m, hm, hc⟩
  | cons c rest ih =>
    obtain ⟨m1, hm1, hc1, _⟩ := afterCall_match s c (hw c (List.mem_cons_self _ _)) m hm
    exact ih (afterCall s c) m1 hm1 (hc1 hc) (fun x hx => hw x (List.mem_cons_of_mem _ hx))

/-- The game-end event on a canceled official match: it returns, having broadcast the
reason and closed the recording, with the match gone. -/
theorem gameEnd_canceled (s : LeagueOverseer) (h : Host) (m : OfficialMatch)
    (hm : s.officialMatch = some m) (hc : m.canceled = true) :
    Event s h bz_EventData.bz_eGameEndEvent =
      EventResult.returned ⟨{ s with RECORDING := false, officialMatch := none },
        HostAction.sendTextMessage MessageTarget.allUsers m.cancelationReason ::
          recordingActions s h⟩ := by
  rw [gameEnd_eq]
  have hg : gameEndReport s h =
      some [HostAction.sendTextMessage MessageTarget.allUsers m.cancelationReason] := by
    simp [gameEndReport, hm, hc]
  rw [hg]
  rfl

/-- The recording block issues no job of any kind. -/
theorem refreshRequests_recordingActions (s : LeagueOverseer) (h : Host) :
    refreshRequests (recordingActions s h) = [] := by
  by_cases hrec : s.RECORDING = true
  · simp only [recordingActions, hrec, if_true]
    rfl
  · simp only [recordingActions, hrec]
    rfl

/-- While the game clock is not active a tick invokes no game-over. -/
theorem tick_no_gameOver (s : LeagueOverseer) (h : Host) (hact : h.countDownActive = false) :
    HostAction.gameOver 253 eObservers ∉ (Event_bz_eTickEvent s h).actions := by
  have hno : ∀ (x : LeagueOverseer) (t : bz_eTeamType),
      HostAction.gameOver 253 eObservers ∉ requestTeamNameOfTeam x h t := by
    intro x t hmem
    simp [requestTeamNameOfTeam, requestTeamName] at hmem
  have hclean : (tickCleanup s h).actions = [] := by
    unfold tickCleanup
    simp only [hact]
    split <;> rfl
  show _ ∉ (tickCleanup s h).actions ++ (tickRollCall (tickCleanup s h).state h).actions
  rw [hclean, List.nil_append]
  generalize (tickCleanup s h).state = c
  unfold tickRollCall
  split
  · split
    · simp only
      split
      · intro hmem
        rcases List.mem_append.mp hmem with h1 | h1
        · split at h1
          · exact hno _ _ h1
          · exact absurd h1 (List.not_mem_nil _)
        · split at h1
          · exact hno _ _ h1
          · exact absurd h1 (List.not_mem_nil _)
      · exact List.not_mem_nil _
    · exact List.not_mem_nil _
  · exact List.not_mem_nil _

/-- C34: once an official match is canceled, it stays, canceled, over every sequence of
events, slash commands and job completions that holds no game-end event; the game-end event
then takes the canceled arm: it returns having broadcast the stored reason, with no report
job and no other job dispatched, and the match is gone. The all-players-left tick cancels
the match also while the game clock is not active (the pre-game countdown), a case in which
it invokes no game-over. -/
theorem canceled_stays_canceled (s : LeagueOverseer) (m : OfficialMatch)
    (hm : s.officialMatch = some m) (hc : m.canceled = true) (calls : List HostCall)
    (hw : ∀ c ∈ calls, endsGame c = false) (h : Host) :
    (∃ m', (afterCalls s calls).officialMatch = some m' ∧ m'.canceled = true ∧
      gameEndOutcome (afterCalls s calls) = MatchOutcome.OfficialCanceled m'.cancelationReason ∧
      Event (afterCalls s calls) h bz_EventData.bz_eGameEndEvent =
        EventResult.returned
          ⟨{ afterCalls s calls with RECORDING := false, officialMatch := none },
           HostAction.sendTextMessage MessageTarget.allUsers m'.cancelationReason ::
             recordingActions (afterCalls s calls) h⟩ ∧
      reportJobs (afterCalls s calls)
        (HostAction.sendTextMessage MessageTarget.allUsers m'.cancelationReason ::
          recordingActions (afterCalls s calls) h) = [] ∧
      refreshRequests
        (HostAction.sendTextMessage MessageTarget.allUsers m'.cancelationReason ::
          recordingActions (afterCalls s calls) h) = []) ∧
    (∀ (s0 : LeagueOverseer) (h0 : Host) (m0 : OfficialMatch),
      s0.officialMatch = some m0 →
      h0.teamCount eRedTeam + h0.teamCount eGreenTeam + h0.teamCount eBlueTeam +
        h0.teamCount ePurpleTeam = 0 →
      h0.countDownActive = false →
      ∃ (r : Step) (m1 : OfficialMatch),
        Event s0 h0 bz_EventData.bz_eTickEvent = EventResult.returned r ∧
        r.state.officialMatch = some m1 ∧ m1.canceled = true ∧
        HostAction.gameOver 253 eObservers ∉ r.actions) := by
  constructor
  · obtain ⟨m', hm', hc'⟩ := afterCalls_canceled s m hm hc calls hw
    refine ⟨m', hm', hc', ?_, gameEnd_canceled _ h m' hm' hc', ?_, ?_⟩
    · simp [gameEndOutcome, hm', hc']
    · rw [reportJobs_broadcast, reportJobs_recordingActions]
    · show refreshRequests ([HostAction.sendTextMessage MessageTarget.allUsers
        m'.cancelationReason] ++ recordingActions (afterCalls s calls) h) = []
      rw [refreshRequests_append, refreshRequests_recordingActions]
      rfl
  · intro s0 h0 m0 hm0 hz hact
    have hclean := tickCleanup_official s0 h0 m0 hm0
    rw [if_pos hz] at hclean
    generalize hmc : ({ m0 with
        canceled := true
        cancelationReason :=
          "Official match automatically canceled due to all players leaving the match." } :
        OfficialMatch) = mc at hclean
    have hc1 : mc.canceled = true := by rw [← hmc]
    obtain ⟨parts, hparts⟩ := rollCallRun_match { s0 with officialMatch := some mc } h0 mc
    by_cases hd : rollCallDue { s0 with officialMatch := some mc } h0 mc = true
    · refine ⟨_, { mc with matchParticipants := parts }, rfl, ?_, hc1,
        tick_no_gameOver s0 h0 hact⟩
      show (tickRollCall (tickCleanup s0 h0).state h0).state.officialMatch = _
      rw [hclean, tickRollCall_eq _ h0 _ rfl, if_pos hd]
      exact hparts
    · refine ⟨_, mc, rfl, ?_, hc1, tick_no_gameOver s0 h0 hact⟩
      show (tickRollCall (tickCleanup s0 h0).state h0).state.officialMatch = _
      rw [hclean, tickRollCall_eq _ h0 _ rfl, if_neg hd]

/-- Witness for C34: the match is canceled by a tick of the pre-game countdown; the
players return, the game starts, red scores and the roll call records four players; the
match is still canceled and its game end takes the canceled arm. -/
theorem canceled_stays_canceled_witness :
    sampleAbandoned.officialMatch = some sampleAbandonedMatch ∧
    sampleAbandonedMatch.canceled = true ∧
    ((afterCalls sampleAbandoned sampleReplay).officialMatch.map
      (fun m => (m.teamOnePoints, m.matchParticipants.length))) = some (1, 4) ∧
    ∃ m', (afterCalls sampleAbandoned sampleReplay).officialMatch = some m' ∧
      m'.canceled = true ∧
      gameEndOutcome (afterCalls sampleAbandoned sampleReplay) =
        MatchOutcome.OfficialCanceled m'.cancelationReason :=
  ⟨by decide, rfl, by decide,
   (canceled_stays_canceled sampleAbandoned sampleAbandonedMatch (by decide) rfl sampleReplay
     (fun c hc => by
       simp only [sampleReplay, List.mem_cons, List.mem_singleton, List.not_mem_nil,
         or_false] at hc
       rcases hc with hc | hc | hc <;> (rw [hc]; rfl))
     sampleHost).1.imp (fun _ hx => ⟨hx.1, hx.2.1, hx.2.2.1⟩)⟩

end Overseer
